import Mathlib

/-!
Verification of the Widow-Lang bytecode virtual machine against its
natural-language specification.

This file gives a shallow embedding, in Lean 4, of the parts of the Rust
source relevant to the frozen claims:

 * the instruction codec (src/compiler/encode.rs, decode.rs,
   instruction_type.rs, opcode.rs, register.rs);
 * the memory subsystem (src/vm/memory.rs);
 * the register file (src/vm/registers.rs);
 * the garbage collector (src/vm/gc.rs);
 * the execution engine (src/vm/vm.rs).

Conventions of the embedding:

 * Machine integers (u8, u16, u32, i32) are modelled as Nat holding the
   bit pattern; U32 abbreviates 2 to the 32.  Where the Rust source
   performs wrapping arithmetic (explicitly via wrapping_add or
   implicitly via release-mode overflow of a plain + or -), the model
   takes the result modulo U32.  Signed views of a pattern go through
   toSigned below.
 * Rust Vec indexing panics when the index is out of bounds.  Functions
   whose source can reach such a panic return Option, with none marking
   the panic; the comment at each such definition derives the exact
   condition from the source.
 * HashMap and HashSet are modelled as association lists and lists with
   unique keys; iteration order of the model is list order (the claims
   settled here are independent of iteration order).
 * Wall-clock measurements (Instant::now in gc.rs) and the f32 field
   gc_threshold of GCConfig (used only by should_collect, which no
   settled claim exercises) are not representable in this embedding;
   collection pause times are modelled as 0 and should_collect is not
   modelled.  Standard input and output of the PRINT, READ opcodes are
   likewise outside the model; executing READ is marked none.
-/

set_option maxRecDepth 10000

/-- Size of the u32 value space, 2 to the 32. -/
def U32 : Nat := 4294967296

/-! ### Auxiliary bit-level lemmas used by the codec proofs -/

theorem lor_shiftRight (x y k : Nat) : (x ||| y) >>> k = (x >>> k) ||| (y >>> k) := by
  apply Nat.eq_of_testBit_eq
  intro i
  simp [Nat.testBit_shiftRight, Nat.testBit_or]

theorem shiftRight_eq_zero {x k : Nat} (h : x < 2 ^ k) : x >>> k = 0 := by
  rw [Nat.shiftRight_eq_div_pow]
  exact Nat.div_eq_of_lt h

theorem shiftLeft_shiftRight_of_le {m n : Nat} (a : Nat) (h : n ≤ m) :
    (a <<< m) >>> n = a <<< (m - n) := by
  rw [Nat.shiftLeft_eq, Nat.shiftLeft_eq, Nat.shiftRight_eq_div_pow]
  have hpow : (2 : Nat) ^ m = 2 ^ (m - n) * 2 ^ n := by
    rw [← pow_add]
    congr 1
    omega
  rw [hpow, ← Nat.mul_assoc, Nat.mul_div_cancel _ (Nat.two_pow_pos n)]

theorem and_mask_eq_mod (x k : Nat) : x &&& (2 ^ k - 1) = x % 2 ^ k :=
  Nat.and_pow_two_sub_one_eq_mod x k

theorem and_mask_eq_self {x k : Nat} (h : x < 2 ^ k) : x &&& (2 ^ k - 1) = x := by
  rw [and_mask_eq_mod]
  exact Nat.mod_eq_of_lt h

theorem shiftLeft_and_mask_eq_zero {a m k : Nat} (h : k ≤ m) : (a <<< m) &&& (2 ^ k - 1) = 0 := by
  rw [and_mask_eq_mod, Nat.shiftLeft_eq]
  rw [show m = (m - k) + k from by omega, pow_add, ← Nat.mul_assoc]
  exact Nat.mul_mod_left _ _

theorem and31_of_lt {x : Nat} (h : x < 32) : x &&& 31 = x := by
  simpa using and_mask_eq_self (k := 5) h

theorem and255_of_lt {x : Nat} (h : x < 256) : x &&& 255 = x := by
  simpa using and_mask_eq_self (k := 8) h

theorem and65535_of_lt {x : Nat} (h : x < 65536) : x &&& 65535 = x := by
  simpa using and_mask_eq_self (k := 16) h

theorem and65535_eq_mod (x : Nat) : x &&& 65535 = x % 65536 := by
  simpa using and_mask_eq_mod x 16

theorem shl_and31 {a m : Nat} (h : 5 ≤ m) : (a <<< m) &&& 31 = 0 := by
  simpa using shiftLeft_and_mask_eq_zero (a := a) (k := 5) h

theorem shl_and65535 {a m : Nat} (h : 16 ≤ m) : (a <<< m) &&& 65535 = 0 := by
  simpa using shiftLeft_and_mask_eq_zero (a := a) (k := 16) h

theorem lor_self_and (a b : Nat) : a ||| (a &&& b) = a := by
  apply Nat.eq_of_testBit_eq
  intro i
  simp [Nat.testBit_or, Nat.testBit_and]
  cases a.testBit i <;> simp

theorem lor_high_self (x k : Nat) : x ||| ((x >>> k) <<< k) = x := by
  apply Nat.eq_of_testBit_eq
  intro i
  simp only [Nat.testBit_or, Nat.testBit_shiftLeft, Nat.testBit_shiftRight]
  rcases Nat.lt_or_ge i k with h | h
  · simp [Nat.not_le.mpr h]
  · rw [decide_eq_true h, Bool.true_and, show k + (i - k) = i from by omega]
    cases x.testBit i <;> simp

/-! ## Instruction codec

Model of src/compiler: register.rs, opcode.rs, instruction_type.rs,
encode.rs, decode.rs.  Opcode bytes are carried by the dedicated
enumerations exactly as in opcode.rs; the numeric value of each variant
is given by the toByte functions (the repr(u8) discriminants of the
source). -/

/-- Model of compiler/register.rs: a register index wrapped in a struct.
The Rust field is a u8 kept below 32 by the checked constructor. -/
structure Register where
  value : Nat
deriving DecidableEq

/-- Register::new, which rejects indices of 32 and above. -/
def Register.new (value : Nat) : Except String Register :=
  if value < 32 then Except.ok ⟨value⟩
  else Except.error "Register out of range (0-31)"

/-- Register::get_value. -/
def Register.get_value (r : Register) : Nat := r.value

/-- R-type opcodes of opcode.rs. -/
inductive RTypeOp | ADD | SUB | MUL | DIV | MOV | AND | OR | XOR | NOT
deriving DecidableEq

/-- Discriminant values of RTypeOp from opcode.rs. -/
def RTypeOp.toByte : RTypeOp → Nat
  | .ADD => 0x10
  | .SUB => 0x11
  | .MUL => 0x12
  | .DIV => 0x13
  | .MOV => 0x14
  | .AND => 0x20
  | .OR => 0x21
  | .XOR => 0x22
  | .NOT => 0x23

/-- I-type opcodes of opcode.rs. -/
inductive ITypeOp | LI | ADDI | LOAD | STORE
deriving DecidableEq

/-- Discriminant values of ITypeOp from opcode.rs. -/
def ITypeOp.toByte : ITypeOp → Nat
  | .LI => 0x30
  | .ADDI => 0x31
  | .LOAD => 0x40
  | .STORE => 0x41

/-- B-type opcodes of opcode.rs. -/
inductive BTypeOp | BEQ | BNE | BLT | BGE | BZ | BNZ
deriving DecidableEq

/-- Discriminant values of BTypeOp from opcode.rs. -/
def BTypeOp.toByte : BTypeOp → Nat
  | .BEQ => 0x50
  | .BNE => 0x51
  | .BLT => 0x52
  | .BGE => 0x53
  | .BZ => 0x54
  | .BNZ => 0x55

/-- J-type opcodes of opcode.rs. -/
inductive JTypeOp | JMP | CALL | RET
deriving DecidableEq

/-- Discriminant values of JTypeOp from opcode.rs. -/
def JTypeOp.toByte : JTypeOp → Nat
  | .JMP => 0x60
  | .CALL => 0x61
  | .RET => 0x62

/-- M-type opcodes of opcode.rs. -/
inductive MTypeOp | ALLOC | FREE | ALOAD | ASTORE
deriving DecidableEq

/-- Discriminant values of MTypeOp from opcode.rs. -/
def MTypeOp.toByte : MTypeOp → Nat
  | .ALLOC => 0x70
  | .FREE => 0x71
  | .ALOAD => 0x72
  | .ASTORE => 0x73

/-- S-type opcodes of opcode.rs. -/
inductive STypeOp | PRINT | READ | SYSCALL
deriving DecidableEq

/-- Discriminant values of STypeOp from opcode.rs. -/
def STypeOp.toByte : STypeOp → Nat
  | .PRINT => 0x80
  | .READ => 0x81
  | .SYSCALL => 0x82

/-- N-type opcodes of opcode.rs. -/
inductive NTypeOp | NOP | HALT
deriving DecidableEq

/-- Discriminant values of NTypeOp from opcode.rs. -/
def NTypeOp.toByte : NTypeOp → Nat
  | .NOP => 0x00
  | .HALT => 0x01

/-- Model of compiler/instruction_type.rs: the tagged union of the seven
instruction formats.  Field order follows the source. -/
inductive InstructionType
  | RType (opcode : RTypeOp) (rd rs rt : Register)
  | IType (opcode : ITypeOp) (rd rs : Register) (imm : Nat)
  | BType (opcode : BTypeOp) (rs rt : Register) (offset : Nat)
  | JType (opcode : JTypeOp) (addr : Nat)
  | MType (opcode : MTypeOp) (rd rs rt : Register)
  | SType (opcode : STypeOp) (rd rs : Option Register)
  | NType (opcode : NTypeOp)
deriving DecidableEq

/-- Model of compiler/encode.rs: pack an instruction into a 32-bit word.
The bit operations are those of the source; u16 immediates are Nat
values below 2 to the 16 in representable instructions. -/
def encode : InstructionType → Nat
  | .RType opcode rd rs rt =>
      (opcode.toByte <<< 24) ||| (rd.get_value <<< 19) ||| (rs.get_value <<< 14) |||
        (rt.get_value <<< 9)
  | .IType opcode rd rs imm =>
      (opcode.toByte <<< 24) ||| (rd.get_value <<< 19) ||| (rs.get_value <<< 14) ||| imm
  | .BType opcode rs rt offset =>
      (opcode.toByte <<< 24) ||| (rs.get_value <<< 19) ||| (rt.get_value <<< 14) ||| offset
  | .JType opcode addr => (opcode.toByte <<< 24) ||| addr
  | .MType opcode rd rs rt =>
      (opcode.toByte <<< 24) ||| (rd.get_value <<< 19) ||| (rs.get_value <<< 14) |||
        (rt.get_value <<< 9)
  | .SType opcode rd rs =>
      (opcode.toByte <<< 24) ||| ((rd.map Register.get_value).getD 0 <<< 19) |||
        ((rs.map Register.get_value).getD 0 <<< 14)
  | .NType opcode => opcode.toByte <<< 24

/-- Helper of decode.rs: decode_rtype, keyed by the already extracted
opcode byte.  The nested matches encode the sequential error propagation
of the source. -/
def decode_rtype (bits opcode_byte : Nat) : Except String InstructionType :=
  let opcode : RTypeOp :=
    if opcode_byte = 0x10 then .ADD
    else if opcode_byte = 0x11 then .SUB
    else if opcode_byte = 0x12 then .MUL
    else if opcode_byte = 0x13 then .DIV
    else if opcode_byte = 0x14 then .MOV
    else if opcode_byte = 0x20 then .AND
    else if opcode_byte = 0x21 then .OR
    else if opcode_byte = 0x22 then .XOR
    else .NOT
  match Register.new ((bits >>> 19) &&& 0x1F) with
  | .error e => .error e
  | .ok rd =>
    match Register.new ((bits >>> 14) &&& 0x1F) with
    | .error e => .error e
    | .ok rs =>
      match Register.new ((bits >>> 9) &&& 0x1F) with
      | .error e => .error e
      | .ok rt => .ok (.RType opcode rd rs rt)

/-- Helper of decode.rs: decode_itype. -/
def decode_itype (bits opcode_byte : Nat) : Except String InstructionType :=
  let opcode : ITypeOp :=
    if opcode_byte = 0x30 then .LI
    else if opcode_byte = 0x31 then .ADDI
    else if opcode_byte = 0x40 then .LOAD
    else .STORE
  match Register.new ((bits >>> 19) &&& 0x1F) with
  | .error e => .error e
  | .ok rd =>
    match Register.new ((bits >>> 14) &&& 0x1F) with
    | .error e => .error e
    | .ok rs => .ok (.IType opcode rd rs (bits &&& 0xFFFF))

/-- Helper of decode.rs: decode_btype. -/
def decode_btype (bits opcode_byte : Nat) : Except String InstructionType :=
  let opcode : BTypeOp :=
    if opcode_byte = 0x50 then .BEQ
    else if opcode_byte = 0x51 then .BNE
    else if opcode_byte = 0x52 then .BLT
    else if opcode_byte = 0x53 then .BGE
    else if opcode_byte = 0x54 then .BZ
    else .BNZ
  match Register.new ((bits >>> 19) &&& 0x1F) with
  | .error e => .error e
  | .ok rs =>
    match Register.new ((bits >>> 14) &&& 0x1F) with
    | .error e => .error e
    | .ok rt => .ok (.BType opcode rs rt (bits &&& 0xFFFF))

/-- Helper of decode.rs: decode_jtype. -/
def decode_jtype (bits opcode_byte : Nat) : Except String InstructionType :=
  let opcode : JTypeOp :=
    if opcode_byte = 0x60 then .JMP
    else if opcode_byte = 0x61 then .CALL
    else .RET
  .ok (.JType opcode (bits &&& 0xFFFF))

/-- Helper of decode.rs: decode_mtype. -/
def decode_mtype (bits opcode_byte : Nat) : Except String InstructionType :=
  let opcode : MTypeOp :=
    if opcode_byte = 0x70 then .ALLOC
    else if opcode_byte = 0x71 then .FREE
    else if opcode_byte = 0x72 then .ALOAD
    else .ASTORE
  match Register.new ((bits >>> 19) &&& 0x1F) with
  | .error e => .error e
  | .ok rd =>
    match Register.new ((bits >>> 14) &&& 0x1F) with
    | .error e => .error e
    | .ok rs =>
      match Register.new ((bits >>> 9) &&& 0x1F) with
      | .error e => .error e
      | .ok rt => .ok (.MType opcode rd rs rt)

/-- Helper of decode.rs: decode_stype.  Note that both optional fields
are always reconstructed as Some. -/
def decode_stype (bits opcode_byte : Nat) : Except String InstructionType :=
  let opcode : STypeOp :=
    if opcode_byte = 0x80 then .PRINT
    else if opcode_byte = 0x81 then .READ
    else .SYSCALL
  match Register.new ((bits >>> 19) &&& 0x1F) with
  | .error e => .error e
  | .ok rd =>
    match Register.new ((bits >>> 14) &&& 0x1F) with
    | .error e => .error e
    | .ok rs => .ok (.SType opcode (some rd) (some rs))

/-- Helper of decode.rs: decode_ntype. -/
def decode_ntype (_bits opcode_byte : Nat) : Except String InstructionType :=
  .ok (.NType (if opcode_byte = 0x00 then .NOP else .HALT))

/-- Model of compiler/decode.rs: classify the opcode byte into the seven
disjoint ranges and dispatch; bytes outside every range are rejected. -/
def decode (bits : Nat) : Except String InstructionType :=
  let opcode_byte := (bits >>> 24) &&& 0xFF
  if 0x10 ≤ opcode_byte ∧ opcode_byte ≤ 0x14 ∨ 0x20 ≤ opcode_byte ∧ opcode_byte ≤ 0x23 then
    decode_rtype bits opcode_byte
  else if 0x30 ≤ opcode_byte ∧ opcode_byte ≤ 0x31 ∨ 0x40 ≤ opcode_byte ∧ opcode_byte ≤ 0x41 then
    decode_itype bits opcode_byte
  else if 0x50 ≤ opcode_byte ∧ opcode_byte ≤ 0x55 then
    decode_btype bits opcode_byte
  else if 0x60 ≤ opcode_byte ∧ opcode_byte ≤ 0x62 then
    decode_jtype bits opcode_byte
  else if 0x70 ≤ opcode_byte ∧ opcode_byte ≤ 0x73 then
    decode_mtype bits opcode_byte
  else if 0x80 ≤ opcode_byte ∧ opcode_byte ≤ 0x82 then
    decode_stype bits opcode_byte
  else if opcode_byte ≤ 0x01 then
    decode_ntype bits opcode_byte
  else
    Except.error "Invalid opcode"

/-! ### Claim C1: the codec round-trip -/

theorem RTypeOp.toByte_lt_r (op : RTypeOp) : op.toByte < 256 := by cases op <;> decide

theorem ITypeOp.toByte_lt_i (op : ITypeOp) : op.toByte < 256 := by cases op <;> decide

theorem BTypeOp.toByte_lt_b (op : BTypeOp) : op.toByte < 256 := by cases op <;> decide

theorem JTypeOp.toByte_lt_j (op : JTypeOp) : op.toByte < 256 := by cases op <;> decide

theorem MTypeOp.toByte_lt_m (op : MTypeOp) : op.toByte < 256 := by cases op <;> decide

theorem STypeOp.toByte_lt_s (op : STypeOp) : op.toByte < 256 := by cases op <;> decide

theorem NTypeOp.toByte_lt_n (op : NTypeOp) : op.toByte < 256 := by cases op <;> decide

theorem shiftLeft_lt_pow {a j : Nat} (h : a < 2 ^ j) (k : Nat) : a <<< k < 2 ^ (j + k) := by
  rw [Nat.shiftLeft_eq, pow_add]
  exact (Nat.mul_lt_mul_right (Nat.two_pow_pos k)).mpr h

/-- Field extraction for the R-shaped words produced by encode for the
R and M formats: every field decodes back to itself. -/
theorem decodeFields_R {b rd rs rt : Nat} (hb : b < 256) (h1 : rd < 32) (h2 : rs < 32)
    (h3 : rt < 32) :
    (((b <<< 24 ||| rd <<< 19 ||| rs <<< 14 ||| rt <<< 9) >>> 24) &&& 0xFF = b) ∧
    (((b <<< 24 ||| rd <<< 19 ||| rs <<< 14 ||| rt <<< 9) >>> 19) &&& 0x1F = rd) ∧
    (((b <<< 24 ||| rd <<< 19 ||| rs <<< 14 ||| rt <<< 9) >>> 14) &&& 0x1F = rs) ∧
    (((b <<< 24 ||| rd <<< 19 ||| rs <<< 14 ||| rt <<< 9) >>> 9) &&& 0x1F = rt) := by
  refine ⟨?_, ?_, ?_, ?_⟩
  · rw [lor_shiftRight, lor_shiftRight, lor_shiftRight, Nat.shiftLeft_shiftRight,
      shiftRight_eq_zero (shiftLeft_lt_pow (j := 5) h1 19),
      shiftRight_eq_zero (lt_trans (shiftLeft_lt_pow (j := 5) h2 14) (by norm_num)),
      shiftRight_eq_zero (lt_trans (shiftLeft_lt_pow (j := 5) h3 9) (by norm_num)),
      Nat.or_zero, Nat.or_zero, Nat.or_zero]
    exact and255_of_lt hb
  · rw [lor_shiftRight, lor_shiftRight, lor_shiftRight,
      shiftLeft_shiftRight_of_le b (by norm_num), Nat.shiftLeft_shiftRight,
      shiftRight_eq_zero (shiftLeft_lt_pow (j := 5) h2 14),
      shiftRight_eq_zero (lt_trans (shiftLeft_lt_pow (j := 5) h3 9) (by norm_num)),
      Nat.or_zero, Nat.or_zero, Nat.and_distrib_right,
      shl_and31 (by norm_num),
      and31_of_lt h1, Nat.zero_or]
  · rw [lor_shiftRight, lor_shiftRight, lor_shiftRight,
      shiftLeft_shiftRight_of_le b (by norm_num),
      shiftLeft_shiftRight_of_le rd (by norm_num), Nat.shiftLeft_shiftRight,
      shiftRight_eq_zero (shiftLeft_lt_pow (j := 5) h3 9),
      Nat.or_zero, Nat.and_distrib_right, Nat.and_distrib_right,
      shl_and31 (by norm_num),
      shl_and31 (by norm_num),
      and31_of_lt h2, Nat.or_zero, Nat.zero_or]
  · rw [lor_shiftRight, lor_shiftRight, lor_shiftRight,
      shiftLeft_shiftRight_of_le b (by norm_num),
      shiftLeft_shiftRight_of_le rd (by norm_num),
      shiftLeft_shiftRight_of_le rs (by norm_num), Nat.shiftLeft_shiftRight,
      Nat.and_distrib_right, Nat.and_distrib_right, Nat.and_distrib_right,
      shl_and31 (by norm_num),
      shl_and31 (by norm_num),
      shl_and31 (by norm_num),
      and31_of_lt h3, Nat.zero_or, Nat.zero_or, Nat.zero_or]

/-- Field extraction for the I-shaped words produced by encode for the
I and B formats.  Because the register packed at bit 14 overlaps the
16-bit immediate at bits 15..0, the fields decode back to themselves
exactly under the compatibility condition rs % 4 = imm / 16384. -/
theorem decodeFields_I {b rd rs imm : Nat} (hb : b < 256) (h1 : rd < 32) (h2 : rs < 32)
    (h3 : imm < 65536) (hc : rs % 4 = imm / 16384) :
    (((b <<< 24 ||| rd <<< 19 ||| rs <<< 14 ||| imm) >>> 24) &&& 0xFF = b) ∧
    (((b <<< 24 ||| rd <<< 19 ||| rs <<< 14 ||| imm) >>> 19) &&& 0x1F = rd) ∧
    (((b <<< 24 ||| rd <<< 19 ||| rs <<< 14 ||| imm) >>> 14) &&& 0x1F = rs) ∧
    ((b <<< 24 ||| rd <<< 19 ||| rs <<< 14 ||| imm) &&& 0xFFFF = imm) := by
  have himm14 : imm >>> 14 = imm / 16384 := by
    rw [Nat.shiftRight_eq_div_pow]
  have himm14lt : imm >>> 14 < 32 := by
    rw [himm14]
    omega
  refine ⟨?_, ?_, ?_, ?_⟩
  · rw [lor_shiftRight, lor_shiftRight, lor_shiftRight, Nat.shiftLeft_shiftRight,
      shiftRight_eq_zero (shiftLeft_lt_pow (j := 5) h1 19),
      shiftRight_eq_zero (lt_trans (shiftLeft_lt_pow (j := 5) h2 14) (by norm_num)),
      shiftRight_eq_zero (lt_trans h3 (by norm_num : (65536 : Nat) < 2 ^ 24)),
      Nat.or_zero, Nat.or_zero, Nat.or_zero]
    exact and255_of_lt hb
  · rw [lor_shiftRight, lor_shiftRight, lor_shiftRight,
      shiftLeft_shiftRight_of_le b (by norm_num), Nat.shiftLeft_shiftRight,
      shiftRight_eq_zero (shiftLeft_lt_pow (j := 5) h2 14),
      shiftRight_eq_zero (lt_trans h3 (by norm_num : (65536 : Nat) < 2 ^ 19)),
      Nat.or_zero, Nat.or_zero, Nat.and_distrib_right,
      shl_and31 (by norm_num),
      and31_of_lt h1, Nat.zero_or]
  · rw [lor_shiftRight, lor_shiftRight, lor_shiftRight,
      shiftLeft_shiftRight_of_le b (by norm_num),
      shiftLeft_shiftRight_of_le rd (by norm_num), Nat.shiftLeft_shiftRight,
      Nat.and_distrib_right, Nat.and_distrib_right, Nat.and_distrib_right,
      shl_and31 (by norm_num),
      shl_and31 (by norm_num),
      and31_of_lt h2, and31_of_lt himm14lt,
      Nat.zero_or, Nat.zero_or, himm14, ← hc]
    have h4 : rs % 4 = rs &&& 3 := (and_mask_eq_mod rs 2).symm
    rw [h4]
    exact lor_self_and rs 3
  · rw [Nat.and_distrib_right, Nat.and_distrib_right, Nat.and_distrib_right,
      shl_and65535 (by norm_num),
      shl_and65535 (by norm_num),
      and65535_eq_mod, and65535_of_lt h3, Nat.zero_or, Nat.zero_or,
      Nat.shiftLeft_eq]
    have hmod : rs * 2 ^ 14 % 65536 = rs % 4 * 16384 := by
      have h14 : (2 : Nat) ^ 14 = 16384 := by norm_num
      rw [h14]
      omega
    rw [hmod, hc]
    have hdiv : imm / 16384 * 16384 = (imm >>> 14) <<< 14 := by
      rw [Nat.shiftRight_eq_div_pow, Nat.shiftLeft_eq]
    rw [hdiv, Nat.lor_comm]
    exact lor_high_self imm 14

/-- Field extraction for S-shaped words: opcode plus two register fields. -/
theorem decodeFields_S {b rd rs : Nat} (hb : b < 256) (h1 : rd < 32) (h2 : rs < 32) :
    (((b <<< 24 ||| rd <<< 19 ||| rs <<< 14) >>> 24) &&& 0xFF = b) ∧
    (((b <<< 24 ||| rd <<< 19 ||| rs <<< 14) >>> 19) &&& 0x1F = rd) ∧
    (((b <<< 24 ||| rd <<< 19 ||| rs <<< 14) >>> 14) &&& 0x1F = rs) := by
  refine ⟨?_, ?_, ?_⟩
  · rw [lor_shiftRight, lor_shiftRight, Nat.shiftLeft_shiftRight,
      shiftRight_eq_zero (shiftLeft_lt_pow (j := 5) h1 19),
      shiftRight_eq_zero (lt_trans (shiftLeft_lt_pow (j := 5) h2 14) (by norm_num)),
      Nat.or_zero, Nat.or_zero]
    exact and255_of_lt hb
  · rw [lor_shiftRight, lor_shiftRight, shiftLeft_shiftRight_of_le b (by norm_num),
      Nat.shiftLeft_shiftRight, shiftRight_eq_zero (shiftLeft_lt_pow (j := 5) h2 14),
      Nat.or_zero, Nat.and_distrib_right,
      shl_and31 (by norm_num),
      and31_of_lt h1, Nat.zero_or]
  · rw [lor_shiftRight, lor_shiftRight, shiftLeft_shiftRight_of_le b (by norm_num),
      shiftLeft_shiftRight_of_le rd (by norm_num), Nat.shiftLeft_shiftRight,
      Nat.and_distrib_right, Nat.and_distrib_right,
      shl_and31 (by norm_num),
      shl_and31 (by norm_num),
      and31_of_lt h2, Nat.zero_or, Nat.zero_or]

/-- Field extraction for J-shaped words: opcode plus a 16-bit address. -/
theorem decodeFields_J {b addr : Nat} (hb : b < 256) (h1 : addr < 65536) :
    (((b <<< 24 ||| addr) >>> 24) &&& 0xFF = b) ∧
    ((b <<< 24 ||| addr) &&& 0xFFFF = addr) := by
  constructor
  · rw [lor_shiftRight, Nat.shiftLeft_shiftRight,
      shiftRight_eq_zero (lt_trans h1 (by norm_num : (65536 : Nat) < 2 ^ 24)),
      Nat.or_zero]
    exact and255_of_lt hb
  · rw [Nat.and_distrib_right, shl_and65535 (by norm_num),
      and65535_of_lt h1, Nat.zero_or]

/-- Field extraction for N-shaped words: just the opcode byte. -/
theorem decodeFields_N {b : Nat} (hb : b < 256) : ((b <<< 24) >>> 24) &&& 0xFF = b := by
  rw [Nat.shiftLeft_shiftRight]
  exact and255_of_lt hb

/-- Dispatch lemma: a word whose opcode byte is an R-type byte decodes
through decode_rtype. -/
theorem decode_dispatch_R (bits : Nat) (op : RTypeOp)
    (hb : (bits >>> 24) &&& 0xFF = op.toByte) :
    decode bits = decode_rtype bits op.toByte := by
  cases op <;>
    · simp only [decode]
      rw [hb]
      simp only [RTypeOp.toByte]
      norm_num

/-- Dispatch lemma for the I-type opcode bytes. -/
theorem decode_dispatch_I (bits : Nat) (op : ITypeOp)
    (hb : (bits >>> 24) &&& 0xFF = op.toByte) :
    decode bits = decode_itype bits op.toByte := by
  cases op <;>
    · simp only [decode]
      rw [hb]
      simp only [ITypeOp.toByte]
      norm_num

/-- Dispatch lemma for the B-type opcode bytes. -/
theorem decode_dispatch_B (bits : Nat) (op : BTypeOp)
    (hb : (bits >>> 24) &&& 0xFF = op.toByte) :
    decode bits = decode_btype bits op.toByte := by
  cases op <;>
    · simp only [decode]
      rw [hb]
      simp only [BTypeOp.toByte]
      norm_num

/-- Dispatch lemma for the J-type opcode bytes. -/
theorem decode_dispatch_J (bits : Nat) (op : JTypeOp)
    (hb : (bits >>> 24) &&& 0xFF = op.toByte) :
    decode bits = decode_jtype bits op.toByte := by
  cases op <;>
    · simp only [decode]
      rw [hb]
      simp only [JTypeOp.toByte]
      norm_num

/-- Dispatch lemma for the M-type opcode bytes. -/
theorem decode_dispatch_M (bits : Nat) (op : MTypeOp)
    (hb : (bits >>> 24) &&& 0xFF = op.toByte) :
    decode bits = decode_mtype bits op.toByte := by
  cases op <;>
    · simp only [decode]
      rw [hb]
      simp only [MTypeOp.toByte]
      norm_num

/-- Dispatch lemma for the S-type opcode bytes. -/
theorem decode_dispatch_S (bits : Nat) (op : STypeOp)
    (hb : (bits >>> 24) &&& 0xFF = op.toByte) :
    decode bits = decode_stype bits op.toByte := by
  cases op <;>
    · simp only [decode]
      rw [hb]
      simp only [STypeOp.toByte]
      norm_num

/-- Dispatch lemma for the N-type opcode bytes. -/
theorem decode_dispatch_N (bits : Nat) (op : NTypeOp)
    (hb : (bits >>> 24) &&& 0xFF = op.toByte) :
    decode bits = decode_ntype bits op.toByte := by
  cases op <;>
    · simp only [decode]
      rw [hb]
      simp only [NTypeOp.toByte]
      norm_num

/-- Evaluation of decode_rtype when the field extractions are known. -/
theorem decode_rtype_eq (bits : Nat) (op : RTypeOp) {vd vs vt : Nat}
    (hrd : (bits >>> 19) &&& 0x1F = vd) (hrs : (bits >>> 14) &&& 0x1F = vs)
    (hrt : (bits >>> 9) &&& 0x1F = vt) (h1 : vd < 32) (h2 : vs < 32) (h3 : vt < 32) :
    decode_rtype bits op.toByte = Except.ok (.RType op ⟨vd⟩ ⟨vs⟩ ⟨vt⟩) := by
  cases op <;>
    · simp only [decode_rtype, RTypeOp.toByte]
      rw [hrd, hrs, hrt]
      simp [Register.new, h1, h2, h3]

/-- Evaluation of decode_itype when the field extractions are known. -/
theorem decode_itype_eq (bits : Nat) (op : ITypeOp) {vd vs vi : Nat}
    (hrd : (bits >>> 19) &&& 0x1F = vd) (hrs : (bits >>> 14) &&& 0x1F = vs)
    (hi : bits &&& 0xFFFF = vi) (h1 : vd < 32) (h2 : vs < 32) :
    decode_itype bits op.toByte = Except.ok (.IType op ⟨vd⟩ ⟨vs⟩ vi) := by
  cases op <;>
    · simp only [decode_itype, ITypeOp.toByte]
      rw [hrd, hrs, hi]
      simp [Register.new, h1, h2]

/-- Evaluation of decode_btype when the field extractions are known. -/
theorem decode_btype_eq (bits : Nat) (op : BTypeOp) {vs vt vo : Nat}
    (hrs : (bits >>> 19) &&& 0x1F = vs) (hrt : (bits >>> 14) &&& 0x1F = vt)
    (ho : bits &&& 0xFFFF = vo) (h1 : vs < 32) (h2 : vt < 32) :
    decode_btype bits op.toByte = Except.ok (.BType op ⟨vs⟩ ⟨vt⟩ vo) := by
  cases op <;>
    · simp only [decode_btype, BTypeOp.toByte]
      rw [hrs, hrt, ho]
      simp [Register.new, h1, h2]

/-- Evaluation of decode_jtype when the address extraction is known. -/
theorem decode_jtype_eq (bits : Nat) (op : JTypeOp) {va : Nat}
    (ha : bits &&& 0xFFFF = va) :
    decode_jtype bits op.toByte = Except.ok (.JType op va) := by
  cases op <;>
    · simp only [decode_jtype, JTypeOp.toByte]
      rw [ha]
      norm_num

/-- Evaluation of decode_mtype when the field extractions are known. -/
theorem decode_mtype_eq (bits : Nat) (op : MTypeOp) {vd vs vt : Nat}
    (hrd : (bits >>> 19) &&& 0x1F = vd) (hrs : (bits >>> 14) &&& 0x1F = vs)
    (hrt : (bits >>> 9) &&& 0x1F = vt) (h1 : vd < 32) (h2 : vs < 32) (h3 : vt < 32) :
    decode_mtype bits op.toByte = Except.ok (.MType op ⟨vd⟩ ⟨vs⟩ ⟨vt⟩) := by
  cases op <;>
    · simp only [decode_mtype, MTypeOp.toByte]
      rw [hrd, hrs, hrt]
      simp [Register.new, h1, h2, h3]

/-- Evaluation of decode_stype when the field extractions are known. -/
theorem decode_stype_eq (bits : Nat) (op : STypeOp) {vd vs : Nat}
    (hrd : (bits >>> 19) &&& 0x1F = vd) (hrs : (bits >>> 14) &&& 0x1F = vs)
    (h1 : vd < 32) (h2 : vs < 32) :
    decode_stype bits op.toByte = Except.ok (.SType op (some ⟨vd⟩) (some ⟨vs⟩)) := by
  cases op <;>
    · simp only [decode_stype, STypeOp.toByte]
      rw [hrd, hrs]
      simp [Register.new, h1, h2]

/-- Evaluation of decode_ntype. -/
theorem decode_ntype_eq (bits : Nat) (op : NTypeOp) :
    decode_ntype bits op.toByte = Except.ok (.NType op) := by
  cases op <;> simp [decode_ntype, NTypeOp.toByte]

/-- Conditions under which the codec round-trip actually holds, as
forced by the counterexample to C1: all register fields below 32, both
16-bit fields below 2 to the 16, both optional S-type fields present,
and for the I and B formats the low two bits of the register packed at
bit 14 must agree with the top two bits of the 16-bit field it overlaps. -/
def roundtripSafe : InstructionType → Bool
  | .RType _ rd rs rt =>
      decide (rd.value < 32) && decide (rs.value < 32) && decide (rt.value < 32)
  | .IType _ rd rs imm =>
      decide (rd.value < 32) && decide (rs.value < 32) && decide (imm < 65536) &&
        decide (rs.value % 4 = imm / 16384)
  | .BType _ rs rt offset =>
      decide (rs.value < 32) && decide (rt.value < 32) && decide (offset < 65536) &&
        decide (rt.value % 4 = offset / 16384)
  | .JType _ addr => decide (addr < 65536)
  | .MType _ rd rs rt =>
      decide (rd.value < 32) && decide (rs.value < 32) && decide (rt.value < 32)
  | .SType _ (some rd) (some rs) => decide (rd.value < 32) && decide (rs.value < 32)
  | .SType _ _ _ => false
  | .NType _ => true

/-- C1, counterexample.  The round-trip contract decode (encode x) = x
fails on representable instructions: an I-type instruction whose rs
field is nonzero modulo 4 corrupts the decoded immediate (the encoder
overlaps rs, packed at bit 14, with the 16-bit immediate), and an S-type
instruction with absent optional fields decodes with both fields
present. -/
theorem claim_C1_counterexample :
    decode (encode (InstructionType.IType .LI ⟨0⟩ ⟨1⟩ 0)) ≠
      Except.ok (InstructionType.IType .LI ⟨0⟩ ⟨1⟩ 0) ∧
    decode (encode (InstructionType.SType .PRINT none none)) ≠
      Except.ok (InstructionType.SType .PRINT none none) := by
  constructor
  · intro h
    have h2 : Except.ok (ε := String) (InstructionType.IType .LI ⟨0⟩ ⟨1⟩ 16384) =
        Except.ok (InstructionType.IType .LI ⟨0⟩ ⟨1⟩ 0) := h
    injection h2 with h3
    exact absurd h3 (by decide)
  · intro h
    have h2 : Except.ok (ε := String)
        (InstructionType.SType .PRINT (some ⟨0⟩) (some ⟨0⟩)) =
        Except.ok (InstructionType.SType .PRINT none none) := h
    injection h2 with h3
    exact absurd h3 (by decide)

/-- C1 (amended).  decode (encode x) = x holds for every instruction
satisfying roundtripSafe: unconditionally for the R, M, J and N formats
with in-width operands; for S-type only when both optional fields are
present; and for the I and B formats only when the low two bits of the
register packed at bit 14 agree with bits 15..14 of the immediate or
offset. -/
theorem claim_C1_roundtrip_amended (x : InstructionType) (h : roundtripSafe x = true) :
    decode (encode x) = Except.ok x := by
  cases x with
  | RType op rd rs rt =>
    simp only [roundtripSafe, Bool.and_eq_true, decide_eq_true_eq] at h
    obtain ⟨⟨h1, h2⟩, h3⟩ := h
    obtain ⟨hop, hrd, hrs, hrt⟩ := decodeFields_R op.toByte_lt_r h1 h2 h3
    show decode (op.toByte <<< 24 ||| rd.value <<< 19 ||| rs.value <<< 14 |||
      rt.value <<< 9) = _
    rw [decode_dispatch_R _ op hop, decode_rtype_eq _ op hrd hrs hrt h1 h2 h3]
  | IType op rd rs imm =>
    simp only [roundtripSafe, Bool.and_eq_true, decide_eq_true_eq] at h
    obtain ⟨⟨⟨h1, h2⟩, h3⟩, hc⟩ := h
    obtain ⟨hop, hrd, hrs, himm⟩ := decodeFields_I op.toByte_lt_i h1 h2 h3 hc
    show decode (op.toByte <<< 24 ||| rd.value <<< 19 ||| rs.value <<< 14 ||| imm) = _
    rw [decode_dispatch_I _ op hop, decode_itype_eq _ op hrd hrs himm h1 h2]
  | BType op rs rt offset =>
    simp only [roundtripSafe, Bool.and_eq_true, decide_eq_true_eq] at h
    obtain ⟨⟨⟨h1, h2⟩, h3⟩, hc⟩ := h
    obtain ⟨hop, hrs, hrt, hoff⟩ := decodeFields_I op.toByte_lt_b h1 h2 h3 hc
    show decode (op.toByte <<< 24 ||| rs.value <<< 19 ||| rt.value <<< 14 ||| offset) = _
    rw [decode_dispatch_B _ op hop, decode_btype_eq _ op hrs hrt hoff h1 h2]
  | JType op addr =>
    simp only [roundtripSafe, decide_eq_true_eq] at h
    obtain ⟨hop, haddr⟩ := decodeFields_J op.toByte_lt_j h
    show decode (op.toByte <<< 24 ||| addr) = _
    rw [decode_dispatch_J _ op hop, decode_jtype_eq _ op haddr]
  | MType op rd rs rt =>
    simp only [roundtripSafe, Bool.and_eq_true, decide_eq_true_eq] at h
    obtain ⟨⟨h1, h2⟩, h3⟩ := h
    obtain ⟨hop, hrd, hrs, hrt⟩ := decodeFields_R op.toByte_lt_m h1 h2 h3
    show decode (op.toByte <<< 24 ||| rd.value <<< 19 ||| rs.value <<< 14 |||
      rt.value <<< 9) = _
    rw [decode_dispatch_M _ op hop, decode_mtype_eq _ op hrd hrs hrt h1 h2 h3]
  | SType op rd rs =>
    match rd, rs with
    | none, _ => simp [roundtripSafe] at h
    | some _, none => simp [roundtripSafe] at h
    | some rd, some rs =>
      simp only [roundtripSafe, Bool.and_eq_true, decide_eq_true_eq] at h
      obtain ⟨h1, h2⟩ := h
      obtain ⟨hop, hrd, hrs⟩ := decodeFields_S op.toByte_lt_s h1 h2
      show decode (op.toByte <<< 24 ||| rd.value <<< 19 ||| rs.value <<< 14) = _
      rw [decode_dispatch_S _ op hop, decode_stype_eq _ op hrd hrs h1 h2]
  | NType op =>
    have hop := decodeFields_N op.toByte_lt_n
    show decode (op.toByte <<< 24) = _
    rw [decode_dispatch_N _ op hop, decode_ntype_eq _ op]

/-- C1, witness for the amended theorem: a concrete I-type instruction
satisfying the compatibility condition round-trips. -/
theorem claim_C1_witness :
    roundtripSafe (InstructionType.IType .ADDI ⟨2⟩ ⟨3⟩ 49157) = true ∧
    decode (encode (InstructionType.IType .ADDI ⟨2⟩ ⟨3⟩ 49157)) =
      Except.ok (InstructionType.IType .ADDI ⟨2⟩ ⟨3⟩ 49157) :=
  ⟨by decide, claim_C1_roundtrip_amended _ (by decide)⟩

/-! ## Error type

Model of src/vm/error.rs. -/

/-- Model of vm/error.rs: the VMError enumeration.  String payloads are
kept; numeric payloads are bit patterns. -/
inductive VMError
  | InvalidMemoryAddress (addr : Nat)
  | MemoryAccessViolation (addr : Nat)
  | OutOfMemory
  | InvalidRegister (reg : Nat)
  | DivisionByZero
  | InvalidInstruction (bits : Nat)
  | StackOverflow
  | StackUnderflow
  | InvalidJumpAddress (addr : Nat)
  | InvalidBranchOffset (offset : Int)
  | IOError (msg : String)
  | SystemCallError (msg : String)
  | ProgramHalted
  | InvalidOpcode (opcode : Nat)
  | AllocationFailed (size : Nat)
  | FreeFailed (addr : Nat)
  | DoubleFree (addr : Nat)
  | UseAfterFree (addr : Nat)
deriving DecidableEq

/-! ## Memory subsystem

Model of src/vm/memory.rs.  The backing Vec of bytes becomes a total
function from addresses to byte values together with the memorySize
field (the length of the Vec); every state reachable from Memory::new
with a u32 argument has memorySize below U32.  The mutating methods of
the source take and return the state explicitly here; methods whose
source can panic return Option with none marking the panic. -/

structure Memory where
  bytes : Nat → Nat
  stackPointer : Nat
  stackBase : Nat
  heapPointer : Nat
  heapBase : Nat
  allocatedBlocks : List (Nat × Nat)
  memorySize : Nat

/-- Model of Memory::new.  The code section is 64 KiB, or a quarter of
total memory for sizes of 64 KiB and below; the stack region is 1 MiB,
or a quarter of total memory for sizes of 1 MiB and below. -/
def Memory.new (memory_size : Nat) : Memory :=
  let code_section_size := if memory_size > 0x10000 then 0x10000 else memory_size / 4
  let stack_size := if memory_size > 0x100000 then 0x100000 else memory_size / 4
  let heap_base := code_section_size
  let stack_base := if memory_size > stack_size then memory_size - stack_size
    else memory_size * 3 / 4
  { bytes := fun _ => 0
    stackPointer := stack_base
    stackBase := stack_base
    heapPointer := heap_base
    heapBase := heap_base
    allocatedBlocks := []
    memorySize := memory_size }

/-- Model of Memory::read_byte. -/
def Memory.read_byte (m : Memory) (address : Nat) : Except VMError Nat :=
  if address ≥ m.memorySize then Except.error (VMError.InvalidMemoryAddress address)
  else Except.ok (m.bytes address)

/-- Model of Memory::write_byte. -/
def Memory.write_byte (m : Memory) (address value : Nat) : Except VMError Memory :=
  if address ≥ m.memorySize then Except.error (VMError.InvalidMemoryAddress address)
  else Except.ok { m with bytes := fun a => if a = address then value else m.bytes a }

/-- Model of Memory::read_word (little endian).  The source checks
address + 3 >= memory_size with the addition performed on u32, so for
address at or above U32 - 3 the sum wraps; when the wrapped check
passes, the subsequent Vec indexing reaches an index of at least
U32 - 3 ≥ memorySize and panics (none).  When address + 3 does not
wrap, a passed check puts all four indices in range. -/
def Memory.read_word (m : Memory) (address : Nat) : Option (Except VMError Nat) :=
  if (address + 3) % U32 ≥ m.memorySize then
    some (Except.error (VMError.InvalidMemoryAddress address))
  else if address + 3 < U32 then
    some (Except.ok (m.bytes address + m.bytes (address + 1) * 256 +
      m.bytes (address + 2) * 65536 + m.bytes (address + 3) * 16777216))
  else none

/-- Byte image of memory after storing a u32 little-endian: byte i of
the stored word is value / 256 ^ i % 256. -/
def Memory.writeWordBytes (m : Memory) (address value : Nat) : Nat → Nat := fun a =>
  if a = address then value % 256
  else if a = address + 1 then value / 256 % 256
  else if a = address + 2 then value / 65536 % 256
  else if a = address + 3 then value / 16777216 % 256
  else m.bytes a

/-- Model of Memory::write_word (little endian); the bounds check and
the panic case are as in read_word; the stored bytes are
writeWordBytes. -/
def Memory.write_word (m : Memory) (address value : Nat) : Option (Except VMError Memory) :=
  if (address + 3) % U32 ≥ m.memorySize then
    some (Except.error (VMError.InvalidMemoryAddress address))
  else if address + 3 < U32 then
    some (Except.ok { m with bytes := m.writeWordBytes address value })
  else none

/-- Loop of Memory::load_program: write word number i at address 4 i,
aborting at the first failed write (earlier words stay written). -/
def Memory.loadProgramAux (m : Memory) (bytecode : List Nat) (i : Nat) :
    Option (Memory × Option VMError) :=
  match bytecode with
  | [] => some (m, none)
  | w :: rest =>
    match m.write_word (i * 4) w with
    | none => none
    | some (Except.error e) => some (m, some e)
    | some (Except.ok m') => Memory.loadProgramAux m' rest (i + 1)

/-- Model of Memory::load_program.  The up-front size check compares
the byte length of the program against the fixed constant 0x10000,
not against the code-region size of this memory. -/
def Memory.load_program (m : Memory) (bytecode : List Nat) : Option (Memory × Option VMError) :=
  if bytecode.length * 4 > 0x10000 then some (m, some VMError.OutOfMemory)
  else m.loadProgramAux bytecode 0

/-- Model of Memory::allocate.  Sizes are aligned up to 4 bytes with
the u32 computation (size + 3) & !3 (wrapping for sizes above
U32 - 4); the space check compares the advanced heap pointer against
stack_base, the fixed top of the stack region, not against the current
stack pointer.  On success the old heap pointer is returned and the
block is recorded in the allocation table. -/
def Memory.allocate (m : Memory) (size : Nat) : Memory × Except VMError Nat :=
  if size = 0 then (m, Except.error (VMError.AllocationFailed size))
  else
    let aligned_size := ((size + 3) % U32) &&& 0xFFFFFFFC
    if (m.heapPointer + aligned_size) % U32 ≥ m.stackBase then
      (m, Except.error VMError.OutOfMemory)
    else
      ({ m with
          heapPointer := (m.heapPointer + aligned_size) % U32
          allocatedBlocks := (m.heapPointer, aligned_size) ::
            m.allocatedBlocks.filter (fun p => p.1 != m.heapPointer) },
        Except.ok m.heapPointer)

/-- Zeroing loop of Memory::free: write_byte at address + i for
i = 0 .. size - 1, ignoring write errors (the source continues on Ok
and silently skips failures).  The u32 address addition wraps. -/
def Memory.zeroLoop (m : Memory) (address off n : Nat) : Memory :=
  match n with
  | 0 => m
  | n + 1 =>
    let m' := match m.write_byte ((address + off) % U32) 0 with
      | Except.ok mm => mm
      | Except.error _ => m
    Memory.zeroLoop m' address (off + 1) n

/-- Model of Memory::free: remove the recorded allocation (failing with
FreeFailed when the address is not recorded), then zero its bytes. -/
def Memory.free (m : Memory) (address : Nat) : Memory × Option VMError :=
  match m.allocatedBlocks.lookup address with
  | some size =>
    ((Memory.zeroLoop
        { m with allocatedBlocks := m.allocatedBlocks.filter (fun p => p.1 != address) }
        address 0 size), none)
  | none => (m, some (VMError.FreeFailed address))

/-- Model of Memory::stack_push.  The guard compares against
heap_pointer + 4 computed on u32; the stack pointer is then decremented
by 4 (u32 wrapping subtraction) before the word is written, so on a
failed write the decrement persists, as in the source. -/
def Memory.stack_push (m : Memory) (value : Nat) : Option (Memory × Option VMError) :=
  if m.stackPointer < (m.heapPointer + 4) % U32 then some (m, some VMError.StackOverflow)
  else
    let m1 := { m with stackPointer := (m.stackPointer + U32 - 4) % U32 }
    match m1.write_word m1.stackPointer value with
    | none => none
    | some (Except.error e) => some (m1, some e)
    | some (Except.ok m2) => some (m2, none)

/-- Model of Memory::stack_pop.  On a failed read the pointer is not
advanced, as in the source. -/
def Memory.stack_pop (m : Memory) : Option (Memory × Except VMError Nat) :=
  if m.stackPointer ≥ m.stackBase then some (m, Except.error VMError.StackUnderflow)
  else
    match m.read_word m.stackPointer with
    | none => none
    | some (Except.error e) => some (m, Except.error e)
    | some (Except.ok value) =>
      some ({ m with stackPointer := (m.stackPointer + 4) % U32 }, Except.ok value)

/-- Model of Memory::get_stats, dropping the f32 fragmentation metric
(floating point, used by no modelled caller).  The u32 subtractions of
the source are wrapping. -/
structure MemoryStats where
  totalMemory : Nat
  heapUsed : Nat
  stackUsed : Nat
  allocatedBlocks : Nat

/-- Statistics of the memory state; see MemoryStats. -/
def Memory.get_stats (m : Memory) : MemoryStats :=
  { totalMemory := m.memorySize
    heapUsed := (m.heapPointer + U32 - m.heapBase) % U32
    stackUsed := (m.stackBase + U32 - m.stackPointer) % U32
    allocatedBlocks := m.allocatedBlocks.length }

/-! ### Claim C10: totality of read_word / write_word -/

/-- C10 (code bug).  The public word accessors are not total: for
addresses in range they succeed and at ordinary out-of-range addresses
they return InvalidMemoryAddress, but at addresses at or above
U32 - 3 the u32 bounds check address + 3 wraps, can pass, and the byte
indexing then panics instead of returning an error.  The failing input
below is Memory::new(8) with address 0xFFFFFFFF: the wrapped check
computes 2, which is below the memory size 8, and the access panics
(modelled as none). -/
theorem claim_C10_word_access_panics :
    (Memory.new 8).read_word 0 = some (Except.ok 0) ∧
    (Memory.new 8).read_word 5 = some (Except.error (VMError.InvalidMemoryAddress 5)) ∧
    (Memory.new 8).write_word 5 7 = some (Except.error (VMError.InvalidMemoryAddress 5)) ∧
    (Memory.new 8).read_word 4294967295 = none ∧
    (Memory.new 8).write_word 4294967295 0 = none := by
  refine ⟨rfl, rfl, rfl, rfl, rfl⟩

/-! ### Claim C3: the memory ordering invariant -/

/-- Executable refutation scenario for C3 and the stack-pointer part of
C6: in a 2 MiB memory, push two words (stack pointer 0xFFFF8), then
allocate 983036 bytes; the allocation succeeds because the source only
checks against stack_base, and leaves the heap pointer 0xFFFFC above
the stack pointer 0xFFFF8. -/
def c3ScenarioCheck : Bool :=
  match (Memory.new 2097152).stack_push 0 with
  | some (m1, none) =>
    match m1.stack_push 0 with
    | some (m2, none) =>
      match m2.allocate 983036 with
      | (m3, Except.ok addr) =>
        decide (addr = 65536) && decide (m3.stackPointer < m3.heapPointer) &&
          decide (m3.stackPointer = 1048568) && decide (m3.heapPointer = 1048572)
      | _ => false
    | _ => false
  | _ => false

/-- C3, counterexample.  The claimed ordering fails in two ways: a
fresh Memory of size 0x10001 starts with heap pointer 65536 above
stack pointer 49153 (the region formulas cross for sizes just above
64 KiB), and even from a well-formed initial memory a successful
allocate can push the heap pointer past the stack pointer, because
allocate checks the advanced heap pointer against stack_base rather
than against the current stack pointer (scenario c3ScenarioCheck). -/
theorem claim_C3_counterexample :
    ¬ ((Memory.new 65537).heapPointer ≤ (Memory.new 65537).stackPointer) ∧
    c3ScenarioCheck = true := by
  exact ⟨by decide, rfl⟩

/-- The ordering invariant the memory operations do preserve: both
pointers stay inside their region bounds and the stack pointer stays
4-aligned below stack_base, but nothing orders heap pointer against
stack pointer. -/
def Memory.inv (m : Memory) : Prop :=
  m.heapBase ≤ m.heapPointer ∧ m.heapPointer ≤ m.stackBase ∧
  m.heapBase ≤ m.stackPointer ∧ m.stackPointer ≤ m.stackBase ∧
  m.stackBase ≤ m.memorySize ∧ m.memorySize < U32 ∧ m.stackBase + 4 < U32 ∧
  4 ∣ (m.stackBase - m.stackPointer)

theorem Memory.write_byte_ok_fields {m mm : Memory} {x v : Nat}
    (h : m.write_byte x v = Except.ok mm) :
    mm.stackPointer = m.stackPointer ∧ mm.stackBase = m.stackBase ∧
    mm.heapPointer = m.heapPointer ∧ mm.heapBase = m.heapBase ∧
    mm.memorySize = m.memorySize ∧ mm.allocatedBlocks = m.allocatedBlocks := by
  unfold Memory.write_byte at h
  split at h
  · exact absurd h (by simp)
  · injection h with h'
    rw [← h']
    exact ⟨rfl, rfl, rfl, rfl, rfl, rfl⟩

theorem Memory.zeroLoop_fields (a : Nat) (n : Nat) :
    ∀ (m : Memory) (off : Nat),
    (Memory.zeroLoop m a off n).stackPointer = m.stackPointer ∧
    (Memory.zeroLoop m a off n).stackBase = m.stackBase ∧
    (Memory.zeroLoop m a off n).heapPointer = m.heapPointer ∧
    (Memory.zeroLoop m a off n).heapBase = m.heapBase ∧
    (Memory.zeroLoop m a off n).memorySize = m.memorySize ∧
    (Memory.zeroLoop m a off n).allocatedBlocks = m.allocatedBlocks := by
  induction n with
  | zero => intro m off; simp [Memory.zeroLoop]
  | succ n ih =>
    intro m off
    simp only [Memory.zeroLoop]
    cases hwb : m.write_byte ((a + off) % U32) 0 with
    | error e =>
      simpa using ih m (off + 1)
    | ok mm =>
      obtain ⟨e1, e2, e3, e4, e5, e6⟩ := Memory.write_byte_ok_fields hwb
      have := ih mm (off + 1)
      simp only [e1, e2, e3, e4, e5, e6] at this
      simpa using this

/-- C3 (amended).  For every total size below U32 whose region formulas
put heap_base at or below stack_base, the fresh memory satisfies
Memory.inv and starts with the heap pointer at or below the stack
pointer; Memory.inv is preserved by stack_push, stack_pop and free
unconditionally and by allocate whenever the advanced heap pointer does
not wrap past U32.  The full claimed ordering, with the heap pointer
below the stack pointer, is refuted by claim_C3_counterexample: it
fails initially for sizes such as 0x10001 and is not preserved by
allocate, which checks only against stack_base. -/
theorem claim_C3_invariant_amended :
    (∀ ms : Nat, ms < U32 → (Memory.new ms).heapBase ≤ (Memory.new ms).stackBase →
      Memory.inv (Memory.new ms) ∧
        (Memory.new ms).heapPointer ≤ (Memory.new ms).stackPointer) ∧
    (∀ (m : Memory) (v : Nat), Memory.inv m →
      ∃ m' e, m.stack_push v = some (m', e) ∧ Memory.inv m') ∧
    (∀ m : Memory, Memory.inv m →
      ∃ m' r, m.stack_pop = some (m', r) ∧ Memory.inv m') ∧
    (∀ (m : Memory) (size : Nat), Memory.inv m →
      m.heapPointer + (((size + 3) % U32) &&& 0xFFFFFFFC) < U32 →
      Memory.inv (m.allocate size).1) ∧
    (∀ (m : Memory) (a : Nat), Memory.inv m → Memory.inv (m.free a).1) := by
  refine ⟨?_, ?_, ?_, ?_, ?_⟩
  · intro ms h1 h2
    simp only [Memory.new, Memory.inv, U32] at *
    constructor
    · split_ifs at * <;> omega
    · split_ifs at * <;> omega
  · intro m v hinv
    obtain ⟨i1, i2, i3, i4, i5, i6, i7, i8⟩ := hinv
    have hhp4 : (m.heapPointer + 4) % U32 = m.heapPointer + 4 := by
      apply Nat.mod_eq_of_lt
      simp only [U32] at *
      omega
    simp only [Memory.stack_push, hhp4]
    by_cases hlt : m.stackPointer < m.heapPointer + 4
    · rw [if_pos hlt]
      exact ⟨m, some VMError.StackOverflow, rfl, ⟨i1, i2, i3, i4, i5, i6, i7, i8⟩⟩
    · rw [if_neg hlt]
      have hsp4 : (m.stackPointer + U32 - 4) % U32 = m.stackPointer - 4 := by
        simp only [U32] at *
        omega
      rw [hsp4]
      simp only [Memory.write_word]
      have hc1 : ¬ ((m.stackPointer - 4 + 3) % U32 ≥ m.memorySize) := by
        simp only [U32] at *
        omega
      rw [if_neg hc1, if_pos (show m.stackPointer - 4 + 3 < U32 by simp only [U32] at *; omega)]
      refine ⟨_, none, rfl, ?_⟩
      simp only [Memory.inv, U32] at *
      omega
  · intro m hinv
    obtain ⟨i1, i2, i3, i4, i5, i6, i7, i8⟩ := hinv
    simp only [Memory.stack_pop]
    by_cases hge : m.stackPointer ≥ m.stackBase
    · rw [if_pos hge]
      exact ⟨m, Except.error VMError.StackUnderflow, rfl, ⟨i1, i2, i3, i4, i5, i6, i7, i8⟩⟩
    · rw [if_neg hge]
      simp only [Memory.read_word]
      have hc1 : ¬ ((m.stackPointer + 3) % U32 ≥ m.memorySize) := by
        simp only [U32] at *
        omega
      rw [if_neg hc1, if_pos (show m.stackPointer + 3 < U32 by simp only [U32] at *; omega)]
      refine ⟨_, _, rfl, ?_⟩
      simp only [Memory.inv, U32] at *
      omega
  · intro m size hinv hnw
    simp only [Memory.allocate]
    by_cases h0 : size = 0
    · rw [if_pos h0]
      exact hinv
    · rw [if_neg h0]
      have hmod : (m.heapPointer + (((size + 3) % U32) &&& 0xFFFFFFFC)) % U32 =
          m.heapPointer + (((size + 3) % U32) &&& 0xFFFFFFFC) := Nat.mod_eq_of_lt hnw
      rw [hmod]
      by_cases hge : m.heapPointer + (((size + 3) % U32) &&& 0xFFFFFFFC) ≥ m.stackBase
      · rw [if_pos hge]
        exact hinv
      · rw [if_neg hge]
        simp only [Memory.inv, U32] at *
        revert hge
        generalize ((size + 3) % 4294967296) &&& 4294967292 = al
        intro hge
        omega
  · intro m a hinv
    simp only [Memory.free]
    cases hl : m.allocatedBlocks.lookup a with
    | none => exact hinv
    | some size =>
      obtain ⟨e1, e2, e3, e4, e5, e6⟩ :=
        Memory.zeroLoop_fields a size
          { m with allocatedBlocks := m.allocatedBlocks.filter (fun p => p.1 != a) } 0
      simp only [Memory.inv] at *
      rw [e1, e2, e3, e4, e5]
      exact hinv

/-- C3, witness: a fresh 1 KiB memory satisfies the invariant and a
push preserves it. -/
theorem claim_C3_witness :
    (Memory.inv (Memory.new 1024) ∧
      (Memory.new 1024).heapPointer ≤ (Memory.new 1024).stackPointer) ∧
    (∃ m' e, (Memory.new 1024).stack_push 7 = some (m', e) ∧ Memory.inv m') :=
  ⟨claim_C3_invariant_amended.1 1024 (by decide) (by decide),
    claim_C3_invariant_amended.2.1 (Memory.new 1024) 7
      (claim_C3_invariant_amended.1 1024 (by decide) (by decide)).1⟩

/-! ### Claim C6: allocate -/

theorem lookup_filter_ne {β : Type} {b k : Nat} (l : List (Nat × β)) (h : b ≠ k) :
    (l.filter (fun p => p.1 != k)).lookup b = l.lookup b := by
  induction l with
  | nil => rfl
  | cons hd tl ih =>
    by_cases hk : hd.1 = k
    · have : (hd.1 != k) = false := by simp [hk]
      simp only [List.filter_cons, this, if_neg (by simp : ¬ (false = true)), ih]
      have hb : (b == hd.1) = false := by simp [hk, h]
      simp [List.lookup, hb]
    · have : (hd.1 != k) = true := by simp [hk]
      simp only [List.filter_cons, this, if_pos rfl]
      cases hbe : b == hd.1 with
      | true => simp [List.lookup, hbe]
      | false => simp [List.lookup, hbe, ih]

theorem lookup_filter_self {β : Type} {k : Nat} (l : List (Nat × β)) :
    (l.filter (fun p => p.1 != k)).lookup k = none := by
  induction l with
  | nil => rfl
  | cons hd tl ih =>
    by_cases hk : hd.1 = k
    · have : (hd.1 != k) = false := by simp [hk]
      simp [List.filter_cons, this, ih]
    · have : (hd.1 != k) = true := by simp [hk]
      have hb : (k == hd.1) = false := by simp [Ne.symm hk]
      simp [List.filter_cons, this, List.lookup, hb, ih]

/-- The u32 masking (x) & !3 on a non-wrapped sum equals rounding down
to a multiple of 4. -/
theorem and_mask_fffffffc {x : Nat} (h : x < U32) : x &&& 0xFFFFFFFC = x / 4 * 4 := by
  have hmask : (0xFFFFFFFC : Nat) = (2 ^ 30 - 1) <<< 2 := by
    rw [Nat.shiftLeft_eq]
    norm_num
  have hx4 : x / 4 * 4 = (x >>> 2) <<< 2 := by
    rw [Nat.shiftRight_eq_div_pow, Nat.shiftLeft_eq]
  rw [hmask, hx4]
  apply Nat.eq_of_testBit_eq
  intro i
  simp only [Nat.testBit_and, Nat.testBit_shiftLeft, Nat.testBit_two_pow_sub_one,
    Nat.testBit_shiftRight]
  rcases Nat.lt_or_ge i 2 with h2 | h2
  · rw [decide_eq_false (by omega : ¬ 2 ≤ i)]
    simp
  · rw [decide_eq_true (show 2 ≤ i from h2)]
    rcases Nat.lt_or_ge i 32 with h3 | h3
    · rw [decide_eq_true (by omega : i - 2 < 30), show 2 + (i - 2) = i from by omega]
      simp
    · have hx : x.testBit i = false := by
        apply Nat.testBit_lt_two_pow
        calc x < U32 := h
        _ = 2 ^ 32 := by norm_num [U32]
        _ ≤ 2 ^ i := Nat.pow_le_pow_right (by norm_num) h3
      rw [decide_eq_false (by omega : ¬ i - 2 < 30),
        show 2 + (i - 2) = i from by omega, hx]
      simp

/-- C6, counterexample scenario: same 2 MiB memory with two pushed
words; allocate(983036) advances the heap pointer to 1048572, at or
past the stack pointer 1048568, yet succeeds, because the source checks
against stack_base (1048576) rather than the stack pointer. -/
def c6ScenarioCheck : Bool :=
  match (Memory.new 2097152).stack_push 0 with
  | some (m1, none) =>
    match m1.stack_push 0 with
    | some (m2, none) =>
      decide (m2.stackPointer ≤ m2.heapPointer + 983036) &&
        match m2.allocate 983036 with
        | (m3, Except.ok _) => decide (m2.stackPointer ≤ m3.heapPointer)
        | _ => false
    | _ => false
  | _ => false

/-- C6, counterexample: an allocation whose advanced heap pointer
reaches and passes the current stack pointer nonetheless succeeds, so
the failure condition is not the one claimed. -/
theorem claim_C6_counterexample : c6ScenarioCheck = true := rfl

/-- Evaluation of a successful allocate call. -/
theorem Memory.allocate_success {m : Memory} {size : Nat} (h0 : 0 < size)
    (hw : size + 3 < U32) (hnw : m.heapPointer + (size + 3) / 4 * 4 < U32)
    (hlt : m.heapPointer + (size + 3) / 4 * 4 < m.stackBase) :
    m.allocate size =
      ({ m with
          heapPointer := m.heapPointer + (size + 3) / 4 * 4
          allocatedBlocks := (m.heapPointer, (size + 3) / 4 * 4) ::
            m.allocatedBlocks.filter (fun p => p.1 != m.heapPointer) },
        Except.ok m.heapPointer) := by
  simp only [Memory.allocate, if_neg (by omega : ¬ size = 0)]
  rw [Nat.mod_eq_of_lt hw, and_mask_fffffffc hw, Nat.mod_eq_of_lt hnw, if_neg (by omega)]

/-- C6 (amended).  allocate(0) fails; for nonzero sizes (without u32
wrap of size + 3) the size is rounded up to the next multiple of 4 and
the call fails with OutOfMemory exactly when the advanced heap pointer
would reach or pass stack_base, the fixed top of the stack region (not
the current stack pointer, per claim_C6_counterexample); on success the
old heap pointer is returned, advanced by the aligned size, the block
is recorded, other table entries are untouched, and two consecutive
successful allocations yield adjacent, non-overlapping ranges. -/
theorem claim_C6_allocate_amended :
    (∀ m : Memory, m.allocate 0 = (m, Except.error (VMError.AllocationFailed 0))) ∧
    (∀ (m : Memory) (size : Nat), 0 < size → size + 3 < U32 →
      ((size + 3) / 4 * 4 < size + 4 ∧ size ≤ (size + 3) / 4 * 4 ∧
        (size + 3) / 4 * 4 % 4 = 0) ∧
      (m.heapPointer + (size + 3) / 4 * 4 < U32 →
        ((m.stackBase ≤ m.heapPointer + (size + 3) / 4 * 4 →
          m.allocate size = (m, Except.error VMError.OutOfMemory)) ∧
         (m.heapPointer + (size + 3) / 4 * 4 < m.stackBase →
          (m.allocate size).2 = Except.ok m.heapPointer ∧
          (m.allocate size).1.heapPointer = m.heapPointer + (size + 3) / 4 * 4 ∧
          (m.allocate size).1.allocatedBlocks.lookup m.heapPointer =
            some ((size + 3) / 4 * 4) ∧
          (∀ b, b ≠ m.heapPointer →
            (m.allocate size).1.allocatedBlocks.lookup b = m.allocatedBlocks.lookup b))))) ∧
    (∀ (m : Memory) (s1 s2 : Nat), 0 < s1 → 0 < s2 → s1 + 3 < U32 → s2 + 3 < U32 →
      m.stackBase < U32 →
      m.heapPointer + (s1 + 3) / 4 * 4 + (s2 + 3) / 4 * 4 < m.stackBase →
      (m.allocate s1).2 = Except.ok m.heapPointer ∧
      ((m.allocate s1).1.allocate s2).2 = Except.ok (m.heapPointer + (s1 + 3) / 4 * 4) ∧
      (∀ x y, x < (s1 + 3) / 4 * 4 → y < (s2 + 3) / 4 * 4 →
        m.heapPointer + x ≠ (m.heapPointer + (s1 + 3) / 4 * 4) + y)) := by
  have halign : ∀ size : Nat, 0 < size → size + 3 < U32 →
      ((size + 3) % U32) &&& 0xFFFFFFFC = (size + 3) / 4 * 4 := by
    intro size h0 hw
    rw [Nat.mod_eq_of_lt hw, and_mask_fffffffc hw]
  refine ⟨?_, ?_, ?_⟩
  · intro m
    simp [Memory.allocate]
  · intro m size h0 hw
    refine ⟨by omega, ?_⟩
    intro hnw
    constructor
    · intro hge
      simp only [Memory.allocate, if_neg (by omega : ¬ size = 0), halign size h0 hw]
      rw [Nat.mod_eq_of_lt hnw, if_pos (by omega)]
    · intro hlt
      simp only [Memory.allocate, if_neg (by omega : ¬ size = 0), halign size h0 hw]
      rw [Nat.mod_eq_of_lt hnw, if_neg (by omega)]
      refine ⟨rfl, rfl, ?_, ?_⟩
      · simp [List.lookup]
      · intro b hb
        have hbe : (b == m.heapPointer) = false := by simp [hb]
        simp only [List.lookup, hbe]
        exact lookup_filter_ne m.allocatedBlocks hb
  · intro m s1 s2 h1 h2 hw1 hw2 hsb hfit
    have hnw1 : m.heapPointer + (s1 + 3) / 4 * 4 < U32 := by omega
    have hlt1 : m.heapPointer + (s1 + 3) / 4 * 4 < m.stackBase := by omega
    rw [Memory.allocate_success h1 hw1 hnw1 hlt1]
    refine ⟨rfl, ?_, ?_⟩
    · rw [Memory.allocate_success h2 hw2
        (show m.heapPointer + (s1 + 3) / 4 * 4 + (s2 + 3) / 4 * 4 < U32 by omega)
        (show m.heapPointer + (s1 + 3) / 4 * 4 + (s2 + 3) / 4 * 4 < m.stackBase from hfit)]
    · intro x y hx hy
      omega

/-- C6, witness: in a fresh 1 KiB memory, allocate(0) fails,
allocate(5) returns 256 and advances the heap pointer by the aligned
size 8, and a following allocate(6) returns the adjacent address 264. -/
theorem claim_C6_witness :
    (Memory.new 1024).allocate 0 =
      (Memory.new 1024, Except.error (VMError.AllocationFailed 0)) ∧
    ((Memory.new 1024).allocate 5).2 = Except.ok 256 ∧
    ((Memory.new 1024).allocate 5).1.heapPointer = 264 ∧
    (((Memory.new 1024).allocate 5).1.allocate 6).2 = Except.ok 264 := by
  refine ⟨claim_C6_allocate_amended.1 (Memory.new 1024), ?_, ?_, ?_⟩
  · exact ((((claim_C6_allocate_amended.2.1 (Memory.new 1024) 5 (by decide)
      (by decide)).2) (by decide)).2 (by decide)).1
  · exact ((((claim_C6_allocate_amended.2.1 (Memory.new 1024) 5 (by decide)
      (by decide)).2) (by decide)).2 (by decide)).2.1
  · exact (claim_C6_allocate_amended.2.2 (Memory.new 1024) 5 6 (by decide) (by decide)
      (by decide) (by decide) (by decide) (by decide)).2.1

/-! ### Claim C7: free -/

theorem Memory.zeroLoop_bytes_outside (a : Nat) (n : Nat) :
    ∀ (m : Memory) (off y : Nat), a + off + n ≤ U32 →
    (y < a + off ∨ a + off + n ≤ y) →
    (Memory.zeroLoop m a off n).bytes y = m.bytes y := by
  induction n with
  | zero => intro m off y _ _; rfl
  | succ n ih =>
    intro m off y hU hy
    simp only [Memory.zeroLoop]
    rw [Nat.mod_eq_of_lt (show a + off < U32 by simp only [U32] at *; omega)]
    cases hwb : m.write_byte (a + off) 0 with
    | error e => exact ih m (off + 1) y (by omega) (by omega)
    | ok mm =>
      have hbytes : mm.bytes y = m.bytes y := by
        unfold Memory.write_byte at hwb
        split at hwb
        · exact absurd hwb (by simp)
        · injection hwb with h'
          rw [← h']
          exact if_neg (by omega)
      rw [ih mm (off + 1) y (by omega) (by omega), hbytes]

theorem Memory.zeroLoop_bytes_zero (a : Nat) (n : Nat) :
    ∀ (m : Memory) (off x : Nat), a + off + n ≤ U32 →
    off ≤ x → x < off + n → a + x < m.memorySize →
    (Memory.zeroLoop m a off n).bytes (a + x) = 0 := by
  induction n with
  | zero => intro m off x _ h1 h2 _; omega
  | succ n ih =>
    intro m off x hU h1 h2 hms
    simp only [Memory.zeroLoop]
    rw [Nat.mod_eq_of_lt (show a + off < U32 by simp only [U32] at *; omega)]
    rcases Nat.eq_or_lt_of_le h1 with heq | hlt
    · subst heq
      cases hwb : m.write_byte (a + off) 0 with
      | error e =>
        exfalso
        unfold Memory.write_byte at hwb
        rw [if_neg (by omega)] at hwb
        exact absurd hwb (by simp)
      | ok mm =>
        have hmm : mm.bytes (a + off) = 0 := by
          unfold Memory.write_byte at hwb
          rw [if_neg (by omega)] at hwb
          injection hwb with h'
          rw [← h']
          exact if_pos rfl
        rw [Memory.zeroLoop_bytes_outside a n mm (off + 1) (a + off) (by omega) (by omega)]
        exact hmm
    · cases hwb : m.write_byte (a + off) 0 with
      | error e => exact ih m (off + 1) x (by omega) (by omega) (by omega) hms
      | ok mm =>
        have hms' : a + x < mm.memorySize := by
          rw [(Memory.write_byte_ok_fields hwb).2.2.2.2.1]
          exact hms
        exact ih mm (off + 1) x (by omega) (by omega) (by omega) hms'

/-- C7 (confirmed).  free fails with FreeFailed exactly on addresses
with no recorded live allocation (so a second free of the same address
fails); on success the table entry is removed, every byte of the block
reads back as zero, other table entries are untouched and bytes outside
the block are untouched.  The in-range hypotheses hold for every block
recorded by allocate on a real memory. -/
theorem claim_C7_free_semantics :
    (∀ (m : Memory) (a : Nat), m.allocatedBlocks.lookup a = none →
      m.free a = (m, some (VMError.FreeFailed a))) ∧
    (∀ (m : Memory) (a size : Nat), m.allocatedBlocks.lookup a = some size →
      m.memorySize ≤ U32 → a + size ≤ m.memorySize →
      (m.free a).2 = none ∧
      (m.free a).1.allocatedBlocks.lookup a = none ∧
      ((m.free a).1.free a).2 = some (VMError.FreeFailed a) ∧
      (∀ i, i < size → (m.free a).1.read_byte (a + i) = Except.ok 0) ∧
      (∀ b, b ≠ a → (m.free a).1.allocatedBlocks.lookup b = m.allocatedBlocks.lookup b) ∧
      (∀ y, y < a ∨ a + size ≤ y → (m.free a).1.bytes y = m.bytes y)) := by
  constructor
  · intro m a hl
    simp [Memory.free, hl]
  · intro m a size hl hU hms
    have hm1ms : ({ m with allocatedBlocks :=
        m.allocatedBlocks.filter (fun p => p.1 != a) } : Memory).memorySize = m.memorySize := rfl
    have hfree : m.free a = (Memory.zeroLoop
        { m with allocatedBlocks := m.allocatedBlocks.filter (fun p => p.1 != a) } a 0 size,
        none) := by
      simp [Memory.free, hl]
    obtain ⟨f1, f2, f3, f4, f5, f6⟩ := Memory.zeroLoop_fields a size
      { m with allocatedBlocks := m.allocatedBlocks.filter (fun p => p.1 != a) } 0
    refine ⟨by rw [hfree], ?_, ?_, ?_, ?_, ?_⟩
    · rw [hfree]
      show (Memory.zeroLoop _ a 0 size).allocatedBlocks.lookup a = none
      rw [f6]
      exact lookup_filter_self _
    · rw [hfree]
      show ((Memory.zeroLoop _ a 0 size).free a).2 = some (VMError.FreeFailed a)
      have hnone : (Memory.zeroLoop
          { m with allocatedBlocks := m.allocatedBlocks.filter (fun p => p.1 != a) }
          a 0 size).allocatedBlocks.lookup a = none := by
        rw [f6]
        exact lookup_filter_self _
      simp [Memory.free, hnone]
    · intro i hi
      rw [hfree]
      show (Memory.zeroLoop _ a 0 size).read_byte (a + i) = Except.ok 0
      unfold Memory.read_byte
      rw [if_neg (by rw [f5, hm1ms]; omega)]
      rw [Memory.zeroLoop_bytes_zero a size _ 0 i (by omega) (by omega) (by omega)
        (by rw [hm1ms]; omega)]
    · intro b hb
      rw [hfree]
      show (Memory.zeroLoop _ a 0 size).allocatedBlocks.lookup b = _
      rw [f6]
      exact lookup_filter_ne _ hb
    · intro y hy
      rw [hfree]
      show (Memory.zeroLoop _ a 0 size).bytes y = m.bytes y
      exact Memory.zeroLoop_bytes_outside a size _ 0 y (by omega) (by omega)

/-- C7, witness: allocate 8 bytes at 256 in a fresh 1 KiB memory; the
first free succeeds, the freed byte reads back zero, and the second
free fails with FreeFailed; freeing a never-allocated address fails. -/
theorem claim_C7_witness :
    (Memory.new 1024).free 999 = (Memory.new 1024, some (VMError.FreeFailed 999)) ∧
    ((((Memory.new 1024).allocate 8).1.free 256).2 = none ∧
      ((((Memory.new 1024).allocate 8).1.free 256).1.free 256).2 =
        some (VMError.FreeFailed 256) ∧
      (((Memory.new 1024).allocate 8).1.free 256).1.read_byte 259 = Except.ok 0) := by
  refine ⟨claim_C7_free_semantics.1 (Memory.new 1024) 999 rfl, ?_, ?_, ?_⟩
  · exact (claim_C7_free_semantics.2 ((Memory.new 1024).allocate 8).1 256 8 rfl
      (by decide) (by decide)).1
  · exact (claim_C7_free_semantics.2 ((Memory.new 1024).allocate 8).1 256 8 rfl
      (by decide) (by decide)).2.2.1
  · exact (claim_C7_free_semantics.2 ((Memory.new 1024).allocate 8).1 256 8 rfl
      (by decide) (by decide)).2.2.2.1 3 (by decide)

/-! ### Claim C8: load_program -/

/-- Evaluation of a successful write_word call. -/
theorem Memory.write_word_success {m : Memory} {address v : Nat}
    (h1 : address + 3 < m.memorySize) (h2 : m.memorySize ≤ U32) :
    m.write_word address v =
      some (Except.ok { m with bytes := m.writeWordBytes address v }) := by
  unfold Memory.write_word
  rw [if_neg (by rw [Nat.mod_eq_of_lt (by omega)]; omega), if_pos (by omega)]

/-- Evaluation of a successful read_word call. -/
theorem Memory.read_word_success {m : Memory} {address : Nat}
    (h1 : address + 3 < m.memorySize) (h2 : m.memorySize ≤ U32) :
    m.read_word address = some (Except.ok (m.bytes address + m.bytes (address + 1) * 256 +
      m.bytes (address + 2) * 65536 + m.bytes (address + 3) * 16777216)) := by
  unfold Memory.read_word
  rw [if_neg (by rw [Nat.mod_eq_of_lt (by omega)]; omega), if_pos (by omega)]

/-- A failing write_word call only ever reports InvalidMemoryAddress of
the accessed address. -/
theorem Memory.write_word_error_shape {m : Memory} {x v : Nat} {e : VMError}
    (h : m.write_word x v = some (Except.error e)) : e = VMError.InvalidMemoryAddress x := by
  unfold Memory.write_word at h
  split at h
  · injection h with h'
    injection h' with h2
    exact h2.symm
  · split at h
    · injection h with h'
      exact absurd h' (by simp)
    · exact absurd h (by simp)

/-- The program-loading loop, when every word fits below the memory
size, succeeds, leaves bytes below the window untouched, and stores
each word little-endian at its slot. -/
theorem Memory.loadProgramAux_ok (bc : List Nat) :
    ∀ (m : Memory) (i : Nat),
    i * 4 + bc.length * 4 ≤ m.memorySize → m.memorySize ≤ U32 → (∀ w ∈ bc, w < U32) →
    ∃ m', m.loadProgramAux bc i = some (m', none) ∧
      m'.memorySize = m.memorySize ∧
      (∀ y, y < i * 4 → m'.bytes y = m.bytes y) ∧
      (∀ j, j < bc.length → m'.read_word ((i + j) * 4) = some (Except.ok (bc.getD j 0))) := by
  induction bc with
  | nil =>
    intro m i _ _ _
    exact ⟨m, rfl, rfl, fun y _ => rfl, fun j hj => absurd hj (by simp)⟩
  | cons w rest ih =>
    intro m i hfit hU hws
    simp only [Memory.loadProgramAux]
    have hlen : (w :: rest).length = rest.length + 1 := rfl
    have hw3 : i * 4 + 3 < m.memorySize := by
      rw [hlen] at hfit
      omega
    rw [Memory.write_word_success hw3 hU]
    have hws' : ∀ v ∈ rest, v < U32 := fun v hv => hws v (List.mem_cons_of_mem w hv)
    obtain ⟨m', hrun, hms, hlow, hread⟩ := ih
      { m with bytes := m.writeWordBytes (i * 4) w }
      (i + 1) (by rw [hlen] at hfit; show (i + 1) * 4 + rest.length * 4 ≤ m.memorySize; omega)
      hU hws'
    have hms' : m'.memorySize = m.memorySize := hms
    refine ⟨m', hrun, hms', ?_, ?_⟩
    · intro y hy
      rw [hlow y (by omega)]
      show Memory.writeWordBytes m (i * 4) w y = m.bytes y
      unfold Memory.writeWordBytes
      rw [if_neg (by omega), if_neg (by omega), if_neg (by omega), if_neg (by omega)]
    · intro j hj
      cases j with
      | zero =>
        have hw3' : (i + 0) * 4 + 3 < m'.memorySize := by rw [hms']; omega
        rw [Memory.read_word_success hw3' (by rw [hms']; exact hU)]
        have hb0 : m'.bytes ((i + 0) * 4) = w % 256 := by
          rw [hlow _ (by omega)]
          show Memory.writeWordBytes m (i * 4) w ((i + 0) * 4) = w % 256
          unfold Memory.writeWordBytes
          rw [if_pos (by omega)]
        have hb1 : m'.bytes ((i + 0) * 4 + 1) = w / 256 % 256 := by
          rw [hlow _ (by omega)]
          show Memory.writeWordBytes m (i * 4) w ((i + 0) * 4 + 1) = w / 256 % 256
          unfold Memory.writeWordBytes
          rw [if_neg (by omega), if_pos (by omega)]
        have hb2 : m'.bytes ((i + 0) * 4 + 2) = w / 65536 % 256 := by
          rw [hlow _ (by omega)]
          show Memory.writeWordBytes m (i * 4) w ((i + 0) * 4 + 2) = w / 65536 % 256
          unfold Memory.writeWordBytes
          rw [if_neg (by omega), if_neg (by omega), if_pos (by omega)]
        have hb3 : m'.bytes ((i + 0) * 4 + 3) = w / 16777216 % 256 := by
          rw [hlow _ (by omega)]
          show Memory.writeWordBytes m (i * 4) w ((i + 0) * 4 + 3) = w / 16777216 % 256
          unfold Memory.writeWordBytes
          rw [if_neg (by omega), if_neg (by omega), if_neg (by omega), if_pos (by omega)]
        rw [hb0, hb1, hb2, hb3]
        have hwlt : w < U32 := hws w (List.mem_cons_self w rest)
        have : w % 256 + w / 256 % 256 * 256 + w / 65536 % 256 * 65536 +
            w / 16777216 % 256 * 16777216 = w := by
          simp only [U32] at hwlt
          omega
        rw [this]
        rfl
      | succ j =>
        have hidx : (i + (j + 1)) * 4 = ((i + 1) + j) * 4 := by omega
        rw [hidx]
        have := hread j (by rw [hlen] at hj; omega)
        rw [this]
        rfl

/-- The program-loading loop fails with InvalidMemoryAddress when some
word of the program falls outside memory. -/
theorem Memory.loadProgramAux_err (bc : List Nat) :
    ∀ (m : Memory) (i : Nat), m.memorySize ≤ U32 → i * 4 + bc.length * 4 + 3 < U32 →
    (∃ j, j < bc.length ∧ m.memorySize ≤ (i + j) * 4 + 3) →
    ∃ m' a, m.loadProgramAux bc i = some (m', some (VMError.InvalidMemoryAddress a)) := by
  induction bc with
  | nil =>
    intro m i _ _ hex
    obtain ⟨j, hj, _⟩ := hex
    exact absurd hj (by simp)
  | cons w rest ih =>
    intro m i hU hW hex
    obtain ⟨j, hj, hms⟩ := hex
    simp only [Memory.loadProgramAux]
    by_cases hfail : m.memorySize ≤ i * 4 + 3
    · have hwfail : m.write_word (i * 4) w =
          some (Except.error (VMError.InvalidMemoryAddress (i * 4))) := by
        unfold Memory.write_word
        rw [if_pos (by rw [Nat.mod_eq_of_lt (by simp only [U32] at *; omega)]; omega)]
      rw [hwfail]
      exact ⟨m, i * 4, rfl⟩
    · push_neg at hfail
      rw [Memory.write_word_success hfail hU]
      have hj0 : j ≠ 0 := by
        intro h0
        rw [h0] at hms
        omega
      refine ih _ (i + 1) hU (by simp only [List.length_cons] at hW; omega)
        ⟨j - 1, ?_, ?_⟩
      · simp only [List.length_cons] at hj
        omega
      · show m.memorySize ≤ ((i + 1) + (j - 1)) * 4 + 3
        have : (i + 1) + (j - 1) = i + j := by omega
        rw [this]
        exact hms

/-- The program-loading loop never reports OutOfMemory. -/
theorem Memory.loadProgramAux_no_oom (bc : List Nat) :
    ∀ (m : Memory) (i : Nat) (r : Memory × Option VMError),
    m.loadProgramAux bc i = some r → r.2 ≠ some VMError.OutOfMemory := by
  induction bc with
  | nil =>
    intro m i r h
    injection h with h'
    rw [← h']
    simp
  | cons w rest ih =>
    intro m i r h
    simp only [Memory.loadProgramAux] at h
    cases hw : m.write_word (i * 4) w with
    | none => rw [hw] at h; exact absurd h (by simp)
    | some res =>
      rw [hw] at h
      cases res with
      | error e =>
        injection h with h'
        rw [← h']
        have := Memory.write_word_error_shape hw
        simp [this]
      | ok m1 => exact ih m1 (i + 1) r h

/-- C8, counterexample.  In a 1 KiB memory the code region claimed by
the spec is [0, 256); a 65-word program occupies 260 bytes, so the
claim demands OutOfMemory, yet load_program succeeds (its check is the
fixed constant 0x10000) and even writes word 64 at address 256, inside
the heap region. -/
theorem claim_C8_counterexample :
    (Memory.new 1024).heapBase = 256 ∧
    ((Memory.new 1024).load_program (List.replicate 65 7)).map
      (fun r => (r.2, r.1.read_word 256)) = some (none, some (Except.ok 7)) := by
  exact ⟨rfl, rfl⟩

/-- C8 (amended).  load_program fails with OutOfMemory exactly when the
byte length of the program exceeds the fixed constant 0x10000 (64 KiB),
regardless of this memory's code-region size; below that bound it never
reports OutOfMemory: it succeeds, storing word i little-endian at
address 4 i, whenever the program also fits in total memory, and fails
with InvalidMemoryAddress (from the first out-of-range word write) when
the program exceeds total memory. -/
theorem claim_C8_load_program_amended :
    (∀ (m : Memory) (bc : List Nat), bc.length * 4 > 0x10000 →
      m.load_program bc = some (m, some VMError.OutOfMemory)) ∧
    (∀ (m : Memory) (bc : List Nat) (r : Memory × Option VMError),
      bc.length * 4 ≤ 0x10000 → m.load_program bc = some r →
      r.2 ≠ some VMError.OutOfMemory) ∧
    (∀ (m : Memory) (bc : List Nat), bc.length * 4 ≤ 0x10000 →
      bc.length * 4 ≤ m.memorySize → m.memorySize ≤ U32 → (∀ w ∈ bc, w < U32) →
      ∃ m', m.load_program bc = some (m', none) ∧
        ∀ j, j < bc.length → m'.read_word (j * 4) = some (Except.ok (bc.getD j 0))) ∧
    (∀ (m : Memory) (bc : List Nat), bc.length * 4 ≤ 0x10000 →
      m.memorySize < bc.length * 4 → m.memorySize ≤ U32 →
      ∃ m' a, m.load_program bc = some (m', some (VMError.InvalidMemoryAddress a))) := by
  refine ⟨?_, ?_, ?_, ?_⟩
  · intro m bc hgt
    simp [Memory.load_program, hgt]
  · intro m bc r hle hrun
    simp only [Memory.load_program, if_neg (by omega : ¬ bc.length * 4 > 0x10000)] at hrun
    exact Memory.loadProgramAux_no_oom bc m 0 r hrun
  · intro m bc hle hfit hU hws
    obtain ⟨m', hrun, _, _, hread⟩ := Memory.loadProgramAux_ok bc m 0
      (by omega) hU hws
    refine ⟨m', ?_, ?_⟩
    · simp only [Memory.load_program, if_neg (by omega : ¬ bc.length * 4 > 0x10000)]
      exact hrun
    · intro j hj
      have := hread j hj
      simpa using this
  · intro m bc hle hsmall hU
    obtain ⟨m', a, hrun⟩ := Memory.loadProgramAux_err bc m 0 hU
      (by simp only [U32] at *; omega) ⟨bc.length - 1, by omega, by
        show m.memorySize ≤ (0 + (bc.length - 1)) * 4 + 3
        omega⟩
    refine ⟨m', a, ?_⟩
    simp only [Memory.load_program, if_neg (by omega : ¬ bc.length * 4 > 0x10000)]
    exact hrun

/-- C8, witness: an oversized program is rejected with OutOfMemory and
a two-word program loads with both words readable back. -/
theorem claim_C8_witness :
    (Memory.new 1024).load_program (List.replicate 16385 0) =
      some (Memory.new 1024, some VMError.OutOfMemory) ∧
    (∃ m', (Memory.new 1024).load_program [1, 2] = some (m', none) ∧
      ∀ j, j < ([1, 2] : List Nat).length →
        m'.read_word (j * 4) = some (Except.ok (([1, 2] : List Nat).getD j 0))) := by
  constructor
  · exact claim_C8_load_program_amended.1 (Memory.new 1024) _
      (by rw [List.length_replicate]; norm_num)
  · exact claim_C8_load_program_amended.2.2.1 (Memory.new 1024) [1, 2] (by decide)
      (by decide) (by decide) (by decide)

/-! ## Register file

Model of src/vm/registers.rs.  The 32 i32 registers are a total
function from indices to 32-bit patterns; indices 32 and above are
rejected by read and write as in the source. -/

structure RegisterFile where
  regs : Nat → Nat

/-- Model of RegisterFile::new: all registers zero. -/
def RegisterFile.new : RegisterFile := ⟨fun _ => 0⟩

/-- Model of RegisterFile::read. -/
def RegisterFile.read (rf : RegisterFile) (reg : Nat) : Except VMError Nat :=
  if reg ≥ 32 then Except.error (VMError.InvalidRegister reg)
  else Except.ok (rf.regs reg)

/-- Model of RegisterFile::write. -/
def RegisterFile.write (rf : RegisterFile) (reg value : Nat) : Except VMError RegisterFile :=
  if reg ≥ 32 then Except.error (VMError.InvalidRegister reg)
  else Except.ok ⟨fun r => if r = reg then value else rf.regs r⟩

/-! ## Garbage collector

Model of src/vm/gc.rs.  The object table HashMap becomes an
association list with unique keys (insertion erases stale entries);
HashSet root sets become duplicate-free lists; iteration order of the
model is list order, and the claims proved below do not depend on it.
The f32 gc_threshold field of GCConfig and the wall-clock pause
measurement are not representable: gc_threshold is carried by no
modelled operation (should_collect is outside the model) and collection
times are recorded as 0. -/

/-- Model of the ObjectColor enumeration. -/
inductive ObjectColor | White | Gray | Black
deriving DecidableEq

/-- Model of ObjectMetadata. -/
structure ObjectMetadata where
  address : Nat
  size : Nat
  color : ObjectColor
  marked : Bool
  generation : Nat
  references : List Nat
deriving DecidableEq

/-- Model of GCConfig without the f32 gc_threshold field (see the
section comment). -/
structure GCConfig where
  generational : Bool
  maxHeapSize : Nat
  concurrent : Bool
deriving DecidableEq

/-- Default GCConfig of the source: generational on, 64 MiB max heap,
concurrent simulation off. -/
def GCConfig.defaultConfig : GCConfig :=
  { generational := true, maxHeapSize := 67108864, concurrent := false }

/-- Model of GCStats. -/
structure GCStats where
  collectionsPerformed : Nat
  objectsCollected : Nat
  bytesCollected : Nat
  lastCollectionTimeMs : Nat
  totalPauseTimeMs : Nat
  heapSizeBefore : Nat
  heapSizeAfter : Nat
deriving DecidableEq

/-- Default (all zero) GCStats. -/
def GCStats.defaultStats : GCStats :=
  { collectionsPerformed := 0, objectsCollected := 0, bytesCollected := 0,
    lastCollectionTimeMs := 0, totalPauseTimeMs := 0, heapSizeBefore := 0, heapSizeAfter := 0 }

/-- Model of the GarbageCollector struct.  The eight u32 generation
counters are a function from generation numbers to byte counts. -/
structure GarbageCollector where
  objects : List (Nat × ObjectMetadata)
  config : GCConfig
  stats : GCStats
  grayQueue : List Nat
  rootSet : List Nat
  writeBarrierLog : List (Nat × Nat)
  generationSizes : Nat → Nat

/-- Model of GarbageCollector::new. -/
def GarbageCollector.new (config : GCConfig) : GarbageCollector :=
  { objects := [], config := config, stats := GCStats.defaultStats, grayQueue := [],
    rootSet := [], writeBarrierLog := [], generationSizes := fun _ => 0 }

/-- Model of GarbageCollector::new_default. -/
def GarbageCollector.new_default : GarbageCollector :=
  GarbageCollector.new GCConfig.defaultConfig

/-- Model of GarbageCollector::register_object: fresh White object in
generation 0 with no references; generation counter 0 grows by the
size (u32 wrapping add). -/
def GarbageCollector.register_object (gc : GarbageCollector) (address size : Nat) :
    GarbageCollector :=
  let metadata : ObjectMetadata :=
    { address := address, size := size, color := ObjectColor.White, marked := false,
      generation := 0, references := [] }
  { gc with
      objects := (address, metadata) :: gc.objects.filter (fun p => p.1 != address)
      generationSizes := fun g =>
        if g = 0 then (gc.generationSizes 0 + size) % U32 else gc.generationSizes g }

/-- Model of GarbageCollector::unregister_object: drop the entry and
subtract its size (saturating) from its generation counter. -/
def GarbageCollector.unregister_object (gc : GarbageCollector) (address : Nat) :
    GarbageCollector :=
  match gc.objects.lookup address with
  | none => gc
  | some obj =>
    { gc with
        objects := gc.objects.filter (fun p => p.1 != address)
        generationSizes :=
          if obj.generation < 8 then
            fun g => if g = obj.generation then gc.generationSizes g - obj.size
              else gc.generationSizes g
          else gc.generationSizes }

/-- Pointwise update of one keyed entry of the object table. -/
def GarbageCollector.updateObject (objs : List (Nat × ObjectMetadata)) (a : Nat)
    (f : ObjectMetadata → ObjectMetadata) : List (Nat × ObjectMetadata) :=
  objs.map (fun p => if p.1 = a then (p.1, f p.2) else p)

/-- Model of GarbageCollector::add_reference (argument names src and
dst for the from and to of the source).  Appends the edge when absent;
in concurrent mode also logs it in the write barrier. -/
def GarbageCollector.add_reference (gc : GarbageCollector) (src dst : Nat) :
    GarbageCollector :=
  let gc1 := match gc.objects.lookup src with
    | some o =>
      if o.references.contains dst then gc
      else
        let upd := GarbageCollector.updateObject gc.objects src
          (fun q => { q with references := q.references ++ [dst] })
        { gc with objects := upd }
    | none => gc
  if gc1.config.concurrent then
    { gc1 with writeBarrierLog := gc1.writeBarrierLog ++ [(src, dst)] }
  else gc1

/-- Model of GarbageCollector::remove_reference. -/
def GarbageCollector.remove_reference (gc : GarbageCollector) (src dst : Nat) :
    GarbageCollector :=
  match gc.objects.lookup src with
  | some _ =>
    let upd := GarbageCollector.updateObject gc.objects src
      (fun q => { q with references := q.references.filter (fun r => r != dst) })
    { gc with objects := upd }
  | none => gc

/-- Model of GarbageCollector::is_valid_heap_address (the source takes
&self but reads none of it): the candidate must lie in the heap
address range recomputed from the total memory size. -/
def GarbageCollector.is_valid_heap_address (addr : Nat) (memory : Memory) : Bool :=
  let total := memory.get_stats.totalMemory
  let heap_base := if total > 0x10000 then 0x10000 else total / 4
  let stack_base := if total > 0x100000 then total - 0x100000 else total * 3 / 4
  decide (addr ≥ heap_base) && decide (addr < stack_base)

/-- HashSet::insert on the root set: no duplicates, insertion order. -/
def rootInsert (s : List Nat) (a : Nat) : List Nat :=
  if s.contains a then s else s ++ [a]

/-- Register half of build_root_set: every register value that is a
valid heap address becomes a root (RegisterFile::read never fails for
indices 0..31). -/
def scanRegisters (memory : Memory) (registers : RegisterFile) (s : List Nat) : List Nat :=
  (List.range 32).foldl (fun acc i =>
    match registers.read i with
    | Except.ok value =>
      if GarbageCollector.is_valid_heap_address value memory then rootInsert acc value
      else acc
    | Except.error _ => acc) s

/-- Stack half of build_root_set: scan words from the stack pointer up
to the approximate stack base, skipping failed reads as the source
does; a read that panics (wrapped bounds check) propagates as none.
The loop advances by 4 per iteration, so fuel of bound - current_sp
steps always suffices; the fuel-exhaustion branch is unreachable for
the fuel passed by build_root_set. -/
def scanStack (memory : Memory) (bound : Nat) :
    Nat → Nat → List Nat → Option (List Nat)
  | 0, current_sp, s => if current_sp < bound then none else some s
  | fuel + 1, current_sp, s =>
    if current_sp < bound then
      match memory.read_word current_sp with
      | none => none
      | some (Except.ok value) =>
        scanStack memory bound fuel (current_sp + 4)
          (if GarbageCollector.is_valid_heap_address value memory then rootInsert s value
           else s)
      | some (Except.error _) => scanStack memory bound fuel (current_sp + 4) s
    else some s

/-- Model of GarbageCollector::build_root_set: clear the root set, add
register candidates, then scan the live stack region up to the
approximate stack base total - total/4. -/
def GarbageCollector.build_root_set (gc : GarbageCollector) (memory : Memory)
    (registers : RegisterFile) : Option GarbageCollector :=
  match scanStack memory
      (memory.get_stats.totalMemory - memory.get_stats.totalMemory / 4)
      (memory.get_stats.totalMemory - memory.get_stats.totalMemory / 4 -
        memory.stackPointer)
      memory.stackPointer (scanRegisters memory registers []) with
  | none => none
  | some s2 => some { gc with rootSet := s2 }

/-- Model of GarbageCollector::mark_gray acting on an explicit object
table and gray queue: a White tracked object turns Gray, is flagged
marked, and joins the queue. -/
def markGrayStep (objs : List (Nat × ObjectMetadata)) (q : List Nat) (addr : Nat) :
    List (Nat × ObjectMetadata) × List Nat :=
  match objs.lookup addr with
  | some o =>
    if o.color = ObjectColor.White then
      (GarbageCollector.updateObject objs addr
        (fun o => { o with color := ObjectColor.Gray, marked := true }), q ++ [addr])
    else (objs, q)
  | none => (objs, q)

/-- Model of GarbageCollector::mark_black: gray every reference of the
object (collecting the queue additions), then color it Black. -/
def markBlackStep (objs : List (Nat × ObjectMetadata)) (addr : Nat) :
    List (Nat × ObjectMetadata) × List Nat :=
  match objs.lookup addr with
  | none => (objs, [])
  | some o =>
    (GarbageCollector.updateObject
      (o.references.foldl (fun acc r => markGrayStep acc.1 acc.2 r) (objs, [])).1 addr
      (fun o => { o with color := ObjectColor.Black }),
     (o.references.foldl (fun acc r => markGrayStep acc.1 acc.2 r) (objs, [])).2)

/-- The gray-queue drain loop of mark_phase, with explicit fuel.  Each
iteration pops one queue entry and every queue push corresponds to a
White-to-Gray transition, so the tricolor measure
2 * (White count) + (queue length) strictly decreases; the fuel
2 * length objs + length q passed by mark_phase therefore always
suffices and the fuel-exhaustion branch is unreachable there. -/
def drainGray : Nat → List (Nat × ObjectMetadata) → List Nat → List (Nat × ObjectMetadata)
  | _, objs, [] => objs
  | 0, objs, _ :: _ => objs
  | fuel + 1, objs, a :: rest =>
    let stepped := markBlackStep objs a
    drainGray fuel stepped.1 (rest ++ stepped.2)

/-- The root-seeding pass of mark_phase: gray every tracked root. -/
def seedRoots (acc : List (Nat × ObjectMetadata) × List Nat) (roots : List Nat) :
    List (Nat × ObjectMetadata) × List Nat :=
  roots.foldl (fun acc r =>
    if (acc.1.lookup r).isSome then markGrayStep acc.1 acc.2 r else acc) acc

/-- The write-barrier pass of mark_phase: gray the source of every
pending log entry whose endpoints are both tracked. -/
def seedBarrier (acc : List (Nat × ObjectMetadata) × List Nat) (log : List (Nat × Nat)) :
    List (Nat × ObjectMetadata) × List Nat :=
  log.foldl (fun acc e =>
    if (acc.1.lookup e.1).isSome && (acc.1.lookup e.2).isSome then
      markGrayStep acc.1 acc.2 e.1
    else acc) acc

/-- The reset pass opening mark_phase: every object White and unmarked. -/
def resetObjects (gc : GarbageCollector) : List (Nat × ObjectMetadata) :=
  gc.objects.map (fun p =>
    (p.1, { p.2 with color := ObjectColor.White, marked := false }))

/-- The seeded object table and gray queue of mark_phase: all objects
reset to White/unmarked, then the tracked roots and the sources of
pending write-barrier entries with both endpoints tracked grayed. -/
def markInput (gc : GarbageCollector) : List (Nat × ObjectMetadata) × List Nat :=
  seedBarrier (seedRoots (resetObjects gc, []) gc.rootSet) gc.writeBarrierLog

/-- Model of GarbageCollector::mark_phase: reset all objects to
White/unmarked, gray the tracked roots, gray the sources of pending
write-barrier entries whose endpoints are both tracked, then drain the
gray queue; the queue ends empty and the barrier log is cleared. -/
def GarbageCollector.mark_phase (gc : GarbageCollector) : GarbageCollector :=
  { gc with
      objects := drainGray (2 * (markInput gc).1.length + (markInput gc).2.length)
        (markInput gc).1 (markInput gc).2
      grayQueue := []
      writeBarrierLog := [] }

/-- Model of GarbageCollector::sweep_phase: free every White object
(ignoring free failures as the source does), unregister it, and return
the collected object and byte counts. -/
def sweepWhites (gc : GarbageCollector) : List Nat :=
  (gc.objects.filter (fun p => p.2.color == ObjectColor.White)).map (fun p => p.1)

def GarbageCollector.sweep_phase (gc : GarbageCollector) (memory : Memory) :
    GarbageCollector × Memory × Nat × Nat :=
  ((sweepWhites gc).foldl GarbageCollector.unregister_object gc,
   (sweepWhites gc).foldl (fun mm a => (mm.free a).1) memory,
   (sweepWhites gc).length,
   ((gc.objects.filter (fun p => p.2.color == ObjectColor.White)).map
     (fun p => p.2.size)).sum)

/-- Generation-counter adjustment for one promoted survivor. -/
def promoteOne (gs : Nat → Nat) (genVal size : Nat) : Nat → Nat :=
  let gs1 := if genVal < 8 then
    (fun g => if g = genVal then gs g - size else gs g) else gs
  if genVal + 1 < 8 then
    (fun g => if g = genVal + 1 then (gs1 g + size) % U32 else gs1 g) else gs1

/-- Model of GarbageCollector::promote_survivors: every marked object
below generation 7 moves up one generation, with counters adjusted. -/
def GarbageCollector.promote_survivors (gc : GarbageCollector) : GarbageCollector :=
  { gc with
      objects := gc.objects.map (fun p =>
        if p.2.marked && decide (p.2.generation < 7) then
          (p.1, { p.2 with generation := p.2.generation + 1 })
        else p)
      generationSizes :=
        (gc.objects.filter (fun p => p.2.marked && decide (p.2.generation < 7))).foldl
          (fun gs p => promoteOne gs p.2.generation p.2.size) gc.generationSizes }

/-- Model of GarbageCollector::update_stats; the collection time of the
source is a wall-clock measurement, passed as 0 by the model. -/
def GarbageCollector.update_stats (gc : GarbageCollector)
    (objectsCollected bytesCollected collectionTime heapBefore heapAfter : Nat) :
    GarbageCollector :=
  { gc with stats :=
    { collectionsPerformed := gc.stats.collectionsPerformed + 1
      objectsCollected := gc.stats.objectsCollected + objectsCollected
      bytesCollected := gc.stats.bytesCollected + bytesCollected
      lastCollectionTimeMs := collectionTime
      totalPauseTimeMs := gc.stats.totalPauseTimeMs + collectionTime
      heapSizeBefore := heapBefore
      heapSizeAfter := heapAfter } }

/-- Model of GarbageCollector::collect: root set, mark, sweep, stats,
then generational promotion.  The source signature returns a VMResult
that is always Ok; the model returns the final collector and memory,
with none marking a panic propagated from the stack scan. -/
def collectCore (gc1 : GarbageCollector) (memory : Memory) (heapBefore : Nat) :
    GarbageCollector × Memory :=
  let gc2 := gc1.mark_phase
  let swept := gc2.sweep_phase memory
  let heapAfter := swept.2.1.get_stats.heapUsed
  let gc4 := swept.1.update_stats swept.2.2.1 swept.2.2.2 0 heapBefore heapAfter
  let gc5 := if gc4.config.generational then gc4.promote_survivors else gc4
  (gc5, swept.2.1)

def GarbageCollector.collect (gc : GarbageCollector) (memory : Memory)
    (registers : RegisterFile) : Option (GarbageCollector × Memory) :=
  match gc.build_root_set memory registers with
  | none => none
  | some gc1 => some (collectCore gc1 memory memory.get_stats.heapUsed)

/-- Model of GarbageCollector::force_collect. -/
def GarbageCollector.force_collect (gc : GarbageCollector) (memory : Memory)
    (registers : RegisterFile) : Option (GarbageCollector × Memory) :=
  gc.collect memory registers

/-! ### Claim C2: reachability properties of collect -/

/-- An object is tracked with a color other than White. -/
def nonWhite (objs : List (Nat × ObjectMetadata)) (a : Nat) : Prop :=
  ∃ o, objs.lookup a = some o ∧ o.color ≠ ObjectColor.White

/-- The color-independent part of an object record. -/
def objShape (o : ObjectMetadata) : Nat × Nat × Nat × List Nat :=
  (o.address, o.size, o.generation, o.references)

/-- Two object tables agree on keys, sizes, generations and reference
lists (only colors and mark bits may differ). -/
def sameShape (old new : List (Nat × ObjectMetadata)) : Prop :=
  ∀ b, (new.lookup b).map objShape = (old.lookup b).map objShape

theorem sameShape_refl (objs : List (Nat × ObjectMetadata)) : sameShape objs objs :=
  fun _ => rfl

theorem sameShape_trans {a b c : List (Nat × ObjectMetadata)}
    (h1 : sameShape a b) (h2 : sameShape b c) : sameShape a c :=
  fun x => (h2 x).trans (h1 x)

theorem sameShape_isSome {old new : List (Nat × ObjectMetadata)} (h : sameShape old new)
    (b : Nat) : (new.lookup b).isSome = (old.lookup b).isSome := by
  have := h b
  cases ho : old.lookup b <;> cases hn : new.lookup b <;>
    simp [hn, ho] at this ⊢

theorem lookup_map_value (objs : List (Nat × ObjectMetadata))
    (g : ObjectMetadata → ObjectMetadata) (b : Nat) :
    (objs.map (fun p => (p.1, g p.2))).lookup b = (objs.lookup b).map g := by
  induction objs with
  | nil => rfl
  | cons hd tl ih =>
    cases hb : b == hd.1 with
    | true => simp [List.lookup, hb]
    | false => simp [List.lookup, hb, ih]

theorem updateObject_lookup (objs : List (Nat × ObjectMetadata)) (a : Nat)
    (f : ObjectMetadata → ObjectMetadata) (b : Nat) :
    (GarbageCollector.updateObject objs a f).lookup b =
      if b = a then (objs.lookup b).map f else objs.lookup b := by
  induction objs with
  | nil => simp [GarbageCollector.updateObject, List.lookup]
  | cons hd tl ih =>
    simp only [GarbageCollector.updateObject, List.map_cons] at ih ⊢
    by_cases hk : hd.1 = a
    · rw [if_pos hk]
      cases hbe : b == hd.1 with
      | true =>
        have hba : b = a := (eq_of_beq hbe).trans hk
        rw [if_pos hba]
        simp [List.lookup, hbe]
      | false => simp [List.lookup, hbe, ih]
    · rw [if_neg hk]
      cases hbe : b == hd.1 with
      | true =>
        have hba : ¬ b = a := by
          have := eq_of_beq hbe
          omega
        simp [List.lookup, hbe, hba]
      | false => simp [List.lookup, hbe, ih]

/-- Keys of the object table. -/
def keysOf (objs : List (Nat × ObjectMetadata)) : List Nat := objs.map Prod.fst

theorem updateObject_keys (objs : List (Nat × ObjectMetadata)) (a : Nat)
    (f : ObjectMetadata → ObjectMetadata) :
    keysOf (GarbageCollector.updateObject objs a f) = keysOf objs := by
  induction objs with
  | nil => rfl
  | cons hd tl ih =>
    simp only [GarbageCollector.updateObject, keysOf, List.map_cons] at *
    by_cases hk : hd.1 = a
    · rw [if_pos hk]
      simpa using ih
    · rw [if_neg hk]
      simpa using ih

theorem markGrayStep_queue_cases (objs : List (Nat × ObjectMetadata)) (q : List Nat)
    (r : Nat) :
    (markGrayStep objs q r).2 = q ∨ (markGrayStep objs q r).2 = q ++ [r] := by
  unfold markGrayStep
  split
  · split
    · exact Or.inr rfl
    · exact Or.inl rfl
  · exact Or.inl rfl

theorem markGrayStep_lookup_ne (objs : List (Nat × ObjectMetadata)) (q : List Nat)
    {r b : Nat} (h : b ≠ r) :
    (markGrayStep objs q r).1.lookup b = objs.lookup b := by
  unfold markGrayStep
  split
  · split
    · show (GarbageCollector.updateObject objs r
        (fun o => { o with color := ObjectColor.Gray, marked := true })).lookup b = objs.lookup b
      rw [updateObject_lookup, if_neg h]
    · rfl
  · rfl

theorem markGrayStep_shape (objs : List (Nat × ObjectMetadata)) (q : List Nat) (r : Nat) :
    sameShape objs (markGrayStep objs q r).1 := by
  intro b
  by_cases hb : b = r
  · subst hb
    unfold markGrayStep
    split
    · rename_i o heq
      split
      · show ((GarbageCollector.updateObject objs b
          (fun o => { o with color := ObjectColor.Gray, marked := true })).lookup b).map objShape =
          (objs.lookup b).map objShape
        rw [updateObject_lookup, if_pos rfl, heq]
        simp [objShape]
      · rfl
    · rfl
  · rw [markGrayStep_lookup_ne objs q hb]

theorem markGrayStep_keys (objs : List (Nat × ObjectMetadata)) (q : List Nat) (r : Nat) :
    keysOf (markGrayStep objs q r).1 = keysOf objs := by
  unfold markGrayStep
  split
  · split
    · exact updateObject_keys objs r (fun o => { o with color := ObjectColor.Gray, marked := true })
    · rfl
  · rfl

theorem markGrayStep_nonWhite_mono (objs : List (Nat × ObjectMetadata)) (q : List Nat)
    (r : Nat) {b : Nat} (h : nonWhite objs b) : nonWhite (markGrayStep objs q r).1 b := by
  obtain ⟨o, ho, hc⟩ := h
  by_cases hb : b = r
  · subst hb
    unfold markGrayStep
    split
    · rename_i o2 heq
      rw [ho] at heq
      injection heq with heq
      subst heq
      rw [if_neg hc]
      exact ⟨o, ho, hc⟩
    · rename_i heq
      rw [ho] at heq
      simp at heq
  · rw [nonWhite, markGrayStep_lookup_ne objs q hb]
    exact ⟨o, ho, hc⟩

theorem markGrayStep_white_target {objs : List (Nat × ObjectMetadata)} {q : List Nat}
    {r : Nat} {o : ObjectMetadata} (ho : objs.lookup r = some o)
    (hw : o.color = ObjectColor.White) :
    nonWhite (markGrayStep objs q r).1 r ∧ (markGrayStep objs q r).2 = q ++ [r] := by
  unfold markGrayStep
  split
  · rename_i o2 heq
    rw [ho] at heq
    injection heq with heq
    subst heq
    rw [if_pos hw]
    refine ⟨⟨{ o with color := ObjectColor.Gray, marked := true }, ?_, by simp⟩, rfl⟩
    show (GarbageCollector.updateObject objs r
      (fun o => { o with color := ObjectColor.Gray, marked := true })).lookup r =
      some { o with color := ObjectColor.Gray, marked := true }
    rw [updateObject_lookup, if_pos rfl, ho]
    rfl
  · rename_i heq
    rw [ho] at heq
    simp at heq

theorem markGrayStep_target {objs : List (Nat × ObjectMetadata)} {q : List Nat} {r : Nat}
    (h : (objs.lookup r).isSome = true) :
    nonWhite (markGrayStep objs q r).1 r := by
  cases ho : objs.lookup r with
  | none => rw [ho] at h; simp at h
  | some o =>
    by_cases hw : o.color = ObjectColor.White
    · exact (markGrayStep_white_target ho hw).1
    · unfold markGrayStep
      split
      · rename_i o2 heq
        rw [ho] at heq
        injection heq with heq
        subst heq
        rw [if_neg hw]
        exact ⟨o, ho, hw⟩
      · rename_i heq
        rw [ho] at heq
        simp at heq

/-- Number of White entries of the table. -/
def whiteCount (objs : List (Nat × ObjectMetadata)) : Nat :=
  (objs.filter (fun p => p.2.color == ObjectColor.White)).length

theorem whiteCount_cons (hd : Nat × ObjectMetadata) (tl : List (Nat × ObjectMetadata)) :
    whiteCount (hd :: tl) =
      (if hd.2.color = ObjectColor.White then 1 else 0) + whiteCount tl := by
  by_cases h : hd.2.color = ObjectColor.White
  · simp [whiteCount, List.filter_cons, h]
    omega
  · simp [whiteCount, List.filter_cons, h]

theorem whiteCount_le_length (objs : List (Nat × ObjectMetadata)) :
    whiteCount objs ≤ objs.length :=
  List.length_filter_le _ objs

theorem whiteCount_updateObject_le (objs : List (Nat × ObjectMetadata)) (a : Nat)
    (f : ObjectMetadata → ObjectMetadata)
    (hf : ∀ o, (f o).color ≠ ObjectColor.White) :
    whiteCount (GarbageCollector.updateObject objs a f) ≤ whiteCount objs := by
  induction objs with
  | nil => exact Nat.le_refl _
  | cons hd tl ih =>
    simp only [GarbageCollector.updateObject, List.map_cons] at ih ⊢
    by_cases hk : hd.1 = a
    · rw [if_pos hk, whiteCount_cons, whiteCount_cons]
      have : ¬ ((hd.1, f hd.2).2.color = ObjectColor.White) := hf hd.2
      rw [if_neg this]
      by_cases hw : hd.2.color = ObjectColor.White
      · rw [if_pos hw]; omega
      · rw [if_neg hw]; omega
    · rw [if_neg hk, whiteCount_cons, whiteCount_cons]
      omega

theorem whiteCount_updateObject_lt (objs : List (Nat × ObjectMetadata)) (a : Nat)
    (f : ObjectMetadata → ObjectMetadata) (o : ObjectMetadata)
    (ho : objs.lookup a = some o) (hw : o.color = ObjectColor.White)
    (hf : ∀ o, (f o).color ≠ ObjectColor.White) :
    whiteCount (GarbageCollector.updateObject objs a f) < whiteCount objs := by
  induction objs with
  | nil => simp [List.lookup] at ho
  | cons hd tl ih =>
    simp only [GarbageCollector.updateObject, List.map_cons] at ih ⊢
    by_cases hk : hd.1 = a
    · rw [if_pos hk, whiteCount_cons, whiteCount_cons]
      have hh : ¬ ((hd.1, f hd.2).2.color = ObjectColor.White) := hf hd.2
      rw [if_neg hh]
      have hae : (a == hd.1) = true := by
        rw [hk]
        exact beq_self_eq_true _
      simp only [List.lookup, hae] at ho
      injection ho with ho
      have hwhd : hd.2.color = ObjectColor.White := by rw [ho]; exact hw
      rw [if_pos hwhd]
      have := whiteCount_updateObject_le tl a f hf
      simp only [GarbageCollector.updateObject] at this
      omega
    · rw [if_neg hk, whiteCount_cons, whiteCount_cons]
      have hae : (a == hd.1) = false := by
        cases hcl : a == hd.1 with
        | true => exact absurd (eq_of_beq hcl).symm hk
        | false => rfl
      simp only [List.lookup, hae] at ho
      have := ih ho
      omega

theorem markGrayStep_measure (objs : List (Nat × ObjectMetadata)) (q : List Nat)
    (r : Nat) :
    whiteCount (markGrayStep objs q r).1 + (markGrayStep objs q r).2.length ≤
      whiteCount objs + q.length := by
  unfold markGrayStep
  split
  · rename_i o heq
    split
    · rename_i hw
      have h1 := whiteCount_updateObject_lt objs r
        (fun o => { o with color := ObjectColor.Gray, marked := true }) o heq hw
        (fun o2 hcon => ObjectColor.noConfusion hcon)
      have h2 : (q ++ [r]).length = q.length + 1 := by simp
      show whiteCount (GarbageCollector.updateObject objs r
        (fun o => { o with color := ObjectColor.Gray, marked := true })) +
        (q ++ [r]).length ≤ whiteCount objs + q.length
      omega
    · exact Nat.le_refl _
  · exact Nat.le_refl _

theorem grayFold_nonWhite_mono (L : List Nat) :
    ∀ (acc : List (Nat × ObjectMetadata) × List Nat) (b : Nat), nonWhite acc.1 b →
      nonWhite (L.foldl (fun acc r => markGrayStep acc.1 acc.2 r) acc).1 b := by
  induction L with
  | nil => intro acc b h; exact h
  | cons hd tl ih =>
    intro acc b h
    rw [List.foldl_cons]
    exact ih _ b (markGrayStep_nonWhite_mono acc.1 acc.2 hd h)

theorem grayFold_shape (L : List Nat) :
    ∀ (acc : List (Nat × ObjectMetadata) × List Nat),
      sameShape acc.1 (L.foldl (fun acc r => markGrayStep acc.1 acc.2 r) acc).1 := by
  induction L with
  | nil => intro acc; exact sameShape_refl _
  | cons hd tl ih =>
    intro acc
    rw [List.foldl_cons]
    exact sameShape_trans (markGrayStep_shape acc.1 acc.2 hd)
      (ih (markGrayStep acc.1 acc.2 hd))

theorem grayFold_keys (L : List Nat) :
    ∀ (acc : List (Nat × ObjectMetadata) × List Nat),
      keysOf (L.foldl (fun acc r => markGrayStep acc.1 acc.2 r) acc).1 = keysOf acc.1 := by
  induction L with
  | nil => intro acc; rfl
  | cons hd tl ih =>
    intro acc
    rw [List.foldl_cons, ih (markGrayStep acc.1 acc.2 hd),
      markGrayStep_keys acc.1 acc.2 hd]

theorem grayFold_queue_mono (L : List Nat) :
    ∀ (acc : List (Nat × ObjectMetadata) × List Nat) (x : Nat), x ∈ acc.2 →
      x ∈ (L.foldl (fun acc r => markGrayStep acc.1 acc.2 r) acc).2 := by
  induction L with
  | nil => intro acc x h; exact h
  | cons hd tl ih =>
    intro acc x h
    rw [List.foldl_cons]
    refine ih _ x ?_
    rcases markGrayStep_queue_cases acc.1 acc.2 hd with hc | hc
    · rw [hc]; exact h
    · rw [hc]; exact List.mem_append_left _ h

theorem grayFold_queue_sub (L : List Nat) :
    ∀ (acc : List (Nat × ObjectMetadata) × List Nat) (x : Nat),
      x ∈ (L.foldl (fun acc r => markGrayStep acc.1 acc.2 r) acc).2 →
      x ∈ acc.2 ∨ x ∈ L := by
  induction L with
  | nil => intro acc x h; exact Or.inl h
  | cons hd tl ih =>
    intro acc x h
    rw [List.foldl_cons] at h
    rcases ih _ x h with h2 | h2
    · rcases markGrayStep_queue_cases acc.1 acc.2 hd with hc | hc
      · rw [hc] at h2; exact Or.inl h2
      · rw [hc] at h2
        rcases List.mem_append.mp h2 with h3 | h3
        · exact Or.inl h3
        · simp at h3
          exact Or.inr (by simp [h3])
    · exact Or.inr (List.mem_cons_of_mem _ h2)

theorem grayFold_lookup_notin (L : List Nat) :
    ∀ (acc : List (Nat × ObjectMetadata) × List Nat) (b : Nat), b ∉ L →
      (L.foldl (fun acc r => markGrayStep acc.1 acc.2 r) acc).1.lookup b =
        acc.1.lookup b := by
  induction L with
  | nil => intro acc b _; rfl
  | cons hd tl ih =>
    intro acc b h
    rw [List.foldl_cons, ih _ b (fun hm => h (List.mem_cons_of_mem _ hm)),
      markGrayStep_lookup_ne acc.1 acc.2
        (fun he => h (by rw [he]; exact List.mem_cons_self hd tl))]

theorem grayFold_measure (L : List Nat) :
    ∀ (acc : List (Nat × ObjectMetadata) × List Nat),
      whiteCount (L.foldl (fun acc r => markGrayStep acc.1 acc.2 r) acc).1 +
        (L.foldl (fun acc r => markGrayStep acc.1 acc.2 r) acc).2.length ≤
      whiteCount acc.1 + acc.2.length := by
  induction L with
  | nil => intro acc; exact Nat.le_refl _
  | cons hd tl ih =>
    intro acc
    rw [List.foldl_cons]
    exact Nat.le_trans (ih _) (markGrayStep_measure acc.1 acc.2 hd)

theorem grayFold_covers (L : List Nat) :
    ∀ (acc : List (Nat × ObjectMetadata) × List Nat) (r : Nat), r ∈ L →
      (acc.1.lookup r).isSome = true →
      nonWhite (L.foldl (fun acc r => markGrayStep acc.1 acc.2 r) acc).1 r := by
  induction L with
  | nil => intro acc r h _; simp at h
  | cons hd tl ih =>
    intro acc r h ht
    rw [List.foldl_cons]
    rcases List.mem_cons.mp h with rfl | h2
    · exact grayFold_nonWhite_mono tl _ r (markGrayStep_target ht)
    · refine ih _ r h2 ?_
      rw [sameShape_isSome (markGrayStep_shape acc.1 acc.2 hd) r]
      exact ht

theorem updateObject_shape (objs : List (Nat × ObjectMetadata)) (a : Nat)
    (f : ObjectMetadata → ObjectMetadata) (hf : ∀ o, objShape (f o) = objShape o) :
    sameShape objs (GarbageCollector.updateObject objs a f) := by
  intro b
  rw [updateObject_lookup]
  by_cases hb : b = a
  · rw [if_pos hb]
    cases objs.lookup b <;> simp [hf]
  · rw [if_neg hb]

theorem updateObject_nonWhite_mono (objs : List (Nat × ObjectMetadata)) (a : Nat)
    (f : ObjectMetadata → ObjectMetadata)
    (hf : ∀ o, (f o).color ≠ ObjectColor.White) {b : Nat} (h : nonWhite objs b) :
    nonWhite (GarbageCollector.updateObject objs a f) b := by
  obtain ⟨o, ho, hc⟩ := h
  rw [nonWhite, updateObject_lookup]
  by_cases hb : b = a
  · rw [if_pos hb, ho]
    exact ⟨f o, rfl, hf o⟩
  · rw [if_neg hb]
    exact ⟨o, ho, hc⟩

theorem markBlackStep_shape (objs : List (Nat × ObjectMetadata)) (a : Nat) :
    sameShape objs (markBlackStep objs a).1 := by
  unfold markBlackStep
  split
  · exact sameShape_refl _
  · rename_i o heq
    show sameShape objs (GarbageCollector.updateObject
      (o.references.foldl (fun acc r => markGrayStep acc.1 acc.2 r) (objs, [])).1 a
      (fun o => { o with color := ObjectColor.Black }))
    exact sameShape_trans (grayFold_shape o.references (objs, []))
      (updateObject_shape _ a _ (fun o2 => rfl))

theorem markBlackStep_keys (objs : List (Nat × ObjectMetadata)) (a : Nat) :
    keysOf (markBlackStep objs a).1 = keysOf objs := by
  unfold markBlackStep
  split
  · rfl
  · rename_i o heq
    show keysOf (GarbageCollector.updateObject
      (o.references.foldl (fun acc r => markGrayStep acc.1 acc.2 r) (objs, [])).1 a
      (fun o => { o with color := ObjectColor.Black })) = keysOf objs
    rw [updateObject_keys, grayFold_keys o.references (objs, [])]

theorem markBlackStep_nonWhite_mono (objs : List (Nat × ObjectMetadata)) (a : Nat)
    {b : Nat} (h : nonWhite objs b) : nonWhite (markBlackStep objs a).1 b := by
  unfold markBlackStep
  split
  · exact h
  · rename_i o heq
    show nonWhite (GarbageCollector.updateObject
      (o.references.foldl (fun acc r => markGrayStep acc.1 acc.2 r) (objs, [])).1 a
      (fun o => { o with color := ObjectColor.Black })) b
    exact updateObject_nonWhite_mono _ a _ (fun o2 hcon => ObjectColor.noConfusion hcon)
      (grayFold_nonWhite_mono o.references (objs, []) b h)

theorem markBlackStep_refs_nonWhite {objs : List (Nat × ObjectMetadata)} {a : Nat}
    {o : ObjectMetadata} (ho : objs.lookup a = some o) {r : Nat}
    (hr : r ∈ o.references) (ht : (objs.lookup r).isSome = true) :
    nonWhite (markBlackStep objs a).1 r := by
  unfold markBlackStep
  split
  · rename_i heq
    rw [ho] at heq
    simp at heq
  · rename_i o2 heq
    rw [ho] at heq
    injection heq with heq
    subst heq
    show nonWhite (GarbageCollector.updateObject
      (o.references.foldl (fun acc r => markGrayStep acc.1 acc.2 r) (objs, [])).1 a
      (fun o => { o with color := ObjectColor.Black })) r
    exact updateObject_nonWhite_mono _ a _ (fun o2 hcon => ObjectColor.noConfusion hcon)
      (grayFold_covers o.references (objs, []) r hr ht)

theorem markBlackStep_lookup_untouched {objs : List (Nat × ObjectMetadata)} {a b : Nat}
    (h1 : b ≠ a) (h2 : ∀ o, objs.lookup a = some o → b ∉ o.references) :
    (markBlackStep objs a).1.lookup b = objs.lookup b := by
  unfold markBlackStep
  split
  · rfl
  · rename_i o heq
    show (GarbageCollector.updateObject
      (o.references.foldl (fun acc r => markGrayStep acc.1 acc.2 r) (objs, [])).1 a
      (fun o => { o with color := ObjectColor.Black })).lookup b = objs.lookup b
    rw [updateObject_lookup, if_neg h1,
      grayFold_lookup_notin o.references (objs, []) b (h2 o heq)]

theorem markBlackStep_queue_sub {objs : List (Nat × ObjectMetadata)} {a x : Nat}
    (h : x ∈ (markBlackStep objs a).2) :
    ∃ o, objs.lookup a = some o ∧ x ∈ o.references := by
  revert h
  unfold markBlackStep
  split
  · intro h; simp at h
  · rename_i o heq
    intro h
    have := grayFold_queue_sub o.references (objs, []) x h
    rcases this with h2 | h2
    · simp at h2
    · exact ⟨o, heq, h2⟩

theorem markBlackStep_measure (objs : List (Nat × ObjectMetadata)) (a : Nat) :
    whiteCount (markBlackStep objs a).1 + (markBlackStep objs a).2.length ≤
      whiteCount objs := by
  unfold markBlackStep
  split
  · simp
  · rename_i o heq
    have h1 := grayFold_measure o.references (objs, [])
    have h2 := whiteCount_updateObject_le
      (o.references.foldl (fun acc r => markGrayStep acc.1 acc.2 r) (objs, [])).1 a
      (fun o => { o with color := ObjectColor.Black })
      (fun o2 hcon => ObjectColor.noConfusion hcon)
    show whiteCount (GarbageCollector.updateObject
      (o.references.foldl (fun acc r => markGrayStep acc.1 acc.2 r) (objs, [])).1 a
      (fun o => { o with color := ObjectColor.Black })) +
      (o.references.foldl (fun acc r => markGrayStep acc.1 acc.2 r) (objs, [])).2.length ≤
      whiteCount objs
    simp at h1
    omega

theorem drainGray_succ_cons (fuel : Nat) (objs : List (Nat × ObjectMetadata))
    (a : Nat) (rest : List Nat) :
    drainGray (fuel + 1) objs (a :: rest) =
      drainGray fuel (markBlackStep objs a).1 (rest ++ (markBlackStep objs a).2) := rfl

theorem drainGray_nonWhite_mono (fuel : Nat) :
    ∀ (objs : List (Nat × ObjectMetadata)) (q : List Nat) {b : Nat},
      nonWhite objs b → nonWhite (drainGray fuel objs q) b := by
  induction fuel with
  | zero =>
    intro objs q b h
    cases q with
    | nil => exact h
    | cons a rest => exact h
  | succ f ih =>
    intro objs q b h
    cases q with
    | nil => exact h
    | cons a rest =>
      rw [drainGray_succ_cons]
      exact ih _ _ (markBlackStep_nonWhite_mono objs a h)

theorem drainGray_shape (fuel : Nat) :
    ∀ (objs : List (Nat × ObjectMetadata)) (q : List Nat),
      sameShape objs (drainGray fuel objs q) := by
  induction fuel with
  | zero =>
    intro objs q
    cases q with
    | nil => exact sameShape_refl _
    | cons a rest => exact sameShape_refl _
  | succ f ih =>
    intro objs q
    cases q with
    | nil => exact sameShape_refl _
    | cons a rest =>
      rw [drainGray_succ_cons]
      exact sameShape_trans (markBlackStep_shape objs a) (ih _ _)

theorem drainGray_keys (fuel : Nat) :
    ∀ (objs : List (Nat × ObjectMetadata)) (q : List Nat),
      keysOf (drainGray fuel objs q) = keysOf objs := by
  induction fuel with
  | zero =>
    intro objs q
    cases q with
    | nil => rfl
    | cons a rest => rfl
  | succ f ih =>
    intro objs q
    cases q with
    | nil => rfl
    | cons a rest =>
      rw [drainGray_succ_cons, ih _ _, markBlackStep_keys]

theorem objShape_references {o o2 : ObjectMetadata} (h : objShape o = objShape o2) :
    o.references = o2.references := by
  simp only [objShape, Prod.mk.injEq] at h
  exact h.2.2.2

theorem drainGray_untouched (fuel : Nat) :
    ∀ (objs : List (Nat × ObjectMetadata)) (q : List Nat) {addr : Nat}, addr ∉ q →
      (∀ b ob, objs.lookup b = some ob → addr ∉ ob.references) →
      (drainGray fuel objs q).lookup addr = objs.lookup addr := by
  induction fuel with
  | zero =>
    intro objs q addr _ _
    cases q with
    | nil => rfl
    | cons a rest => rfl
  | succ f ih =>
    intro objs q addr hq href
    cases q with
    | nil => rfl
    | cons a rest =>
      rw [drainGray_succ_cons]
      have hna : addr ≠ a := fun he => hq (by rw [he]; exact List.mem_cons_self a rest)
      have hstep := markBlackStep_lookup_untouched hna (fun o hoa => href a o hoa)
      have href2 : ∀ b ob, (markBlackStep objs a).1.lookup b = some ob →
          addr ∉ ob.references := by
        intro b ob hob
        have hsh := markBlackStep_shape objs a b
        rw [hob] at hsh
        cases hoo : objs.lookup b with
        | none => rw [hoo] at hsh; simp at hsh
        | some ob0 =>
          rw [hoo] at hsh
          simp only [Option.map_some'] at hsh
          injection hsh with hsh
          rw [objShape_references hsh]
          exact href b ob0 hoo
      have hq2 : addr ∉ rest ++ (markBlackStep objs a).2 := by
        intro hmem
        rcases List.mem_append.mp hmem with hm | hm
        · exact hq (List.mem_cons_of_mem _ hm)
        · obtain ⟨o, hoa, hrin⟩ := markBlackStep_queue_sub hm
          exact href a o hoa hrin
      rw [ih _ _ hq2 href2, hstep]

theorem drainGray_processes (fuel : Nat) :
    ∀ (objs : List (Nat × ObjectMetadata)) (q : List Nat) (a : Nat) (o : ObjectMetadata),
      2 * whiteCount objs + q.length ≤ fuel → a ∈ q → objs.lookup a = some o →
      ∀ r, r ∈ o.references → (objs.lookup r).isSome = true →
      nonWhite (drainGray fuel objs q) r := by
  induction fuel with
  | zero =>
    intro objs q a o hf ha _ r _ _
    have hlen : q.length = 0 := by omega
    rw [List.length_eq_zero] at hlen
    subst hlen
    simp at ha
  | succ f ih =>
    intro objs q a o hf ha ho r hr ht
    cases q with
    | nil => simp at ha
    | cons b rest =>
      rw [drainGray_succ_cons]
      by_cases hab : a = b
      · subst hab
        exact drainGray_nonWhite_mono f _ _ (markBlackStep_refs_nonWhite ho hr ht)
      · have ha2 : a ∈ rest := by
          rcases List.mem_cons.mp ha with h | h
          · exact absurd h hab
          · exact h
        have hsh := markBlackStep_shape objs b a
        rw [ho] at hsh
        cases hoa : (markBlackStep objs b).1.lookup a with
        | none => rw [hoa] at hsh; simp at hsh
        | some o2 =>
          rw [hoa] at hsh
          simp only [Option.map_some'] at hsh
          injection hsh with hsh
          have hrefs := objShape_references hsh
          have ht2 : ((markBlackStep objs b).1.lookup r).isSome = true := by
            rw [sameShape_isSome (markBlackStep_shape objs b) r]
            exact ht
          have hm := markBlackStep_measure objs b
          have hf2 : 2 * whiteCount (markBlackStep objs b).1 +
              (rest ++ (markBlackStep objs b).2).length ≤ f := by
            have hlen : (rest ++ (markBlackStep objs b).2).length =
              rest.length + (markBlackStep objs b).2.length := by simp
            simp only [List.length_cons] at hf
            omega
          exact ih _ _ a o2 hf2 (List.mem_append_left _ ha2) hoa r
            (by rw [hrefs]; exact hr) ht2

theorem seedRoots_cons (acc : List (Nat × ObjectMetadata) × List Nat) (hd : Nat)
    (tl : List Nat) :
    seedRoots acc (hd :: tl) =
      seedRoots (if (acc.1.lookup hd).isSome then markGrayStep acc.1 acc.2 hd else acc)
        tl := rfl

theorem seedRoots_nonWhite_mono (roots : List Nat) :
    ∀ (acc : List (Nat × ObjectMetadata) × List Nat) {addr : Nat},
      nonWhite acc.1 addr → nonWhite (seedRoots acc roots).1 addr := by
  induction roots with
  | nil => intro acc addr h; exact h
  | cons hd tl ih =>
    intro acc addr h
    rw [seedRoots_cons]
    refine ih _ ?_
    split
    · exact markGrayStep_nonWhite_mono acc.1 acc.2 hd h
    · exact h

theorem seedRoots_shape (roots : List Nat) :
    ∀ (acc : List (Nat × ObjectMetadata) × List Nat),
      sameShape acc.1 (seedRoots acc roots).1 := by
  induction roots with
  | nil => intro acc; exact sameShape_refl _
  | cons hd tl ih =>
    intro acc
    rw [seedRoots_cons]
    refine sameShape_trans ?_ (ih _)
    split
    · exact markGrayStep_shape acc.1 acc.2 hd
    · exact sameShape_refl _

theorem seedRoots_keys (roots : List Nat) :
    ∀ (acc : List (Nat × ObjectMetadata) × List Nat),
      keysOf (seedRoots acc roots).1 = keysOf acc.1 := by
  induction roots with
  | nil => intro acc; rfl
  | cons hd tl ih =>
    intro acc
    rw [seedRoots_cons, ih _]
    split
    · exact markGrayStep_keys acc.1 acc.2 hd
    · rfl

theorem seedRoots_queue_mono (roots : List Nat) :
    ∀ (acc : List (Nat × ObjectMetadata) × List Nat) {x : Nat}, x ∈ acc.2 →
      x ∈ (seedRoots acc roots).2 := by
  induction roots with
  | nil => intro acc x h; exact h
  | cons hd tl ih =>
    intro acc x h
    rw [seedRoots_cons]
    refine ih _ ?_
    split
    · rcases markGrayStep_queue_cases acc.1 acc.2 hd with hc | hc
      · rw [hc]; exact h
      · rw [hc]; exact List.mem_append_left _ h
    · exact h

theorem seedRoots_queue_sub (roots : List Nat) :
    ∀ (acc : List (Nat × ObjectMetadata) × List Nat) (x : Nat),
      x ∈ (seedRoots acc roots).2 → x ∈ acc.2 ∨ x ∈ roots := by
  induction roots with
  | nil => intro acc x h; exact Or.inl h
  | cons hd tl ih =>
    intro acc x h
    rw [seedRoots_cons] at h
    rcases ih _ x h with h2 | h2
    · revert h2
      split
      · intro h2
        rcases markGrayStep_queue_cases acc.1 acc.2 hd with hc | hc
        · rw [hc] at h2; exact Or.inl h2
        · rw [hc] at h2
          rcases List.mem_append.mp h2 with h3 | h3
          · exact Or.inl h3
          · simp at h3
            exact Or.inr (by simp [h3])
      · intro h2; exact Or.inl h2
    · exact Or.inr (List.mem_cons_of_mem _ h2)

theorem seedRoots_lookup_notin (roots : List Nat) :
    ∀ (acc : List (Nat × ObjectMetadata) × List Nat) {addr : Nat}, addr ∉ roots →
      (seedRoots acc roots).1.lookup addr = acc.1.lookup addr := by
  induction roots with
  | nil => intro acc addr _; rfl
  | cons hd tl ih =>
    intro acc addr h
    rw [seedRoots_cons, ih _ (fun hm => h (List.mem_cons_of_mem _ hm))]
    split
    · exact markGrayStep_lookup_ne acc.1 acc.2
        (fun he => h (by rw [he]; exact List.mem_cons_self hd tl))
    · rfl

theorem seedRoots_processed (roots : List Nat) :
    ∀ (acc : List (Nat × ObjectMetadata) × List Nat) {addr : Nat}, addr ∈ roots →
      (acc.1.lookup addr).isSome = true → (nonWhite acc.1 addr → addr ∈ acc.2) →
      addr ∈ (seedRoots acc roots).2 ∧ nonWhite (seedRoots acc roots).1 addr := by
  induction roots with
  | nil => intro acc addr h _ _; simp at h
  | cons hd tl ih =>
    intro acc addr hmem ht hinv
    rw [seedRoots_cons]
    by_cases hda : addr = hd
    · subst hda
      rw [if_pos ht]
      cases ho : acc.1.lookup addr with
      | none => rw [ho] at ht; simp at ht
      | some o =>
        by_cases hw : o.color = ObjectColor.White
        · obtain ⟨hnw, hq⟩ := markGrayStep_white_target ho hw
          refine ⟨seedRoots_queue_mono tl _ ?_, seedRoots_nonWhite_mono tl _ hnw⟩
          rw [hq]
          exact List.mem_append_right _ (List.mem_singleton.mpr rfl)
        · have hnwa : nonWhite acc.1 addr := ⟨o, ho, hw⟩
          have hqa : addr ∈ acc.2 := hinv hnwa
          refine ⟨seedRoots_queue_mono tl _ ?_,
            seedRoots_nonWhite_mono tl _ (markGrayStep_nonWhite_mono acc.1 acc.2 addr hnwa)⟩
          rcases markGrayStep_queue_cases acc.1 acc.2 addr with hc | hc
          · rw [hc]; exact hqa
          · rw [hc]; exact List.mem_append_left _ hqa
    · have hmem2 : addr ∈ tl := by
        rcases List.mem_cons.mp hmem with h | h
        · exact absurd h hda
        · exact h
      split
      · refine ih _ hmem2 ?_ ?_
        · rw [sameShape_isSome (markGrayStep_shape acc.1 acc.2 hd) addr]
          exact ht
        · intro hnw
          rw [nonWhite, markGrayStep_lookup_ne acc.1 acc.2 hda] at hnw
          rcases markGrayStep_queue_cases acc.1 acc.2 hd with hc | hc
          · rw [hc]; exact hinv hnw
          · rw [hc]; exact List.mem_append_left _ (hinv hnw)
      · exact ih _ hmem2 ht hinv

theorem seedBarrier_cons (acc : List (Nat × ObjectMetadata) × List Nat)
    (e : Nat × Nat) (tl : List (Nat × Nat)) :
    seedBarrier acc (e :: tl) =
      seedBarrier
        (if (acc.1.lookup e.1).isSome && (acc.1.lookup e.2).isSome then
          markGrayStep acc.1 acc.2 e.1 else acc) tl := rfl

theorem seedBarrier_nonWhite_mono (log : List (Nat × Nat)) :
    ∀ (acc : List (Nat × ObjectMetadata) × List Nat) {addr : Nat},
      nonWhite acc.1 addr → nonWhite (seedBarrier acc log).1 addr := by
  induction log with
  | nil => intro acc addr h; exact h
  | cons hd tl ih =>
    intro acc addr h
    rw [seedBarrier_cons]
    refine ih _ ?_
    split
    · exact markGrayStep_nonWhite_mono acc.1 acc.2 hd.1 h
    · exact h

theorem seedBarrier_shape (log : List (Nat × Nat)) :
    ∀ (acc : List (Nat × ObjectMetadata) × List Nat),
      sameShape acc.1 (seedBarrier acc log).1 := by
  induction log with
  | nil => intro acc; exact sameShape_refl _
  | cons hd tl ih =>
    intro acc
    rw [seedBarrier_cons]
    refine sameShape_trans ?_ (ih _)
    split
    · exact markGrayStep_shape acc.1 acc.2 hd.1
    · exact sameShape_refl _

theorem seedBarrier_keys (log : List (Nat × Nat)) :
    ∀ (acc : List (Nat × ObjectMetadata) × List Nat),
      keysOf (seedBarrier acc log).1 = keysOf acc.1 := by
  induction log with
  | nil => intro acc; rfl
  | cons hd tl ih =>
    intro acc
    rw [seedBarrier_cons, ih _]
    split
    · exact markGrayStep_keys acc.1 acc.2 hd.1
    · rfl

theorem seedBarrier_queue_mono (log : List (Nat × Nat)) :
    ∀ (acc : List (Nat × ObjectMetadata) × List Nat) {x : Nat}, x ∈ acc.2 →
      x ∈ (seedBarrier acc log).2 := by
  induction log with
  | nil => intro acc x h; exact h
  | cons hd tl ih =>
    intro acc x h
    rw [seedBarrier_cons]
    refine ih _ ?_
    split
    · rcases markGrayStep_queue_cases acc.1 acc.2 hd.1 with hc | hc
      · rw [hc]; exact h
      · rw [hc]; exact List.mem_append_left _ h
    · exact h

theorem keysOf_map_value (l : List (Nat × ObjectMetadata))
    (g : ObjectMetadata → ObjectMetadata) :
    keysOf (l.map (fun p => (p.1, g p.2))) = keysOf l := by
  induction l with
  | nil => rfl
  | cons hd tl ih =>
    simp only [keysOf, List.map_cons] at ih ⊢
    rw [ih]

theorem lookup_some_mem {β : Type} :
    ∀ (l : List (Nat × β)) {a : Nat} {v : β}, l.lookup a = some v → (a, v) ∈ l := by
  intro l
  induction l with
  | nil => intro a v h; simp [List.lookup] at h
  | cons hd tl ih =>
    intro a v h
    cases hb : a == hd.1 with
    | true =>
      simp only [List.lookup, hb] at h
      injection h with h
      have ha : a = hd.1 := eq_of_beq hb
      have hav : (a, v) = hd := by rw [ha, ← h]
      rw [hav]
      exact List.mem_cons_self hd tl
    | false =>
      simp only [List.lookup, hb] at h
      exact List.mem_cons_of_mem _ (ih h)

theorem mem_lookup_of_nodup {β : Type} :
    ∀ (l : List (Nat × β)) {a : Nat} {v : β}, (l.map Prod.fst).Nodup → (a, v) ∈ l →
      l.lookup a = some v := by
  intro l
  induction l with
  | nil => intro a v _ h; simp at h
  | cons hd tl ih =>
    intro a v hnd h
    simp only [List.map_cons, List.nodup_cons] at hnd
    obtain ⟨hnotin, hnd2⟩ := hnd
    rcases List.mem_cons.mp h with h1 | h1
    · rw [← h1]
      simp [List.lookup]
    · have hafst : a ∈ tl.map Prod.fst := List.mem_map.mpr ⟨(a, v), h1, rfl⟩
      have hne : (a == hd.1) = false := by
        cases hb : a == hd.1 with
        | true => exact absurd (by rw [← eq_of_beq hb]; exact hafst) hnotin
        | false => rfl
      simp only [List.lookup, hne]
      exact ih hnd2 h1

theorem unregister_lookup_self (gc : GarbageCollector) (b : Nat) :
    (GarbageCollector.unregister_object gc b).objects.lookup b = none := by
  unfold GarbageCollector.unregister_object
  split
  · rename_i heq
    exact heq
  · exact lookup_filter_self _

theorem unregister_lookup_ne (gc : GarbageCollector) (b : Nat) {addr : Nat}
    (h : addr ≠ b) :
    (GarbageCollector.unregister_object gc b).objects.lookup addr =
      gc.objects.lookup addr := by
  unfold GarbageCollector.unregister_object
  split
  · rfl
  · exact lookup_filter_ne _ h

theorem unregFold_lookup_notin (L : List Nat) :
    ∀ (gc : GarbageCollector) {addr : Nat}, addr ∉ L →
      ((L.foldl GarbageCollector.unregister_object gc).objects.lookup addr) =
        gc.objects.lookup addr := by
  induction L with
  | nil => intro gc addr _; rfl
  | cons hd tl ih =>
    intro gc addr h
    rw [List.foldl_cons, ih _ (fun hm => h (List.mem_cons_of_mem _ hm)),
      unregister_lookup_ne gc hd (fun he => h (by rw [he]; exact List.mem_cons_self hd tl))]

theorem unregFold_none_mono (L : List Nat) :
    ∀ (gc : GarbageCollector) {addr : Nat}, gc.objects.lookup addr = none →
      ((L.foldl GarbageCollector.unregister_object gc).objects.lookup addr) = none := by
  induction L with
  | nil => intro gc addr h; exact h
  | cons hd tl ih =>
    intro gc addr h
    rw [List.foldl_cons]
    refine ih _ ?_
    by_cases he : addr = hd
    · rw [he]; exact unregister_lookup_self gc hd
    · rw [unregister_lookup_ne gc hd he]; exact h

theorem unregFold_mem_none (L : List Nat) :
    ∀ (gc : GarbageCollector) {addr : Nat}, addr ∈ L →
      ((L.foldl GarbageCollector.unregister_object gc).objects.lookup addr) = none := by
  induction L with
  | nil => intro gc addr h; simp at h
  | cons hd tl ih =>
    intro gc addr h
    rw [List.foldl_cons]
    by_cases he : addr = hd
    · refine unregFold_none_mono tl _ ?_
      rw [he]; exact unregister_lookup_self gc hd
    · have h2 : addr ∈ tl := by
        rcases List.mem_cons.mp h with h1 | h1
        · exact absurd h1 he
        · exact h1
      exact ih _ h2

theorem free_blocks_self (m : Memory) (b : Nat) :
    ((m.free b).1).allocatedBlocks.lookup b = none := by
  unfold Memory.free
  split
  · rename_i size heq
    show (Memory.zeroLoop _ b 0 size).allocatedBlocks.lookup b = none
    rw [(Memory.zeroLoop_fields b size _ 0).2.2.2.2.2]
    exact lookup_filter_self _
  · rename_i heq
    exact heq

theorem free_blocks_ne (m : Memory) (b : Nat) {addr : Nat} (h : addr ≠ b) :
    ((m.free b).1).allocatedBlocks.lookup addr = m.allocatedBlocks.lookup addr := by
  unfold Memory.free
  split
  · rename_i size heq
    show (Memory.zeroLoop _ b 0 size).allocatedBlocks.lookup addr = _
    rw [(Memory.zeroLoop_fields b size _ 0).2.2.2.2.2]
    exact lookup_filter_ne _ h
  · rfl

theorem freeFold_blocks_notin (L : List Nat) :
    ∀ (m : Memory) {addr : Nat}, addr ∉ L →
      ((L.foldl (fun mm a => (mm.free a).1) m).allocatedBlocks.lookup addr) =
        m.allocatedBlocks.lookup addr := by
  induction L with
  | nil => intro m addr _; rfl
  | cons hd tl ih =>
    intro m addr h
    rw [List.foldl_cons, ih _ (fun hm => h (List.mem_cons_of_mem _ hm)),
      free_blocks_ne m hd (fun he => h (by rw [he]; exact List.mem_cons_self hd tl))]

theorem freeFold_blocks_none_mono (L : List Nat) :
    ∀ (m : Memory) {addr : Nat}, m.allocatedBlocks.lookup addr = none →
      ((L.foldl (fun mm a => (mm.free a).1) m).allocatedBlocks.lookup addr) = none := by
  induction L with
  | nil => intro m addr h; exact h
  | cons hd tl ih =>
    intro m addr h
    rw [List.foldl_cons]
    refine ih _ ?_
    by_cases he : addr = hd
    · rw [he]; exact free_blocks_self m hd
    · rw [free_blocks_ne m hd he]; exact h

theorem freeFold_blocks_mem_none (L : List Nat) :
    ∀ (m : Memory) {addr : Nat}, addr ∈ L →
      ((L.foldl (fun mm a => (mm.free a).1) m).allocatedBlocks.lookup addr) = none := by
  induction L with
  | nil => intro m addr h; simp at h
  | cons hd tl ih =>
    intro m addr h
    rw [List.foldl_cons]
    by_cases he : addr = hd
    · refine freeFold_blocks_none_mono tl _ ?_
      rw [he]; exact free_blocks_self m hd
    · have h2 : addr ∈ tl := by
        rcases List.mem_cons.mp h with h1 | h1
        · exact absurd h1 he
        · exact h1
      exact ih _ h2

theorem promote_objects_eq (gc : GarbageCollector) :
    (GarbageCollector.promote_survivors gc).objects =
      gc.objects.map (fun p => (p.1,
        if p.2.marked && decide (p.2.generation < 7) then
          { p.2 with generation := p.2.generation + 1 } else p.2)) := by
  show gc.objects.map _ = _
  refine List.map_congr_left (fun p _ => ?_)
  by_cases h : p.2.marked && decide (p.2.generation < 7)
  · rw [if_pos h, if_pos h]
  · rw [if_neg h, if_neg h]

theorem promote_lookup (gc : GarbageCollector) (b : Nat) :
    (GarbageCollector.promote_survivors gc).objects.lookup b =
      (gc.objects.lookup b).map (fun o =>
        if o.marked && decide (o.generation < 7) then
          { o with generation := o.generation + 1 } else o) := by
  rw [promote_objects_eq]
  exact lookup_map_value gc.objects (fun o =>
    if o.marked && decide (o.generation < 7) then
      { o with generation := o.generation + 1 } else o) b

theorem rootInsert_mem_mono {s : List Nat} {a x : Nat} (h : x ∈ s) :
    x ∈ rootInsert s a := by
  unfold rootInsert
  split
  · exact h
  · exact List.mem_append_left _ h

theorem rootInsert_self (s : List Nat) (a : Nat) : a ∈ rootInsert s a := by
  unfold rootInsert
  split
  · rename_i h
    exact List.mem_of_elem_eq_true h
  · exact List.mem_append_right _ (List.mem_singleton.mpr rfl)

theorem read_word_isSome (m : Memory) (a : Nat) (h : a + 3 < U32) :
    ∃ e, m.read_word a = some e := by
  unfold Memory.read_word
  by_cases h1 : (a + 3) % U32 ≥ m.memorySize
  · rw [if_pos h1]
    exact ⟨_, rfl⟩
  · rw [if_neg h1, if_pos h]
    exact ⟨_, rfl⟩

theorem scanStack_some (m : Memory) (bound : Nat) (hbd : bound + 3 < U32) :
    ∀ (fuel sp : Nat) (s : List Nat), bound - sp ≤ fuel →
      ∃ s2, scanStack m bound fuel sp s = some s2 ∧ ∀ x ∈ s, x ∈ s2 := by
  intro fuel
  induction fuel with
  | zero =>
    intro sp s hf
    unfold scanStack
    rw [if_neg (by omega)]
    exact ⟨s, rfl, fun x h => h⟩
  | succ f ih =>
    intro sp s hf
    by_cases hsp : sp < bound
    · unfold scanStack
      rw [if_pos hsp]
      obtain ⟨e, he⟩ := read_word_isSome m sp (by omega)
      rw [he]
      cases e with
      | ok value =>
        by_cases hv : GarbageCollector.is_valid_heap_address value m = true
        · obtain ⟨s2, hs2, hmono⟩ := ih (sp + 4) (rootInsert s value) (by omega)
          refine ⟨s2, ?_, fun x hx => hmono x (rootInsert_mem_mono hx)⟩
          show scanStack m bound f (sp + 4)
            (if GarbageCollector.is_valid_heap_address value m then rootInsert s value
             else s) = some s2
          rw [if_pos hv]
          exact hs2
        · obtain ⟨s2, hs2, hmono⟩ := ih (sp + 4) s (by omega)
          refine ⟨s2, ?_, hmono⟩
          show scanStack m bound f (sp + 4)
            (if GarbageCollector.is_valid_heap_address value m then rootInsert s value
             else s) = some s2
          rw [if_neg hv]
          exact hs2
      | error er => exact ih (sp + 4) s (by omega)
    · unfold scanStack
      rw [if_neg hsp]
      exact ⟨s, rfl, fun x h => h⟩

theorem scanFold_queue_mono (memory : Memory) (registers : RegisterFile)
    (L : List Nat) :
    ∀ (s : List Nat) {x : Nat}, x ∈ s →
      x ∈ L.foldl (fun acc i =>
        match registers.read i with
        | Except.ok value =>
          if GarbageCollector.is_valid_heap_address value memory then rootInsert acc value
          else acc
        | Except.error _ => acc) s := by
  induction L with
  | nil => intro s x h; exact h
  | cons hd tl ih =>
    intro s x h
    rw [List.foldl_cons]
    refine ih _ ?_
    split
    · split
      · exact rootInsert_mem_mono h
      · exact h
    · exact h

theorem scanFold_mem (memory : Memory) (registers : RegisterFile) (L : List Nat) :
    ∀ (s : List Nat) {i : Nat}, i ∈ L → i < 32 →
      GarbageCollector.is_valid_heap_address (registers.regs i) memory = true →
      registers.regs i ∈ L.foldl (fun acc i =>
        match registers.read i with
        | Except.ok value =>
          if GarbageCollector.is_valid_heap_address value memory then rootInsert acc value
          else acc
        | Except.error _ => acc) s := by
  induction L with
  | nil => intro s i h _ _; simp at h
  | cons hd tl ih =>
    intro s i hmem hi hv
    rw [List.foldl_cons]
    by_cases hih : i = hd
    · subst hih
      have hread : registers.read i = Except.ok (registers.regs i) := by
        unfold RegisterFile.read
        rw [if_neg (by omega)]
      refine scanFold_queue_mono memory registers tl _ ?_
      rw [hread]
      show registers.regs i ∈
        (if GarbageCollector.is_valid_heap_address (registers.regs i) memory = true then
          rootInsert s (registers.regs i) else s)
      rw [if_pos hv]
      exact rootInsert_self s (registers.regs i)
    · have h2 : i ∈ tl := by
        rcases List.mem_cons.mp hmem with h1 | h1
        · exact absurd h1 hih
        · exact h1
      exact ih _ h2 hi hv

theorem scanRegisters_mem (memory : Memory) (registers : RegisterFile) {i : Nat}
    (hi : i < 32)
    (hv : GarbageCollector.is_valid_heap_address (registers.regs i) memory = true) :
    registers.regs i ∈ scanRegisters memory registers [] := by
  unfold scanRegisters
  exact scanFold_mem memory registers (List.range 32) [] (List.mem_range.mpr hi) hi hv

theorem build_root_set_some (gc : GarbageCollector) (m : Memory)
    (regs : RegisterFile) (hms : m.memorySize < U32) :
    ∃ s2, gc.build_root_set m regs = some { gc with rootSet := s2 } ∧
      ∀ x ∈ scanRegisters m regs [], x ∈ s2 := by
  have hbd : m.get_stats.totalMemory - m.get_stats.totalMemory / 4 + 3 < U32 := by
    show m.memorySize - m.memorySize / 4 + 3 < U32
    simp only [U32] at hms ⊢
    omega
  obtain ⟨s2, hs2, hmono⟩ := scanStack_some m
    (m.get_stats.totalMemory - m.get_stats.totalMemory / 4) hbd
    (m.get_stats.totalMemory - m.get_stats.totalMemory / 4 - m.stackPointer)
    m.stackPointer (scanRegisters m regs []) (Nat.le_refl _)
  refine ⟨s2, ?_, hmono⟩
  unfold GarbageCollector.build_root_set
  rw [hs2]

theorem shape_lookup_some {objs objs2 : List (Nat × ObjectMetadata)}
    (hsh : sameShape objs objs2) {a : Nat} {o : ObjectMetadata}
    (ho : objs.lookup a = some o) :
    ∃ o2, objs2.lookup a = some o2 ∧ objShape o2 = objShape o := by
  have h := hsh a
  rw [ho] at h
  cases ho2 : objs2.lookup a with
  | none => rw [ho2] at h; simp at h
  | some o2 =>
    rw [ho2] at h
    simp only [Option.map_some'] at h
    injection h with h
    exact ⟨o2, rfl, h⟩

theorem shape_transport_refs {objs objs2 : List (Nat × ObjectMetadata)}
    (hsh : sameShape objs objs2) {addr : Nat}
    (href : ∀ b ob, objs.lookup b = some ob → addr ∉ ob.references) :
    ∀ b ob, objs2.lookup b = some ob → addr ∉ ob.references := by
  intro b ob hob
  have h := hsh b
  rw [hob] at h
  cases hoo : objs.lookup b with
  | none => rw [hoo] at h; simp at h
  | some ob0 =>
    rw [hoo] at h
    simp only [Option.map_some'] at h
    injection h with h
    rw [objShape_references h]
    exact href b ob0 hoo

theorem resetObjects_lookup (gc : GarbageCollector) (b : Nat) :
    (resetObjects gc).lookup b = (gc.objects.lookup b).map
      (fun o => { o with color := ObjectColor.White, marked := false }) :=
  lookup_map_value gc.objects
    (fun o => { o with color := ObjectColor.White, marked := false }) b

theorem mark_phase_objects (gc : GarbageCollector) :
    gc.mark_phase.objects = drainGray
      (2 * (markInput gc).1.length + (markInput gc).2.length)
      (markInput gc).1 (markInput gc).2 := rfl

theorem markInput_shape (gc : GarbageCollector) :
    sameShape (resetObjects gc) (markInput gc).1 :=
  sameShape_trans (seedRoots_shape gc.rootSet (resetObjects gc, []))
    (seedBarrier_shape gc.writeBarrierLog (seedRoots (resetObjects gc, []) gc.rootSet))

theorem mark_phase_keys (gc : GarbageCollector) :
    keysOf gc.mark_phase.objects = keysOf gc.objects := by
  have h1 : keysOf (markInput gc).1 = keysOf gc.objects := by
    show keysOf (seedBarrier (seedRoots (resetObjects gc, []) gc.rootSet)
      gc.writeBarrierLog).1 = keysOf gc.objects
    rw [seedBarrier_keys, seedRoots_keys]
    exact keysOf_map_value gc.objects
      (fun o => { o with color := ObjectColor.White, marked := false })
  rw [mark_phase_objects, drainGray_keys]
  exact h1

theorem resetObjects_isSome (gc : GarbageCollector) {addr : Nat}
    (ht : (gc.objects.lookup addr).isSome = true) :
    ((resetObjects gc).lookup addr).isSome = true := by
  rw [resetObjects_lookup]
  cases ho : gc.objects.lookup addr with
  | none => rw [ho] at ht; simp at ht
  | some o => simp

theorem resetObjects_all_white (gc : GarbageCollector) {addr : Nat}
    (hnw : nonWhite (resetObjects gc) addr) : False := by
  obtain ⟨o, ho, hc⟩ := hnw
  rw [resetObjects_lookup] at ho
  cases ho2 : gc.objects.lookup addr with
  | none => rw [ho2] at ho; simp at ho
  | some o0 =>
    rw [ho2] at ho
    simp only [Option.map_some'] at ho
    injection ho with ho
    rw [← ho] at hc
    exact absurd rfl hc

theorem mark_phase_root_seeded (gc : GarbageCollector) {addr : Nat}
    (ht : (gc.objects.lookup addr).isSome = true) (hr : addr ∈ gc.rootSet) :
    addr ∈ (markInput gc).2 ∧ nonWhite (markInput gc).1 addr := by
  have ht0 := resetObjects_isSome gc ht
  obtain ⟨hq, hnw⟩ := seedRoots_processed gc.rootSet (resetObjects gc, []) hr ht0
    (fun hnw => absurd hnw (fun h => resetObjects_all_white gc h))
  exact ⟨seedBarrier_queue_mono gc.writeBarrierLog _ hq,
    seedBarrier_nonWhite_mono gc.writeBarrierLog _ hnw⟩

theorem mark_phase_root_nonWhite (gc : GarbageCollector) {addr : Nat}
    (ht : (gc.objects.lookup addr).isSome = true) (hr : addr ∈ gc.rootSet) :
    nonWhite gc.mark_phase.objects addr :=
  drainGray_nonWhite_mono
    (2 * (markInput gc).1.length + (markInput gc).2.length)
    (markInput gc).1 (markInput gc).2 (mark_phase_root_seeded gc ht hr).2

theorem mark_phase_transitive (gc : GarbageCollector) {addr b : Nat}
    {o : ObjectMetadata} (ho : gc.objects.lookup addr = some o) (hr : addr ∈ gc.rootSet)
    (hb : b ∈ o.references) (htb : (gc.objects.lookup b).isSome = true) :
    nonWhite gc.mark_phase.objects addr ∧ nonWhite gc.mark_phase.objects b := by
  have ht : (gc.objects.lookup addr).isSome = true := by rw [ho]; rfl
  refine ⟨mark_phase_root_nonWhite gc ht hr, ?_⟩
  obtain ⟨hqM, _⟩ := mark_phase_root_seeded gc ht hr
  have h0 : (resetObjects gc).lookup addr =
      some { o with color := ObjectColor.White, marked := false } := by
    rw [resetObjects_lookup, ho]
    rfl
  obtain ⟨oA, hoA, hshA⟩ := shape_lookup_some (markInput_shape gc) h0
  have hrefs : oA.references = o.references := objShape_references hshA
  have htb2 : ((markInput gc).1.lookup b).isSome = true := by
    rw [sameShape_isSome (markInput_shape gc) b]
    exact resetObjects_isSome gc htb
  have hfuel : 2 * whiteCount (markInput gc).1 + (markInput gc).2.length ≤
      2 * (markInput gc).1.length + (markInput gc).2.length := by
    have := whiteCount_le_length (markInput gc).1
    omega
  exact drainGray_processes _ (markInput gc).1 (markInput gc).2 addr oA hfuel hqM hoA b
    (by rw [hrefs]; exact hb) htb2

theorem mark_phase_unreached (gc : GarbageCollector) {addr : Nat}
    (hbar : gc.writeBarrierLog = []) (hroot : addr ∉ gc.rootSet)
    (href : ∀ b ob, gc.objects.lookup b = some ob → addr ∉ ob.references) :
    gc.mark_phase.objects.lookup addr = (gc.objects.lookup addr).map
      (fun o => { o with color := ObjectColor.White, marked := false }) := by
  have hmi : markInput gc = seedRoots (resetObjects gc, []) gc.rootSet := by
    show seedBarrier _ gc.writeBarrierLog = _
    rw [hbar]
    rfl
  have href0 : ∀ b ob, (resetObjects gc).lookup b = some ob → addr ∉ ob.references := by
    intro b ob hob
    rw [resetObjects_lookup] at hob
    cases ho2 : gc.objects.lookup b with
    | none => rw [ho2] at hob; simp at hob
    | some ob0 =>
      rw [ho2] at hob
      simp only [Option.map_some'] at hob
      injection hob with hob
      rw [← hob]
      exact href b ob0 ho2
  have hseed : (seedRoots (resetObjects gc, []) gc.rootSet).1.lookup addr =
      (resetObjects gc).lookup addr := seedRoots_lookup_notin gc.rootSet _ hroot
  have hqn : addr ∉ (seedRoots (resetObjects gc, []) gc.rootSet).2 := by
    intro hmem
    rcases seedRoots_queue_sub gc.rootSet _ addr hmem with h | h
    · simp at h
    · exact hroot h
  have href1 := shape_transport_refs (seedRoots_shape gc.rootSet (resetObjects gc, []))
    href0
  rw [mark_phase_objects, hmi, drainGray_untouched _ _ _ hqn href1, hseed,
    resetObjects_lookup]

theorem sweepWhites_notin (gc : GarbageCollector) {addr : Nat}
    (hnd : (keysOf gc.objects).Nodup) (h : nonWhite gc.objects addr) :
    addr ∉ sweepWhites gc := by
  obtain ⟨o, ho, hc⟩ := h
  intro hmem
  unfold sweepWhites at hmem
  obtain ⟨p, hp, hp1⟩ := List.mem_map.mp hmem
  obtain ⟨hpmem, hpw⟩ := List.mem_filter.mp hp
  have hlk : gc.objects.lookup p.1 = some p.2 :=
    mem_lookup_of_nodup gc.objects hnd hpmem
  rw [hp1, ho] at hlk
  injection hlk with hlk
  rw [hlk] at hc
  exact hc (eq_of_beq hpw)

theorem sweepWhites_mem (gc : GarbageCollector) {addr : Nat} {o : ObjectMetadata}
    (ho : gc.objects.lookup addr = some o) (hw : o.color = ObjectColor.White) :
    addr ∈ sweepWhites gc := by
  unfold sweepWhites
  refine List.mem_map.mpr ⟨(addr, o),
    List.mem_filter.mpr ⟨lookup_some_mem gc.objects ho, ?_⟩, rfl⟩
  show (o.color == ObjectColor.White) = true
  rw [hw]
  rfl

theorem sweep_phase_survivor (gc : GarbageCollector) (m : Memory) {addr : Nat}
    (hnd : (keysOf gc.objects).Nodup) (h : nonWhite gc.objects addr) :
    (gc.sweep_phase m).1.objects.lookup addr = gc.objects.lookup addr ∧
    (gc.sweep_phase m).2.1.allocatedBlocks.lookup addr =
      m.allocatedBlocks.lookup addr := by
  have hni := sweepWhites_notin gc hnd h
  exact ⟨unregFold_lookup_notin (sweepWhites gc) gc hni,
    freeFold_blocks_notin (sweepWhites gc) m hni⟩

theorem sweep_phase_removed (gc : GarbageCollector) (m : Memory) {addr : Nat}
    {o : ObjectMetadata} (ho : gc.objects.lookup addr = some o)
    (hw : o.color = ObjectColor.White) :
    (gc.sweep_phase m).1.objects.lookup addr = none ∧
    (gc.sweep_phase m).2.1.allocatedBlocks.lookup addr = none := by
  have hmem := sweepWhites_mem gc ho hw
  exact ⟨unregFold_mem_none (sweepWhites gc) gc hmem,
    freeFold_blocks_mem_none (sweepWhites gc) m hmem⟩

theorem update_stats_objects (gc : GarbageCollector) (a b c d e : Nat) :
    (gc.update_stats a b c d e).objects = gc.objects := rfl

theorem collectCore_memory (gc1 : GarbageCollector) (m : Memory) (hb : Nat) :
    (collectCore gc1 m hb).2 = (gc1.mark_phase.sweep_phase m).2.1 := rfl

theorem collectCore_fst (gc1 : GarbageCollector) (m : Memory) (hb : Nat) :
    (collectCore gc1 m hb).1 =
      (if ((gc1.mark_phase.sweep_phase m).1.update_stats
            (gc1.mark_phase.sweep_phase m).2.2.1 (gc1.mark_phase.sweep_phase m).2.2.2 0
            hb (gc1.mark_phase.sweep_phase m).2.1.get_stats.heapUsed).config.generational
        then ((gc1.mark_phase.sweep_phase m).1.update_stats
            (gc1.mark_phase.sweep_phase m).2.2.1 (gc1.mark_phase.sweep_phase m).2.2.2 0
            hb (gc1.mark_phase.sweep_phase m).2.1.get_stats.heapUsed).promote_survivors
        else ((gc1.mark_phase.sweep_phase m).1.update_stats
            (gc1.mark_phase.sweep_phase m).2.2.1 (gc1.mark_phase.sweep_phase m).2.2.2 0
            hb (gc1.mark_phase.sweep_phase m).2.1.get_stats.heapUsed)) := rfl

theorem collectCore_lookup_isSome (gc1 : GarbageCollector) (m : Memory) (hb : Nat)
    {addr : Nat}
    (h : ((gc1.mark_phase.sweep_phase m).1.objects.lookup addr).isSome = true) :
    (((collectCore gc1 m hb).1).objects.lookup addr).isSome = true := by
  rw [collectCore_fst]
  split
  · rw [promote_lookup, update_stats_objects]
    cases ho : (gc1.mark_phase.sweep_phase m).1.objects.lookup addr with
    | none => rw [ho] at h; simp at h
    | some o => simp
  · rw [update_stats_objects]
    exact h

theorem collectCore_lookup_none (gc1 : GarbageCollector) (m : Memory) (hb : Nat)
    {addr : Nat} (h : (gc1.mark_phase.sweep_phase m).1.objects.lookup addr = none) :
    ((collectCore gc1 m hb).1).objects.lookup addr = none := by
  rw [collectCore_fst]
  split
  · rw [promote_lookup, update_stats_objects, h]
    rfl
  · rw [update_stats_objects]
    exact h

theorem collect_eq (gc : GarbageCollector) (m : Memory) (regs : RegisterFile)
    (gc1 : GarbageCollector) (hbrs : gc.build_root_set m regs = some gc1) :
    gc.collect m regs = some (collectCore gc1 m m.get_stats.heapUsed) := by
  unfold GarbageCollector.collect
  rw [hbrs]

/-- A single unrooted, unreferenced White object at heap address 400. -/
def c2meta : ObjectMetadata :=
  { address := 400, size := 8, color := ObjectColor.White, marked := false,
    generation := 0, references := [] }

/-- A 1 KiB memory whose stack is empty (stack pointer at the scan
bound 768) holding one recorded 8-byte block at 400. -/
def c2mem : Memory :=
  { bytes := fun _ => 0, stackPointer := 768, stackBase := 768, heapPointer := 408,
    heapBase := 256, allocatedBlocks := [(400, 8)], memorySize := 1024 }

/-- A concurrent-mode collector tracking the object at 400 with a
pending write-barrier entry (400, 400); such a log state is reachable
by add_reference(400,400) followed by remove_reference(400,400), which
deletes the recorded reference but not the log entry. -/
def c2gc : GarbageCollector :=
  { objects := [(400, c2meta)],
    config := { generational := true, maxHeapSize := 67108864, concurrent := true },
    stats := GCStats.defaultStats, grayQueue := [], rootSet := [],
    writeBarrierLog := [(400, 400)], generationSizes := fun _ => 0 }

/-- The same collector state with an empty write-barrier log. -/
def c2gcClean : GarbageCollector := { c2gc with writeBarrierLog := [] }

/-- C2, counterexample.  The object at 400 is registered, held by no
register (all registers zero), absent from the empty stack, and no
object records a reference to it; the claim says it is freed and its
metadata removed.  With the pending write-barrier entry (400, 400) the
mark phase grays 400 anyway, so collect keeps both its metadata and
its allocation — while the identical state with an empty log collects
it (1 object, 8 bytes) as the claim describes. -/
theorem claim_C2_counterexample :
    ((c2gc.collect c2mem RegisterFile.new).map (fun gm =>
      ((gm.1.objects.lookup 400).isSome, (gm.2.allocatedBlocks.lookup 400).isSome)) =
      some (true, true)) ∧
    ((c2gcClean.collect c2mem RegisterFile.new).map (fun gm =>
      ((gm.1.objects.lookup 400).isSome, (gm.2.allocatedBlocks.lookup 400).isSome,
        gm.1.stats.objectsCollected, gm.1.stats.bytesCollected)) =
      some (false, false, 1, 8)) :=
  ⟨rfl, rfl⟩

/-- C2 (amended).  For every collector whose object table has no
duplicate keys, memory smaller than 2^32 and register file: (1) an
object whose address sits in some register and is a valid heap address
survives collect with its allocation record intact; (2) provided the
write-barrier log is empty, an object in no root of the computed root
set with no incoming recorded reference is removed from the object
table and its allocation freed; (3) an object reachable only
transitively from a register-rooted object survives together with it.
The empty-log proviso in (2) is necessary: a pending write-barrier
entry keeps an otherwise unreachable object alive. -/
theorem claim_C2_gc_reachability_amended (gc : GarbageCollector) (m : Memory)
    (regs : RegisterFile) (hms : m.memorySize < U32)
    (hnd : (keysOf gc.objects).Nodup) :
    (∀ addr i, i < 32 → regs.regs i = addr →
      GarbageCollector.is_valid_heap_address addr m = true →
      (gc.objects.lookup addr).isSome = true →
      ∃ gcF mF, gc.collect m regs = some (gcF, mF) ∧
        (gcF.objects.lookup addr).isSome = true ∧
        mF.allocatedBlocks.lookup addr = m.allocatedBlocks.lookup addr) ∧
    (∀ addr, gc.writeBarrierLog = [] →
      (∀ gc1, gc.build_root_set m regs = some gc1 → addr ∉ gc1.rootSet) →
      (∀ b ob, gc.objects.lookup b = some ob → addr ∉ ob.references) →
      (gc.objects.lookup addr).isSome = true →
      ∃ gcF mF, gc.collect m regs = some (gcF, mF) ∧
        gcF.objects.lookup addr = none ∧
        mF.allocatedBlocks.lookup addr = none) ∧
    (∀ addr b o, gc.objects.lookup addr = some o → b ∈ o.references →
      (gc.objects.lookup b).isSome = true →
      (∃ i, i < 32 ∧ regs.regs i = addr) →
      GarbageCollector.is_valid_heap_address addr m = true →
      ∃ gcF mF, gc.collect m regs = some (gcF, mF) ∧
        (gcF.objects.lookup addr).isSome = true ∧
        (gcF.objects.lookup b).isSome = true ∧
        mF.allocatedBlocks.lookup addr = m.allocatedBlocks.lookup addr ∧
        mF.allocatedBlocks.lookup b = m.allocatedBlocks.lookup b) := by
  obtain ⟨s2, hbrs, hmono⟩ := build_root_set_some gc m regs hms
  refine ⟨?_, ?_, ?_⟩
  · intro addr i hi hreg hv ht
    have hroot : addr ∈ s2 := by
      rw [← hreg]
      exact hmono _ (scanRegisters_mem m regs hi (by rw [hreg]; exact hv))
    have hnw := mark_phase_root_nonWhite { gc with rootSet := s2 } ht hroot
    have hnd2 : (keysOf ({ gc with rootSet := s2 } :
        GarbageCollector).mark_phase.objects).Nodup := by
      rw [mark_phase_keys]
      exact hnd
    obtain ⟨hobj, hblk⟩ :=
      sweep_phase_survivor ({ gc with rootSet := s2 } : GarbageCollector).mark_phase m
        hnd2 hnw
    obtain ⟨o2, ho2, _⟩ := hnw
    refine ⟨(collectCore { gc with rootSet := s2 } m m.get_stats.heapUsed).1,
      (collectCore { gc with rootSet := s2 } m m.get_stats.heapUsed).2,
      by rw [collect_eq gc m regs _ hbrs], ?_, ?_⟩
    · refine collectCore_lookup_isSome _ m _ ?_
      rw [hobj, ho2]
      rfl
    · rw [collectCore_memory]
      exact hblk
  · intro addr hbar hroots href ht
    have hrootn : addr ∉ s2 := hroots _ hbrs
    cases ho : gc.objects.lookup addr with
    | none => rw [ho] at ht; simp at ht
    | some o =>
      have hmu := mark_phase_unreached { gc with rootSet := s2 } hbar hrootn href
      have ho2 : ({ gc with rootSet := s2 } :
          GarbageCollector).mark_phase.objects.lookup addr =
          some { o with color := ObjectColor.White, marked := false } := by
        rw [hmu]
        show (gc.objects.lookup addr).map _ = _
        rw [ho]
        rfl
      obtain ⟨hobjn, hblkn⟩ := sweep_phase_removed _ m ho2 rfl
      refine ⟨(collectCore { gc with rootSet := s2 } m m.get_stats.heapUsed).1,
        (collectCore { gc with rootSet := s2 } m m.get_stats.heapUsed).2,
        by rw [collect_eq gc m regs _ hbrs], ?_, ?_⟩
      · exact collectCore_lookup_none _ m _ hobjn
      · rw [collectCore_memory]
        exact hblkn
  · intro addr b o ho hb htb hreg hv
    obtain ⟨i, hi, hregi⟩ := hreg
    have hroot : addr ∈ s2 := by
      rw [← hregi]
      exact hmono _ (scanRegisters_mem m regs hi (by rw [hregi]; exact hv))
    obtain ⟨hnwA, hnwB⟩ :=
      mark_phase_transitive { gc with rootSet := s2 } ho hroot hb htb
    have hnd2 : (keysOf ({ gc with rootSet := s2 } :
        GarbageCollector).mark_phase.objects).Nodup := by
      rw [mark_phase_keys]
      exact hnd
    obtain ⟨hobjA, hblkA⟩ :=
      sweep_phase_survivor ({ gc with rootSet := s2 } : GarbageCollector).mark_phase m
        hnd2 hnwA
    obtain ⟨hobjB, hblkB⟩ :=
      sweep_phase_survivor ({ gc with rootSet := s2 } : GarbageCollector).mark_phase m
        hnd2 hnwB
    obtain ⟨oA, hoA, _⟩ := hnwA
    obtain ⟨oB, hoB, _⟩ := hnwB
    refine ⟨(collectCore { gc with rootSet := s2 } m m.get_stats.heapUsed).1,
      (collectCore { gc with rootSet := s2 } m m.get_stats.heapUsed).2,
      by rw [collect_eq gc m regs _ hbrs], ?_, ?_, ?_, ?_⟩
    · refine collectCore_lookup_isSome _ m _ ?_
      rw [hobjA, hoA]
      rfl
    · refine collectCore_lookup_isSome _ m _ ?_
      rw [hobjB, hoB]
      rfl
    · rw [collectCore_memory]
      exact hblkA
    · rw [collectCore_memory]
      exact hblkB

/-- Register file holding heap address 400 in R3. -/
def c2regsRoot : RegisterFile := ⟨fun i => if i = 3 then 400 else 0⟩

/-- Second object at 408, referenced by the one at 400. -/
def c2metaB : ObjectMetadata :=
  { address := 408, size := 4, color := ObjectColor.White, marked := false,
    generation := 0, references := [] }

/-- Memory with the two recorded blocks 400 and 408. -/
def c2memT : Memory :=
  { bytes := fun _ => 0, stackPointer := 768, stackBase := 768, heapPointer := 412,
    heapBase := 256, allocatedBlocks := [(400, 8), (408, 4)], memorySize := 1024 }

/-- Collector tracking the chain 400 -> 408 with empty barrier log. -/
def c2gcT : GarbageCollector :=
  { objects := [(400, { c2meta with references := [408] }), (408, c2metaB)],
    config := GCConfig.defaultConfig,
    stats := GCStats.defaultStats, grayQueue := [], rootSet := [],
    writeBarrierLog := [], generationSizes := fun _ => 0 }

/-- C2, witness: in the two-object chain state, the register-rooted
object 400 and its transitively reachable reference 408 both survive
collect with their allocation records intact. -/
theorem claim_C2_witness :
    ∃ gcF mF, c2gcT.collect c2memT c2regsRoot = some (gcF, mF) ∧
      (gcF.objects.lookup 400).isSome = true ∧
      (gcF.objects.lookup 408).isSome = true ∧
      mF.allocatedBlocks.lookup 400 = c2memT.allocatedBlocks.lookup 400 ∧
      mF.allocatedBlocks.lookup 408 = c2memT.allocatedBlocks.lookup 408 :=
  (claim_C2_gc_reachability_amended c2gcT c2memT c2regsRoot (by decide)
      (by decide)).2.2 400 408 { c2meta with references := [408] } rfl
    (by decide) rfl ⟨3, by decide, rfl⟩ rfl

/-! ## Execution engine (vm.rs)

i32 register values are modelled as their 32-bit patterns (Nat below
2^32); toSigned recovers the signed reading.  The model covers
execution with automatic GC disabled (VM::set_auto_gc(false)): the
should_collect threshold test of the enabled path compares f32
fractions, which the Nat/Int model excludes, and the && in step
short-circuits it away when auto_gc is false, making the model exact
for such states.  PRINT output goes to stdout (dropped here, the flush
assumed to succeed) and READ parses stdin (its register-writing form
is out of the model and maps to none, like a panic); both are
unreachable in the theorems below. -/

/-- Signed (i32) reading of a 32-bit pattern. -/
def toSigned (p : Nat) : Int :=
  if p < 2147483648 then (p : Int) else (p : Int) - 4294967296

/-- Signed (i16) reading of a 16-bit immediate, as the i32 it extends to. -/
def toSigned16 (imm : Nat) : Int :=
  if imm < 32768 then (imm : Int) else (imm : Int) - 65536

/-- The 32-bit pattern of an integer (two's complement). -/
def toPattern (i : Int) : Nat := (i % 4294967296).toNat

/-- Model of the VM struct; auto_gc is not carried (see section note). -/
structure VMState where
  registers : RegisterFile
  memory : Memory
  gc : GarbageCollector
  pc : Nat
  running : Bool
  instructionCount : Nat

/-- Model of VM::new (with auto-GC later disabled). -/
def VMState.new (memorySize : Nat) : VMState :=
  { registers := RegisterFile.new, memory := Memory.new memorySize,
    gc := GarbageCollector.new_default, pc := 0, running := false,
    instructionCount := 0 }

/-- The register write-back concluding most instructions. -/
def VMState.writeReg (vm : VMState) (rd : Register) (value : Nat) :
    Option (VMState × Option VMError) :=
  match vm.registers.write rd.get_value value with
  | Except.error e => some (vm, some e)
  | Except.ok rf => some ({ vm with registers := rf }, none)

/-- Model of VM::execute_rtype.  Wrapping i32 arithmetic is pattern
arithmetic mod 2^32; DIV is signed truncated division, erring on a
zero divisor and panicking (none) on the i32 overflow MIN / -1. -/
def VMState.execute_rtype (vm : VMState) (opcode : RTypeOp) (rd rs rt : Register) :
    Option (VMState × Option VMError) :=
  match vm.registers.read rs.get_value with
  | Except.error e => some (vm, some e)
  | Except.ok rs_val =>
    match vm.registers.read rt.get_value with
    | Except.error e => some (vm, some e)
    | Except.ok rt_val =>
      match opcode with
      | RTypeOp.ADD => vm.writeReg rd ((rs_val + rt_val) % U32)
      | RTypeOp.SUB => vm.writeReg rd ((rs_val + U32 - rt_val) % U32)
      | RTypeOp.MUL => vm.writeReg rd ((rs_val * rt_val) % U32)
      | RTypeOp.DIV =>
        if rt_val = 0 then some (vm, some VMError.DivisionByZero)
        else if rs_val = 2147483648 ∧ rt_val = 4294967295 then none
        else vm.writeReg rd (toPattern (Int.tdiv (toSigned rs_val) (toSigned rt_val)))
      | RTypeOp.MOV => vm.writeReg rd rs_val
      | RTypeOp.AND => vm.writeReg rd (rs_val &&& rt_val)
      | RTypeOp.OR => vm.writeReg rd (rs_val ||| rt_val)
      | RTypeOp.XOR => vm.writeReg rd (rs_val ^^^ rt_val)
      | RTypeOp.NOT => vm.writeReg rd (rs_val ^^^ 4294967295)

/-- Model of VM::execute_itype.  The load/store displacement is the
zero-extended u16 immediate; LI and ADDI sign-extend it. -/
def VMState.execute_itype (vm : VMState) (opcode : ITypeOp) (rd rs : Register)
    (imm : Nat) : Option (VMState × Option VMError) :=
  match opcode with
  | ITypeOp.LI => vm.writeReg rd (toPattern (toSigned16 imm))
  | ITypeOp.ADDI =>
    match vm.registers.read rs.get_value with
    | Except.error e => some (vm, some e)
    | Except.ok rs_val => vm.writeReg rd ((rs_val + toPattern (toSigned16 imm)) % U32)
  | ITypeOp.LOAD =>
    match vm.registers.read rs.get_value with
    | Except.error e => some (vm, some e)
    | Except.ok rs_val =>
      match vm.memory.read_word ((rs_val + imm) % U32) with
      | none => none
      | some (Except.error e) => some (vm, some e)
      | some (Except.ok value) => vm.writeReg rd value
  | ITypeOp.STORE =>
    match vm.registers.read rs.get_value with
    | Except.error e => some (vm, some e)
    | Except.ok rs_val =>
      match vm.registers.read rd.get_value with
      | Except.error e => some (vm, some e)
      | Except.ok rd_val =>
        match vm.memory.write_word ((rs_val + imm) % U32) rd_val with
        | none => none
        | some (Except.error e) => some (vm, some e)
        | some (Except.ok m2) => some ({ vm with memory := m2 }, none)

/-- Branch decision of VM::execute_btype: BLT/BGE compare signed. -/
def branchTaken (opcode : BTypeOp) (rs_val rt_val : Nat) : Bool :=
  match opcode with
  | BTypeOp.BEQ => rs_val == rt_val
  | BTypeOp.BNE => rs_val != rt_val
  | BTypeOp.BLT => decide (toSigned rs_val < toSigned rt_val)
  | BTypeOp.BGE => decide (toSigned rt_val ≤ toSigned rs_val)
  | BTypeOp.BZ => rs_val == 0
  | BTypeOp.BNZ => rs_val != 0

/-- Branch target of VM::execute_btype: the pc of the instruction after
the branch plus the sign-extended offset, saturating at the u32
bounds. -/
def branchTarget (current_pc offset : Nat) : Nat :=
  if 0 ≤ toSigned16 offset then min ((current_pc + 4) % U32 + offset) (U32 - 1)
  else (current_pc + 4) % U32 - (65536 - offset)

/-- Model of VM::execute_btype: on a taken branch the target must be
below total memory or the step errs with InvalidJumpAddress; untaken
branches leave the (already advanced) pc alone. -/
def VMState.execute_btype (vm : VMState) (opcode : BTypeOp) (rs rt : Register)
    (offset current_pc : Nat) : Option (VMState × Option VMError) :=
  match vm.registers.read rs.get_value with
  | Except.error e => some (vm, some e)
  | Except.ok rs_val =>
    match vm.registers.read rt.get_value with
    | Except.error e => some (vm, some e)
    | Except.ok rt_val =>
      if branchTaken opcode rs_val rt_val then
        if branchTarget current_pc offset ≥ vm.memory.get_stats.totalMemory then
          some (vm, some (VMError.InvalidJumpAddress (branchTarget current_pc offset)))
        else some ({ vm with pc := branchTarget current_pc offset }, none)
      else some (vm, none)

/-- Model of VM::execute_jtype.  CALL pushes the already advanced pc
(the address after the CALL) before validating the target, so on an
invalid target the push persists; RET jumps to the popped word
unvalidated. -/
def VMState.execute_jtype (vm : VMState) (opcode : JTypeOp) (addr : Nat) :
    Option (VMState × Option VMError) :=
  match opcode with
  | JTypeOp.JMP =>
    if addr ≥ vm.memory.get_stats.totalMemory then
      some (vm, some (VMError.InvalidJumpAddress addr))
    else some ({ vm with pc := addr }, none)
  | JTypeOp.CALL =>
    match vm.memory.stack_push vm.pc with
    | none => none
    | some (m1, some e) => some ({ vm with memory := m1 }, some e)
    | some (m1, none) =>
      if addr ≥ m1.get_stats.totalMemory then
        some ({ vm with memory := m1 }, some (VMError.InvalidJumpAddress addr))
      else some ({ vm with memory := m1, pc := addr }, none)
  | JTypeOp.RET =>
    match vm.memory.stack_pop with
    | none => none
    | some (m1, Except.error e) => some ({ vm with memory := m1 }, some e)
    | some (m1, Except.ok return_addr) =>
      some ({ vm with memory := m1, pc := return_addr }, none)

/-- Model of VM::execute_mtype, with auto-GC disabled (section note).
FREE unregisters the collector object before calling Memory::free. -/
def VMState.execute_mtype (vm : VMState) (opcode : MTypeOp) (rd rs rt : Register) :
    Option (VMState × Option VMError) :=
  match opcode with
  | MTypeOp.ALLOC =>
    match vm.registers.read rs.get_value with
    | Except.error e => some (vm, some e)
    | Except.ok size =>
      match vm.memory.allocate size with
      | (m1, Except.error e) => some ({ vm with memory := m1 }, some e)
      | (m1, Except.ok address) =>
        VMState.writeReg
          { vm with memory := m1, gc := vm.gc.register_object address size } rd address
  | MTypeOp.FREE =>
    match vm.registers.read rs.get_value with
    | Except.error e => some (vm, some e)
    | Except.ok address =>
      match vm.memory.free address with
      | (m1, some e) =>
        some ({ vm with gc := vm.gc.unregister_object address, memory := m1 }, some e)
      | (m1, none) =>
        some ({ vm with gc := vm.gc.unregister_object address, memory := m1 }, none)
  | MTypeOp.ALOAD =>
    match vm.registers.read rs.get_value with
    | Except.error e => some (vm, some e)
    | Except.ok base =>
      match vm.registers.read rt.get_value with
      | Except.error e => some (vm, some e)
      | Except.ok index =>
        match vm.memory.read_word ((base + index * 4 % U32) % U32) with
        | none => none
        | some (Except.error e) => some (vm, some e)
        | some (Except.ok value) => vm.writeReg rd value
  | MTypeOp.ASTORE =>
    match vm.registers.read rs.get_value with
    | Except.error e => some (vm, some e)
    | Except.ok base =>
      match vm.registers.read rt.get_value with
      | Except.error e => some (vm, some e)
      | Except.ok index =>
        match vm.registers.read rd.get_value with
        | Except.error e => some (vm, some e)
        | Except.ok value =>
          match vm.memory.write_word ((base + index * 4 % U32) % U32) value with
          | none => none
          | some (Except.error e) => some (vm, some e)
          | some (Except.ok m2) => some ({ vm with memory := m2 }, none)

/-- Model of VM::execute_stype (see the section note on stdio). -/
def VMState.execute_stype (vm : VMState) (opcode : STypeOp) (rd rs : Option Register) :
    Option (VMState × Option VMError) :=
  match opcode with
  | STypeOp.PRINT =>
    match rs with
    | some reg =>
      match vm.registers.read reg.get_value with
      | Except.error e => some (vm, some e)
      | Except.ok _ => some (vm, none)
    | none => some (vm, none)
  | STypeOp.READ =>
    match rd with
    | some _ => none
    | none => some (vm, none)
  | STypeOp.SYSCALL =>
    match rs with
    | some reg =>
      match vm.registers.read reg.get_value with
      | Except.error e => some (vm, some e)
      | Except.ok num =>
        if num = 1 then some ({ vm with running := false }, none)
        else some (vm, some (VMError.SystemCallError
          ("Unknown syscall: " ++ toString (toSigned num))))
    | none =>
      some (vm, some (VMError.SystemCallError ("Unknown syscall: " ++ toString (0 : Int))))

/-- Model of VM::execute_ntype. -/
def VMState.execute_ntype (vm : VMState) (opcode : NTypeOp) :
    Option (VMState × Option VMError) :=
  match opcode with
  | NTypeOp.NOP => some (vm, none)
  | NTypeOp.HALT => some ({ vm with running := false }, none)

/-- Model of VM::execute_instruction. -/
def VMState.execute_instruction (vm : VMState) (instruction : InstructionType)
    (current_pc : Nat) : Option (VMState × Option VMError) :=
  match instruction with
  | InstructionType.RType opcode rd rs rt => vm.execute_rtype opcode rd rs rt
  | InstructionType.IType opcode rd rs imm => vm.execute_itype opcode rd rs imm
  | InstructionType.BType opcode rs rt offset =>
    vm.execute_btype opcode rs rt offset current_pc
  | InstructionType.JType opcode addr => vm.execute_jtype opcode addr
  | InstructionType.MType opcode rd rs rt => vm.execute_mtype opcode rd rs rt
  | InstructionType.SType opcode rd rs => vm.execute_stype opcode rd rs
  | InstructionType.NType opcode => vm.execute_ntype opcode

/-- Model of VM::step with auto-GC disabled: refuse when halted, fetch,
decode (an undecodable word errs with InvalidInstruction before the pc
advances), advance the pc by 4 (u32 wrap) and count the instruction,
then execute with the saved pc. -/
def VMState.step (vm : VMState) : Option (VMState × Option VMError) :=
  if vm.running = false then some (vm, some VMError.ProgramHalted)
  else
    match vm.memory.read_word vm.pc with
    | none => none
    | some (Except.error e) => some (vm, some e)
    | some (Except.ok instruction_bits) =>
      match decode instruction_bits with
      | Except.error _ => some (vm, some (VMError.InvalidInstruction instruction_bits))
      | Except.ok instruction =>
        VMState.execute_instruction
          { vm with
              pc := (vm.pc + 4) % U32
              instructionCount := (vm.instructionCount + 1) % 18446744073709551616 }
          instruction vm.pc

theorem step_exec (vm : VMState) {bits : Nat} {instr : InstructionType}
    (hrun : vm.running = true)
    (hfetch : vm.memory.read_word vm.pc = some (Except.ok bits))
    (hdec : decode bits = Except.ok instr) :
    vm.step = VMState.execute_instruction
      { vm with
          pc := (vm.pc + 4) % U32
          instructionCount := (vm.instructionCount + 1) % 18446744073709551616 }
      instr vm.pc := by
  unfold VMState.step
  rw [if_neg (show ¬ (vm.running = false) by rw [hrun]; decide), hfetch]
  show (match decode bits with
    | Except.error _ => some (vm, some (VMError.InvalidInstruction bits))
    | Except.ok instruction =>
      VMState.execute_instruction
        { vm with
            pc := (vm.pc + 4) % U32
            instructionCount := (vm.instructionCount + 1) % 18446744073709551616 }
        instruction vm.pc) = _
  rw [hdec]

theorem execute_btype_eq (vm : VMState) (op : BTypeOp) (rs rt : Register)
    (offset current_pc : Nat) {rsv rtv : Nat}
    (hrs : vm.registers.read rs.get_value = Except.ok rsv)
    (hrt : vm.registers.read rt.get_value = Except.ok rtv) :
    vm.execute_btype op rs rt offset current_pc =
      if branchTaken op rsv rtv then
        if branchTarget current_pc offset ≥ vm.memory.get_stats.totalMemory then
          some (vm, some (VMError.InvalidJumpAddress (branchTarget current_pc offset)))
        else some ({ vm with pc := branchTarget current_pc offset }, none)
      else some (vm, none) := by
  unfold VMState.execute_btype
  split
  · rename_i e heq
    rw [hrs] at heq
    simp at heq
  · rename_i rs_val heq
    rw [hrs] at heq
    injection heq with heq
    subst heq
    split
    · rename_i e heq2
      rw [hrt] at heq2
      simp at heq2
    · rename_i rt_val heq2
      rw [hrt] at heq2
      injection heq2 with heq2
      subst heq2
      rfl

/-- C4.  Conditional branches behave as specified: the decision is the
stated comparison (signed for BLT/BGE), the taken-branch target is the
pc of the following instruction plus the sign-extended 16-bit offset
clamped to the u32 range, a taken branch whose target reaches total
memory fails the step with InvalidJumpAddress (pc left at the fall
through), and an untaken branch falls through to the next
instruction. -/
theorem claim_C4_branch_semantics (vm : VMState) (op : BTypeOp) (rs rt : Register)
    (offset rsv rtv bits : Nat)
    (hrun : vm.running = true)
    (hfetch : vm.memory.read_word vm.pc = some (Except.ok bits))
    (hdec : decode bits = Except.ok (InstructionType.BType op rs rt offset))
    (hrs : vm.registers.read rs.get_value = Except.ok rsv)
    (hrt : vm.registers.read rt.get_value = Except.ok rtv)
    (hoff : offset < 65536) (hpc4 : vm.pc + 4 < U32) :
    (branchTaken op rsv rtv = true ↔ (match op with
      | BTypeOp.BEQ => rsv = rtv
      | BTypeOp.BNE => rsv ≠ rtv
      | BTypeOp.BLT => toSigned rsv < toSigned rtv
      | BTypeOp.BGE => toSigned rtv ≤ toSigned rsv
      | BTypeOp.BZ => rsv = 0
      | BTypeOp.BNZ => rsv ≠ 0)) ∧
    ((branchTarget vm.pc offset : Int) =
      max 0 (min ((vm.pc : Int) + 4 + toSigned16 offset) 4294967295)) ∧
    (branchTaken op rsv rtv = true →
      branchTarget vm.pc offset < vm.memory.memorySize →
      vm.step = some ({ vm with
          pc := branchTarget vm.pc offset
          instructionCount := (vm.instructionCount + 1) % 18446744073709551616 },
        none)) ∧
    (branchTaken op rsv rtv = true →
      vm.memory.memorySize ≤ branchTarget vm.pc offset →
      vm.step = some ({ vm with
          pc := (vm.pc + 4) % U32
          instructionCount := (vm.instructionCount + 1) % 18446744073709551616 },
        some (VMError.InvalidJumpAddress (branchTarget vm.pc offset)))) ∧
    (branchTaken op rsv rtv = false →
      vm.step = some ({ vm with
          pc := (vm.pc + 4) % U32
          instructionCount := (vm.instructionCount + 1) % 18446744073709551616 },
        none)) := by
  have hstep := step_exec vm hrun hfetch hdec
  have hrs1 : ({ vm with
      pc := (vm.pc + 4) % U32
      instructionCount := (vm.instructionCount + 1) % 18446744073709551616 } :
        VMState).registers.read rs.get_value = Except.ok rsv := hrs
  have hrt1 : ({ vm with
      pc := (vm.pc + 4) % U32
      instructionCount := (vm.instructionCount + 1) % 18446744073709551616 } :
        VMState).registers.read rt.get_value = Except.ok rtv := hrt
  have hexec := execute_btype_eq _ op rs rt offset vm.pc hrs1 hrt1
  refine ⟨?_, ?_, ?_, ?_, ?_⟩
  · cases op <;> simp [branchTaken]
  · have hmod : (vm.pc + 4) % U32 = vm.pc + 4 := Nat.mod_eq_of_lt hpc4
    unfold branchTarget toSigned16
    rw [hmod]
    rw [show U32 = 4294967296 from rfl] at hpc4 ⊢
    split_ifs <;> omega
  · intro htaken hlt
    rw [hstep]
    show VMState.execute_btype
      { vm with
          pc := (vm.pc + 4) % U32
          instructionCount := (vm.instructionCount + 1) % 18446744073709551616 }
      op rs rt offset vm.pc = _
    rw [hexec, if_pos htaken]
    split
    · rename_i hcon
      exact absurd hcon (Nat.not_le.mpr hlt)
    · rfl
  · intro htaken hge
    rw [hstep]
    show VMState.execute_btype
      { vm with
          pc := (vm.pc + 4) % U32
          instructionCount := (vm.instructionCount + 1) % 18446744073709551616 }
      op rs rt offset vm.pc = _
    rw [hexec, if_pos htaken]
    split
    · rfl
    · rename_i hcon
      exact absurd hge hcon
  · intro hnot
    rw [hstep]
    show VMState.execute_btype
      { vm with
          pc := (vm.pc + 4) % U32
          instructionCount := (vm.instructionCount + 1) % 18446744073709551616 }
      op rs rt offset vm.pc = _
    rw [hexec, if_neg (by rw [hnot]; decide)]

/-- Memory holding the single encoded instruction BEQ R0, R0, +8
(word 0x50000008) at address 0. -/
def c4mem : Memory :=
  { bytes := fun a => if a = 0 then 8 else if a = 3 then 80 else 0,
    stackPointer := 768, stackBase := 768, heapPointer := 256, heapBase := 256,
    allocatedBlocks := [], memorySize := 1024 }

/-- Running VM about to execute the BEQ at pc 0. -/
def c4vm : VMState :=
  { registers := RegisterFile.new, memory := c4mem, gc := GarbageCollector.new_default,
    pc := 0, running := true, instructionCount := 0 }

/-- C4, witness: BEQ R0, R0, +8 at pc 0 with equal (zero) registers is
taken and lands on pc 12 = (0 + 4) + 8. -/
theorem claim_C4_witness :
    c4vm.step = some ({ c4vm with pc := 12, instructionCount := 1 }, none) ∧
    branchTaken BTypeOp.BEQ 0 0 = true ∧ branchTarget 0 8 = 12 :=
  ⟨(claim_C4_branch_semantics c4vm BTypeOp.BEQ ⟨0⟩ ⟨0⟩ 8 0 0 1342177288 rfl rfl rfl rfl
      rfl (by decide) (by decide)).2.2.1 rfl (by decide), rfl, by decide⟩

theorem writeWordBytes_outside (m : Memory) (addr v x : Nat)
    (h : x < addr ∨ addr + 3 < x) : m.writeWordBytes addr v x = m.bytes x := by
  unfold Memory.writeWordBytes
  rw [if_neg (by omega), if_neg (by omega), if_neg (by omega), if_neg (by omega)]

theorem writeWordBytes_sum (m : Memory) (addr v : Nat) (hv : v < U32) :
    m.writeWordBytes addr v addr + m.writeWordBytes addr v (addr + 1) * 256 +
    m.writeWordBytes addr v (addr + 2) * 65536 +
    m.writeWordBytes addr v (addr + 3) * 16777216 = v := by
  unfold Memory.writeWordBytes
  rw [if_pos rfl]
  rw [if_neg (by omega), if_pos rfl]
  rw [if_neg (by omega), if_neg (by omega), if_pos rfl]
  rw [if_neg (by omega), if_neg (by omega), if_neg (by omega), if_pos rfl]
  simp only [U32] at hv
  omega

/-- The memory after a successful push: pointer down 4, word stored. -/
def Memory.pushed (m : Memory) (v : Nat) : Memory :=
  { m with
      stackPointer := m.stackPointer - 4
      bytes := m.writeWordBytes (m.stackPointer - 4) v }

theorem Memory.stack_push_success {m : Memory} {v : Nat}
    (hguard : ¬ m.stackPointer < (m.heapPointer + 4) % U32)
    (h4 : 4 ≤ m.stackPointer) (hspU : m.stackPointer < U32)
    (hfit : m.stackPointer - 4 + 3 < m.memorySize) (hms : m.memorySize ≤ U32) :
    m.stack_push v = some (m.pushed v, none) := by
  unfold Memory.stack_push
  rw [if_neg hguard]
  show (match ({ m with stackPointer := (m.stackPointer + U32 - 4) % U32 } :
      Memory).write_word ((m.stackPointer + U32 - 4) % U32) v with
    | none => none
    | some (Except.error e) =>
      some (({ m with stackPointer := (m.stackPointer + U32 - 4) % U32 } : Memory),
        some e)
    | some (Except.ok m2) => some (m2, none)) = _
  have hmod : (m.stackPointer + U32 - 4) % U32 = m.stackPointer - 4 := by
    simp only [U32] at hspU ⊢
    omega
  rw [hmod]
  rw [Memory.write_word_success (show m.stackPointer - 4 + 3 <
    ({ m with stackPointer := m.stackPointer - 4 } : Memory).memorySize from hfit) hms]
  rfl

theorem Memory.stack_pop_success {m : Memory} {v : Nat}
    (hguard : ¬ m.stackPointer ≥ m.stackBase)
    (hfit : m.stackPointer + 3 < m.memorySize) (hms : m.memorySize ≤ U32)
    (hv : m.bytes m.stackPointer + m.bytes (m.stackPointer + 1) * 256 +
      m.bytes (m.stackPointer + 2) * 65536 +
      m.bytes (m.stackPointer + 3) * 16777216 = v) :
    m.stack_pop = some ({ m with stackPointer := (m.stackPointer + 4) % U32 },
      Except.ok v) := by
  unfold Memory.stack_pop
  rw [if_neg hguard, Memory.read_word_success hfit hms, hv]

theorem stack_lifo (m : Memory) (a b : Nat)
    (hguard : (m.heapPointer + 4) % U32 ≤ m.stackPointer - 8)
    (h8 : 8 ≤ m.stackPointer) (hspU : m.stackPointer < U32)
    (hsple : m.stackPointer ≤ m.memorySize) (hms : m.memorySize ≤ U32)
    (hsb : m.stackPointer - 4 < m.stackBase)
    (ha : a < U32) (hb : b < U32) :
    ∃ m1 m2 m3 m4,
      m.stack_push a = some (m1, none) ∧
      m1.stack_push b = some (m2, none) ∧
      m2.stack_pop = some (m3, Except.ok b) ∧
      m3.stack_pop = some (m4, Except.ok a) ∧
      m4.stackPointer = m.stackPointer ∧
      m4.allocatedBlocks = m.allocatedBlocks := by
  have h1 := Memory.stack_push_success (m := m) (v := a)
    (by omega) (by omega) hspU (by omega) hms
  have h2 := Memory.stack_push_success (m := m.pushed a) (v := b)
    (show ¬ m.stackPointer - 4 < (m.heapPointer + 4) % U32 by omega)
    (show 4 ≤ m.stackPointer - 4 by omega)
    (show m.stackPointer - 4 < U32 by omega)
    (show m.stackPointer - 4 - 4 + 3 < m.memorySize by omega)
    (show m.memorySize ≤ U32 from hms)
  have h3 := Memory.stack_pop_success (m := (m.pushed a).pushed b) (v := b)
    (show ¬ m.stackPointer - 4 - 4 ≥ m.stackBase by omega)
    (show m.stackPointer - 4 - 4 + 3 < m.memorySize by omega)
    (show m.memorySize ≤ U32 from hms)
    (writeWordBytes_sum (m.pushed a) (m.stackPointer - 4 - 4) b hb)
  have hsp3 : (((m.pushed a).pushed b).stackPointer + 4) % U32 = m.stackPointer - 4 := by
    show (m.stackPointer - 4 - 4 + 4) % U32 = m.stackPointer - 4
    simp only [U32] at hspU ⊢
    omega
  have hv2 : ({ (m.pushed a).pushed b with
      stackPointer := (((m.pushed a).pushed b).stackPointer + 4) % U32 } : Memory).bytes
        (m.stackPointer - 4) +
      ({ (m.pushed a).pushed b with
      stackPointer := (((m.pushed a).pushed b).stackPointer + 4) % U32 } : Memory).bytes
        (m.stackPointer - 4 + 1) * 256 +
      ({ (m.pushed a).pushed b with
      stackPointer := (((m.pushed a).pushed b).stackPointer + 4) % U32 } : Memory).bytes
        (m.stackPointer - 4 + 2) * 65536 +
      ({ (m.pushed a).pushed b with
      stackPointer := (((m.pushed a).pushed b).stackPointer + 4) % U32 } : Memory).bytes
        (m.stackPointer - 4 + 3) * 16777216 = a := by
    rw [show ({ (m.pushed a).pushed b with
        stackPointer := (((m.pushed a).pushed b).stackPointer + 4) % U32 } : Memory).bytes
          (m.stackPointer - 4) = (m.pushed a).bytes (m.stackPointer - 4) from
      writeWordBytes_outside (m.pushed a) (m.stackPointer - 4 - 4) b
        (m.stackPointer - 4) (by omega)]
    rw [show ({ (m.pushed a).pushed b with
        stackPointer := (((m.pushed a).pushed b).stackPointer + 4) % U32 } : Memory).bytes
          (m.stackPointer - 4 + 1) = (m.pushed a).bytes (m.stackPointer - 4 + 1) from
      writeWordBytes_outside (m.pushed a) (m.stackPointer - 4 - 4) b
        (m.stackPointer - 4 + 1) (by omega)]
    rw [show ({ (m.pushed a).pushed b with
        stackPointer := (((m.pushed a).pushed b).stackPointer + 4) % U32 } : Memory).bytes
          (m.stackPointer - 4 + 2) = (m.pushed a).bytes (m.stackPointer - 4 + 2) from
      writeWordBytes_outside (m.pushed a) (m.stackPointer - 4 - 4) b
        (m.stackPointer - 4 + 2) (by omega)]
    rw [show ({ (m.pushed a).pushed b with
        stackPointer := (((m.pushed a).pushed b).stackPointer + 4) % U32 } : Memory).bytes
          (m.stackPointer - 4 + 3) = (m.pushed a).bytes (m.stackPointer - 4 + 3) from
      writeWordBytes_outside (m.pushed a) (m.stackPointer - 4 - 4) b
        (m.stackPointer - 4 + 3) (by omega)]
    exact writeWordBytes_sum m (m.stackPointer - 4) a ha
  have h4 := Memory.stack_pop_success
    (m := { (m.pushed a).pushed b with
      stackPointer := (((m.pushed a).pushed b).stackPointer + 4) % U32 }) (v := a)
    (show ¬ (m.stackPointer - 4 - 4 + 4) % U32 ≥ m.stackBase by
      simp only [U32] at hspU ⊢
      omega)
    (show (m.stackPointer - 4 - 4 + 4) % U32 + 3 < m.memorySize by
      simp only [U32] at hspU ⊢
      omega)
    (show m.memorySize ≤ U32 from hms)
    (by rw [hsp3] at hv2 ⊢; exact hv2)
  refine ⟨_, _, _, _, h1, h2, h3, h4, ?_, rfl⟩
  show ((((m.pushed a).pushed b).stackPointer + 4) % U32 + 4) % U32 = m.stackPointer
  show ((m.stackPointer - 4 - 4 + 4) % U32 + 4) % U32 = m.stackPointer
  simp only [U32] at hspU ⊢
  omega

/-- C5.  CALL pushes the address of the instruction immediately
following the CALL (the already advanced pc) onto the stack — the
pushed word reads back as that address — then jumps to the 16-bit
target, failing the step with InvalidJumpAddress when the target
reaches total memory (the push persists); RET pops one word and sets
it as the pc; and the stack discipline is LIFO: two pushes pop in
reverse order, restoring the stack pointer. -/
theorem claim_C5_call_ret_lifo :
    (∀ (vm : VMState) (addr bits : Nat),
      vm.running = true →
      vm.memory.read_word vm.pc = some (Except.ok bits) →
      decode bits = Except.ok (InstructionType.JType JTypeOp.CALL addr) →
      ¬ vm.memory.stackPointer < (vm.memory.heapPointer + 4) % U32 →
      4 ≤ vm.memory.stackPointer → vm.memory.stackPointer < U32 →
      vm.memory.stackPointer - 4 + 3 < vm.memory.memorySize →
      vm.memory.memorySize ≤ U32 →
      (addr < vm.memory.memorySize →
        vm.step = some ({ vm with
            memory := vm.memory.pushed ((vm.pc + 4) % U32)
            pc := addr
            instructionCount := (vm.instructionCount + 1) % 18446744073709551616 },
          none)) ∧
      (vm.memory.memorySize ≤ addr →
        vm.step = some ({ vm with
            memory := vm.memory.pushed ((vm.pc + 4) % U32)
            pc := (vm.pc + 4) % U32
            instructionCount := (vm.instructionCount + 1) % 18446744073709551616 },
          some (VMError.InvalidJumpAddress addr))) ∧
      (vm.memory.pushed ((vm.pc + 4) % U32)).read_word (vm.memory.stackPointer - 4) =
        some (Except.ok ((vm.pc + 4) % U32))) ∧
    (∀ (vm : VMState) (bits retv : Nat) (m1 : Memory),
      vm.running = true →
      vm.memory.read_word vm.pc = some (Except.ok bits) →
      decode bits = Except.ok (InstructionType.JType JTypeOp.RET 0) →
      vm.memory.stack_pop = some (m1, Except.ok retv) →
      vm.step = some ({ vm with
          memory := m1
          pc := retv
          instructionCount := (vm.instructionCount + 1) % 18446744073709551616 },
        none)) ∧
    (∀ (m : Memory) (a b : Nat),
      (m.heapPointer + 4) % U32 ≤ m.stackPointer - 8 →
      8 ≤ m.stackPointer → m.stackPointer < U32 →
      m.stackPointer ≤ m.memorySize → m.memorySize ≤ U32 →
      m.stackPointer - 4 < m.stackBase → a < U32 → b < U32 →
      ∃ m1 m2 m3 m4,
        m.stack_push a = some (m1, none) ∧
        m1.stack_push b = some (m2, none) ∧
        m2.stack_pop = some (m3, Except.ok b) ∧
        m3.stack_pop = some (m4, Except.ok a) ∧
        m4.stackPointer = m.stackPointer ∧
        m4.allocatedBlocks = m.allocatedBlocks) := by
  refine ⟨?_, ?_, ?_⟩
  · intro vm addr bits hrun hfetch hdec hguard h4 hspU hfit hms
    have hstep := step_exec vm hrun hfetch hdec
    have hpush := Memory.stack_push_success (m := vm.memory) (v := (vm.pc + 4) % U32)
      hguard h4 hspU hfit hms
    refine ⟨?_, ?_, ?_⟩
    · intro haddr
      rw [hstep]
      show (match vm.memory.stack_push ((vm.pc + 4) % U32) with
        | none => none
        | some (m1, some e) =>
          some (({ vm with
            pc := (vm.pc + 4) % U32
            instructionCount := (vm.instructionCount + 1) % 18446744073709551616
            memory := m1 } : VMState), some e)
        | some (m1, none) =>
          if addr ≥ m1.get_stats.totalMemory then
            some (({ vm with
              pc := (vm.pc + 4) % U32
              instructionCount := (vm.instructionCount + 1) % 18446744073709551616
              memory := m1 } : VMState), some (VMError.InvalidJumpAddress addr))
          else
            some (({ vm with
              pc := addr
              instructionCount := (vm.instructionCount + 1) % 18446744073709551616
              memory := m1 } : VMState), none)) = _
      rw [hpush]
      show (if addr ≥ (vm.memory.pushed ((vm.pc + 4) % U32)).get_stats.totalMemory then
          some (({ vm with
            pc := (vm.pc + 4) % U32
            instructionCount := (vm.instructionCount + 1) % 18446744073709551616
            memory := vm.memory.pushed ((vm.pc + 4) % U32) } : VMState),
            some (VMError.InvalidJumpAddress addr))
        else
          some (({ vm with
            pc := addr
            instructionCount := (vm.instructionCount + 1) % 18446744073709551616
            memory := vm.memory.pushed ((vm.pc + 4) % U32) } : VMState), none)) = _
      split
      · rename_i hcon
        exact absurd hcon (Nat.not_le.mpr haddr)
      · rfl
    · intro haddr
      rw [hstep]
      show (match vm.memory.stack_push ((vm.pc + 4) % U32) with
        | none => none
        | some (m1, some e) =>
          some (({ vm with
            pc := (vm.pc + 4) % U32
            instructionCount := (vm.instructionCount + 1) % 18446744073709551616
            memory := m1 } : VMState), some e)
        | some (m1, none) =>
          if addr ≥ m1.get_stats.totalMemory then
            some (({ vm with
              pc := (vm.pc + 4) % U32
              instructionCount := (vm.instructionCount + 1) % 18446744073709551616
              memory := m1 } : VMState), some (VMError.InvalidJumpAddress addr))
          else
            some (({ vm with
              pc := addr
              instructionCount := (vm.instructionCount + 1) % 18446744073709551616
              memory := m1 } : VMState), none)) = _
      rw [hpush]
      show (if addr ≥ (vm.memory.pushed ((vm.pc + 4) % U32)).get_stats.totalMemory then
          some (({ vm with
            pc := (vm.pc + 4) % U32
            instructionCount := (vm.instructionCount + 1) % 18446744073709551616
            memory := vm.memory.pushed ((vm.pc + 4) % U32) } : VMState),
            some (VMError.InvalidJumpAddress addr))
        else
          some (({ vm with
            pc := addr
            instructionCount := (vm.instructionCount + 1) % 18446744073709551616
            memory := vm.memory.pushed ((vm.pc + 4) % U32) } : VMState), none)) = _
      split
      · rfl
      · rename_i hcon
        exact absurd haddr hcon
    · have hlt : (vm.pc + 4) % U32 < U32 := Nat.mod_lt _ (by decide)
      rw [Memory.read_word_success
        (show vm.memory.stackPointer - 4 + 3 <
          (vm.memory.pushed ((vm.pc + 4) % U32)).memorySize from hfit) hms]
      rw [show (vm.memory.pushed ((vm.pc + 4) % U32)).bytes (vm.memory.stackPointer - 4) +
          (vm.memory.pushed ((vm.pc + 4) % U32)).bytes (vm.memory.stackPointer - 4 + 1) *
            256 +
          (vm.memory.pushed ((vm.pc + 4) % U32)).bytes (vm.memory.stackPointer - 4 + 2) *
            65536 +
          (vm.memory.pushed ((vm.pc + 4) % U32)).bytes (vm.memory.stackPointer - 4 + 3) *
            16777216 = (vm.pc + 4) % U32 from
        writeWordBytes_sum vm.memory (vm.memory.stackPointer - 4) ((vm.pc + 4) % U32)
          hlt]
  · intro vm bits retv m1 hrun hfetch hdec hpop
    have hstep := step_exec vm hrun hfetch hdec
    rw [hstep]
    show (match vm.memory.stack_pop with
      | none => none
      | some (m1, Except.error e) =>
        some (({ vm with
          pc := (vm.pc + 4) % U32
          instructionCount := (vm.instructionCount + 1) % 18446744073709551616
          memory := m1 } : VMState), some e)
      | some (m1, Except.ok return_addr) =>
        some (({ vm with
          pc := return_addr
          instructionCount := (vm.instructionCount + 1) % 18446744073709551616
          memory := m1 } : VMState), none)) = _
    rw [hpop]
  · intro m a b hguard h8 hspU hsple hms hsb ha hb
    exact stack_lifo m a b hguard h8 hspU hsple hms hsb ha hb

/-- Memory holding the encoded CALL 0x20 (word 0x61000020) at 0. -/
def c5mem : Memory :=
  { bytes := fun a => if a = 0 then 32 else if a = 3 then 97 else 0,
    stackPointer := 768, stackBase := 768, heapPointer := 256, heapBase := 256,
    allocatedBlocks := [], memorySize := 1024 }

/-- Running VM about to execute the CALL at pc 0. -/
def c5vm : VMState :=
  { registers := RegisterFile.new, memory := c5mem, gc := GarbageCollector.new_default,
    pc := 0, running := true, instructionCount := 0 }

/-- Memory holding the encoded RET (word 0x62000000) at 0 and the
return address 4 on the stack at 764. -/
def c5memRet : Memory :=
  { bytes := fun a => if a = 3 then 98 else if a = 764 then 4 else 0,
    stackPointer := 764, stackBase := 768, heapPointer := 256, heapBase := 256,
    allocatedBlocks := [], memorySize := 1024 }

/-- Running VM about to execute the RET at pc 0. -/
def c5vmRet : VMState :=
  { registers := RegisterFile.new, memory := c5memRet,
    gc := GarbageCollector.new_default, pc := 0, running := true,
    instructionCount := 0 }

/-- C5, witness: the CALL at pc 0 pushes 4 (the address after the
CALL, reading back from the stack) and jumps to 0x20; the RET pops 4
into the pc; and pushes of 100 then 200 pop as 200 then 100 with the
stack pointer restored. -/
theorem claim_C5_witness :
    c5vm.step = some ({ c5vm with
        memory := c5mem.pushed 4
        pc := 32
        instructionCount := 1 }, none) ∧
    (c5mem.pushed 4).read_word 764 = some (Except.ok 4) ∧
    c5vmRet.step = some ({ c5vmRet with
        memory := { c5memRet with stackPointer := 768 }
        pc := 4
        instructionCount := 1 }, none) ∧
    (∃ m1 m2 m3 m4,
      c5mem.stack_push 100 = some (m1, none) ∧
      m1.stack_push 200 = some (m2, none) ∧
      m2.stack_pop = some (m3, Except.ok 200) ∧
      m3.stack_pop = some (m4, Except.ok 100) ∧
      m4.stackPointer = c5mem.stackPointer ∧
      m4.allocatedBlocks = c5mem.allocatedBlocks) := by
  have h := claim_C5_call_ret_lifo
  refine ⟨?_, ?_, ?_, ?_⟩
  · exact (h.1 c5vm 32 1627389984 rfl rfl rfl (by decide) (by decide) (by decide)
      (by decide) (by decide)).1 (by decide)
  · exact (h.1 c5vm 32 1627389984 rfl rfl rfl (by decide) (by decide) (by decide)
      (by decide) (by decide)).2.2
  · exact h.2.1 c5vmRet 1644167168 4 { c5memRet with stackPointer := 768 } rfl rfl rfl
      rfl
  · exact h.2.2 c5mem 100 200 (by decide) (by decide) (by decide) (by decide)
      (by decide) (by decide) (by decide) (by decide)

/-- C9.  The FREE instruction unregisters the collector object for the
target address before calling Memory::free: the step always ends with
gc = unregister_object(addr) (whose table no longer holds addr) and
memory/error exactly those of Memory::free; in particular when the
address has no recorded allocation, free fails with FreeFailed yet a
previously tracked entry has been removed — the collector state is not
left unchanged on error. -/
theorem claim_C9_free_unregisters_first (vm : VMState) (rd rs rt : Register)
    (addr bits : Nat)
    (hrun : vm.running = true)
    (hfetch : vm.memory.read_word vm.pc = some (Except.ok bits))
    (hdec : decode bits = Except.ok (InstructionType.MType MTypeOp.FREE rd rs rt))
    (hrs : vm.registers.read rs.get_value = Except.ok addr) :
    vm.step = some ({ vm with
        gc := vm.gc.unregister_object addr
        memory := (vm.memory.free addr).1
        pc := (vm.pc + 4) % U32
        instructionCount := (vm.instructionCount + 1) % 18446744073709551616 },
      (vm.memory.free addr).2) ∧
    (vm.gc.unregister_object addr).objects.lookup addr = none ∧
    (vm.memory.allocatedBlocks.lookup addr = none →
      vm.memory.free addr = (vm.memory, some (VMError.FreeFailed addr))) ∧
    ((vm.gc.objects.lookup addr).isSome = true →
      (vm.gc.unregister_object addr).objects ≠ vm.gc.objects) := by
  refine ⟨?_, unregister_lookup_self vm.gc addr, ?_, ?_⟩
  · have hstep := step_exec vm hrun hfetch hdec
    rcases hfree : vm.memory.free addr with ⟨m1, eo⟩
    rw [hstep]
    show (match vm.registers.read rs.get_value with
      | Except.error e =>
        some (({ vm with
          pc := (vm.pc + 4) % U32
          instructionCount := (vm.instructionCount + 1) % 18446744073709551616 } :
            VMState), some e)
      | Except.ok address =>
        match vm.memory.free address with
        | (m1, some e) =>
          some (({ vm with
            gc := vm.gc.unregister_object address
            memory := m1
            pc := (vm.pc + 4) % U32
            instructionCount := (vm.instructionCount + 1) % 18446744073709551616 } :
              VMState), some e)
        | (m1, none) =>
          some (({ vm with
            gc := vm.gc.unregister_object address
            memory := m1
            pc := (vm.pc + 4) % U32
            instructionCount := (vm.instructionCount + 1) % 18446744073709551616 } :
              VMState), none)) = _
    rw [hrs]
    show (match vm.memory.free addr with
      | (m1, some e) =>
        some (({ vm with
          gc := vm.gc.unregister_object addr
          memory := m1
          pc := (vm.pc + 4) % U32
          instructionCount := (vm.instructionCount + 1) % 18446744073709551616 } :
            VMState), some e)
      | (m1, none) =>
        some (({ vm with
          gc := vm.gc.unregister_object addr
          memory := m1
          pc := (vm.pc + 4) % U32
          instructionCount := (vm.instructionCount + 1) % 18446744073709551616 } :
            VMState), none)) = _
    rw [hfree]
    cases eo with
    | none => rfl
    | some e => rfl
  · intro h
    unfold Memory.free
    rw [h]
  · intro hsome hcon
    have h1 := unregister_lookup_self vm.gc addr
    rw [hcon] at h1
    rw [h1] at hsome
    simp at hsome

/-- Collector tracking an object at 400 (no recorded allocation in the
memory below). -/
def c9meta : ObjectMetadata :=
  { address := 400, size := 8, color := ObjectColor.White, marked := false,
    generation := 0, references := [] }

/-- See c9meta: the collector state before the FREE step. -/
def c9gc : GarbageCollector :=
  { objects := [(400, c9meta)],
    config := GCConfig.defaultConfig, stats := GCStats.defaultStats, grayQueue := [],
    rootSet := [], writeBarrierLog := [], generationSizes := fun _ => 0 }

/-- Memory holding the encoded FREE R1 (word 0x71004000) at 0 and no
recorded allocations. -/
def c9mem : Memory :=
  { bytes := fun a => if a = 1 then 64 else if a = 3 then 113 else 0,
    stackPointer := 768, stackBase := 768, heapPointer := 256, heapBase := 256,
    allocatedBlocks := [], memorySize := 1024 }

/-- Running VM with R1 = 400 about to execute the FREE at pc 0. -/
def c9vm : VMState :=
  { registers := ⟨fun i => if i = 1 then 400 else 0⟩, memory := c9mem, gc := c9gc,
    pc := 0, running := true, instructionCount := 0 }

/-- C9, witness: FREE R1 with R1 = 400 and no recorded block at 400
fails with FreeFailed(400), yet the collector entry for 400 (present
before the step) is gone afterwards. -/
theorem claim_C9_witness :
    c9vm.step = some ({ c9vm with
        gc := c9vm.gc.unregister_object 400
        memory := (c9mem.free 400).1
        pc := 4
        instructionCount := 1 }, (c9mem.free 400).2) ∧
    (c9vm.gc.unregister_object 400).objects.lookup 400 = none ∧
    c9mem.free 400 = (c9mem, some (VMError.FreeFailed 400)) ∧
    (c9gc.objects.lookup 400).isSome = true ∧
    (c9gc.unregister_object 400).objects ≠ c9gc.objects := by
  have h := claim_C9_free_unregisters_first c9vm ⟨0⟩ ⟨1⟩ ⟨0⟩ 400 1895841792 rfl rfl rfl
    rfl
  exact ⟨h.1, h.2.1, h.2.2.1 rfl, by rfl, h.2.2.2 (by rfl)⟩
